import Mathlib

/-!
# LTFS Data Management, DMAPI connector (src/connector/dmapi/Connector.cc)

A shallow embedding of the connector's file object (`FsObj`), its identity
lock table (`fuidMap`), the migration state derivation and the event
dispatcher, with the properties proved about them.

Conventions of the embedding

* A kernel (DMAPI) call whose result the code branches on takes its result as
  an argument (`rc : Bool`, true for a return value of 0, false for -1), or is
  computed from the modelled kernel state of the file together with an injected
  failure (`fault : Option Nat`, the errno of a call that fails).
* A C++ exception, a failed `assert` and the other ways a call can end without
  returning are values of `Exc`; a function that can throw returns what it
  threw next to the state it left behind.
* Kernel calls whose number matters are appended to a log (`KCall`).
* C++ `int` and `long` values are integers; no claim proved here depends on
  their overflow.
* Declarations of src/connector/Connector.h, src/common/Const.h and
  src/common/errors.h are not among the sources; the types and constants of
  them that Connector.cc uses are modelled and marked as such.
-/

namespace LTFSDM

/-! ## Errors and exceptions -/

/-- Modelled from the spec: the error codes of src/common/errors.h (not among
the sources) that Connector.cc passes to THROW. -/
inductive Error where
  | GENERAL_ERROR
  | ATTR_FORMAT
  | FS_ADD_ERROR
  | FS_CHECK_ERROR
deriving DecidableEq, Repr

/-- The ways a call ends without returning normally. -/
inductive Exc where
  /-- THROW(Error::...): an LTFSDMException carrying the error code. -/
  | ltfsdm (e : Error)
  /-- The std::system_error with code resource_deadlock_would_occur that
  std::unique_lock::lock throws when the lock is already owned. -/
  | system_error_deadlock
  /-- A failed assert: abort() ends the process. -/
  | assert_abort
  /-- An exception leaving a destructor during stack unwinding: std::terminate. -/
  | terminate
  /-- Undefined behaviour: an array index outside the array, a null
  dereference. -/
  | undefined
deriving DecidableEq, Repr

deriving instance DecidableEq for Except

/-! ## errno values and DMAPI constants (Linux, xfs/dmapi.h) -/

def EPERM : Nat := 1
def ENOENT : Nat := 2
def EINTR : Nat := 4
def EIO_errno : Nat := 5
def E2BIG : Nat := 7
def EBADF : Nat := 9
def EAGAIN : Nat := 11
def EINVAL : Nat := 22

def DM_REGION_NOEVENT : Nat := 0
def DM_REGION_READ : Nat := 1
def DM_REGION_WRITE : Nat := 2
def DM_REGION_TRUNCATE : Nat := 4

/-! ## File identity, handles, file objects -/

/-- Modelled from the spec: the file identity fuid_t of
src/connector/Connector.h (not among the sources), with the four fields
Connector.cc reads and writes. -/
structure fuid_t where
  fsid_h : Nat
  fsid_l : Nat
  igen : Nat
  inum : Nat
deriving DecidableEq, Repr

/-- A DMAPI handle (the pair handle, handleLength of the code). The blob itself
is never inspected by the connector: it is modelled by its length and by what
the kernel conversions dm_handle_to_fsid, dm_handle_to_igen and
dm_handle_to_ino give for it, none when the conversion fails. -/
structure Handle where
  handleLength : Nat
  fsid : Option Nat
  igen : Option Nat
  ino : Option Nat
deriving DecidableEq, Repr

/-- Modelled from the spec: the data members of class FsObj
(src/connector/Connector.h, not among the sources) that Connector.cc
initialises and uses. -/
structure FsObj where
  handle : Handle
  isLocked : Bool
  handleFree : Bool
deriving DecidableEq, Repr

/-- The kernel calls the embedding counts. -/
inductive KCall where
  /-- dm_request_right(session, handle, token, DM_RR_WAIT, DM_RIGHT_EXCL) -/
  | request_right (h : Handle)
  /-- dm_release_right(session, handle, token) -/
  | release_right (h : Handle)
  /-- dm_respond_event(session, token, response, reterror, 0, NULL); the
  response is true for DM_RESP_CONTINUE and false for DM_RESP_ABORT. -/
  | respond_event (token : Nat) (resume : Bool) (reterror : Nat)
  /-- dm_set_disp(session, handle, DM_NO_TOKEN, eventSet, DM_EVENT_MAX) with the
  event set READ, WRITE, TRUNCATE on a filesystem handle. -/
  | set_disp (h : Handle)
  /-- dm_set_disp with the same event set on the filesystem handle that
  dm_handle_to_fshandle derived from the handle `h`. -/
  | set_disp_fs_of (h : Handle)
  /-- dm_respond_event(sid, token, response, reterror, 0, NULL) on a token of
  the session `sid`, as issued by dmapiSessionCleanup. -/
  | respond_event_in (sid : Nat) (token : Nat) (resume : Bool) (reterror : Nat)
  /-- dm_destroy_session(sid) -/
  | destroy_session (sid : Nat)
deriving DecidableEq, Repr

/-- The process-wide lock table `std::map<fuid_t, int> fuidMap` together with
the log of the kernel right requests and releases issued so far (oldest
first). An identity without an entry maps to none. -/
structure Registry where
  fuidMap : fuid_t → Option Int
  calls : List KCall

/-- The empty lock table of a starting process. -/
def Registry.empty : Registry :=
  { fuidMap := fun _ => none, calls := [] }

/-- The statement `fuidMap[fuid] = c`. -/
def Registry.assign (reg : Registry) (fuid : fuid_t) (c : Int) : Registry :=
  { reg with fuidMap := fun g => if g = fuid then some c else reg.fuidMap g }

/-- The statement `fuidMap.erase(fuid)`. -/
def Registry.erase (reg : Registry) (fuid : fuid_t) : Registry :=
  { reg with fuidMap := fun g => if g = fuid then none else reg.fuidMap g }

/-- The kernel call is appended to the log. -/
def Registry.issue (reg : Registry) (c : KCall) : Registry :=
  { reg with calls := reg.calls ++ [c] }

/-- FsObj::getfuid: the identity of the object's handle. A handle of length 0
gives the zero identity; otherwise each of the three kernel conversions must
succeed. -/
def FsObj.getfuid (o : FsObj) : Except Exc fuid_t :=
  if o.handle.handleLength = 0 then .ok ⟨0, 0, 0, 0⟩
  else
    match o.handle.fsid with
    | none => .error (.ltfsdm .GENERAL_ERROR)
    | some fsid_l =>
      match o.handle.igen with
      | none => .error (.ltfsdm .GENERAL_ERROR)
      | some igen =>
        match o.handle.ino with
        | none => .error (.ltfsdm .GENERAL_ERROR)
        | some inum => .ok ⟨0, fsid_l, igen, inum⟩

/-- What a lock() or unlock() call leaves behind: the exception it ended with
(none when it returned), the object and the registry. -/
structure LockResult where
  thrown : Option Exc
  obj : FsObj
  reg : Registry

/-- FsObj::lock. `rc` is the result of dm_request_right, consulted only when
the call is made (true: granted). The counter is the C++ int; its overflow
after 2^31 nested locks is undefined in C++ and outside the embedding. -/
def FsObj.lock (o : FsObj) (reg : Registry) (rc : Bool) : LockResult :=
  match o.getfuid with
  | .error e => { thrown := some e, obj := o, reg := reg }
  | .ok fuid =>
    match reg.fuidMap fuid with
    | none =>
      -- fuidMap.count(fuid) == 0
      let reg1 := reg.issue (.request_right o.handle)
      if rc = false then
        { thrown := some (.ltfsdm .GENERAL_ERROR), obj := o, reg := reg1 }
      else
        { thrown := none, obj := { o with isLocked := true }, reg := reg1.assign fuid 1 }
    | some c =>
      { thrown := none, obj := { o with isLocked := true }, reg := reg.assign fuid (c + 1) }

/-- FsObj::unlock. `rc` is the result of dm_release_right, consulted only when
the call is made (true: released). The assert on the table entry is taken as
compiled in: when it fails the process aborts. -/
def FsObj.unlock (o : FsObj) (reg : Registry) (rc : Bool) : LockResult :=
  match o.getfuid with
  | .error e => { thrown := some e, obj := o, reg := reg }
  | .ok fuid =>
    if o.isLocked = false then
      { thrown := some (.ltfsdm .GENERAL_ERROR), obj := o, reg := reg }
    else
      match reg.fuidMap fuid with
      | none =>
        -- assert(fuidMap.count(fuid) == 1)
        { thrown := some .assert_abort, obj := o, reg := reg }
      | some c =>
        if c = 1 then
          let reg1 := reg.issue (.release_right o.handle)
          if rc = false then
            { thrown := some (.ltfsdm .GENERAL_ERROR), obj := o, reg := reg1 }
          else
            { thrown := none, obj := { o with isLocked := false }, reg := reg1.erase fuid }
        else
          { thrown := none, obj := { o with isLocked := false }, reg := reg.assign fuid (c - 1) }

/-- An object on a file of filesystem 7, generation 1, inode 42. -/
def sampleObj : FsObj :=
  { handle := { handleLength := 24, fsid := some 7, igen := some 1, ino := some 42 },
    isLocked := false, handleFree := true }

/-- The identity of `sampleObj`. -/
def sampleFuid : fuid_t := ⟨0, 7, 1, 42⟩

/-- One lock() on the empty table followed by one unlock(), the kernel granting
both calls. -/
def FsObj.unlock_after_lock (o : FsObj) : LockResult :=
  (o.lock Registry.empty true).obj.unlock (o.lock Registry.empty true).reg true

/-! ## Sequences of lock and unlock calls -/

/-- The first `n` of a run of lock() calls on one object, the kernel answering
`rc` to every request; the run ends at the first call that throws. -/
def FsObj.lockTimes : Nat → FsObj → Registry → Bool → LockResult
  | 0, o, reg, _ => { thrown := none, obj := o, reg := reg }
  | n + 1, o, reg, rc =>
    let r := o.lock reg rc
    match r.thrown with
    | some _ => r
    | none => FsObj.lockTimes n r.obj r.reg rc

/-- The first `n` of a run of unlock() calls on one object, the kernel answering
`rc` to every release; the run ends at the first call that throws. -/
def FsObj.unlockTimes : Nat → FsObj → Registry → Bool → LockResult
  | 0, o, reg, _ => { thrown := none, obj := o, reg := reg }
  | n + 1, o, reg, rc =>
    let r := o.unlock reg rc
    match r.thrown with
    | some _ => r
    | none => FsObj.unlockTimes n r.obj r.reg rc

/-- What a run of calls over several objects leaves behind. -/
structure LockAllResult where
  thrown : Option Exc
  objs : List FsObj
  reg : Registry

/-- Every object of the list calls lock() once, in list order, the kernel
answering `rc` to every request; the run ends at the first call that throws. -/
def lockEach : List FsObj → Registry → Bool → LockAllResult
  | [], reg, _ => { thrown := none, objs := [], reg := reg }
  | o :: os, reg, rc =>
    let r := o.lock reg rc
    match r.thrown with
    | some e => { thrown := some e, objs := r.obj :: os, reg := r.reg }
    | none =>
      let rs := lockEach os r.reg rc
      { thrown := rs.thrown, objs := r.obj :: rs.objs, reg := rs.reg }

/-- Every object of the list calls unlock() once, in list order, the kernel
answering `rc` to every release; the run ends at the first call that throws. -/
def unlockEach : List FsObj → Registry → Bool → LockAllResult
  | [], reg, _ => { thrown := none, objs := [], reg := reg }
  | o :: os, reg, rc =>
    let r := o.unlock reg rc
    match r.thrown with
    | some e => { thrown := some e, objs := r.obj :: os, reg := r.reg }
    | none =>
      let rs := unlockEach os r.reg rc
      { thrown := rs.thrown, objs := r.obj :: rs.objs, reg := rs.reg }

/-- A second object on the file of `sampleObj`. -/
def sampleObj2 : FsObj :=
  { handle := { handleLength := 24, fsid := some 7, igen := some 1, ino := some 42 },
    isLocked := false, handleFree := false }

/-! ## The process: several file objects, one lock table -/

/-- The file objects of the process, numbered by their position, and the lock
table they share. -/
structure Sys where
  objs : List FsObj
  reg : Registry

/-- One step of the process: object number `i` calls lock() or unlock(), the
kernel answering `rc` if the call reaches it. Each call runs under the mutex
`mtx` from its first access to the table to its end, so the calls of different
threads take effect one after the other. -/
inductive Action where
  | lock (i : Nat) (rc : Bool)
  | unlock (i : Nat) (rc : Bool)
deriving DecidableEq, Repr

/-- The state after one step. A call that throws (or aborts) leaves what
FsObj.lock and FsObj.unlock left at that point; a number that names no object
is no step. -/
def Sys.step (s : Sys) : Action → Sys
  | .lock i rc =>
    match s.objs[i]? with
    | none => s
    | some o => { objs := s.objs.set i (o.lock s.reg rc).obj, reg := (o.lock s.reg rc).reg }
  | .unlock i rc =>
    match s.objs[i]? with
    | none => s
    | some o => { objs := s.objs.set i (o.unlock s.reg rc).obj, reg := (o.unlock s.reg rc).reg }

/-- The state after a sequence of steps. -/
def Sys.run (s : Sys) (acts : List Action) : Sys :=
  acts.foldl Sys.step s

/-- The starting process: one unlocked object per handle, the table empty. -/
def Sys.init (handles : List Handle) : Sys :=
  { objs := handles.map (fun h => { handle := h, isLocked := false, handleFree := true }),
    reg := Registry.empty }

/-- The object has completed lock() and not yet unlock() (its flag is set) and
its identity is `f`. -/
def FsObj.holds (f : fuid_t) (o : FsObj) : Bool :=
  o.isLocked &&
    (match o.getfuid with
     | .ok g => decide (g = f)
     | .error _ => false)

/-- The number of objects that hold identity `f`. -/
def Sys.holders (s : Sys) (f : fuid_t) : Nat :=
  s.objs.countP (FsObj.holds f)

/-- The table count of an identity, 0 when it has no entry. -/
def Registry.count (reg : Registry) (f : fuid_t) : Int :=
  (reg.fuidMap f).getD 0

/-! ## The migration attribute and the migration state -/

/-- Modelled from the spec: the constants of src/common/Const.h (not among the
sources) that Connector.cc uses, and the value of
typeid(mig_attr_t).hash_code(), the expected format tag. They are parameters
of the embedding. -/
structure Const where
  maxReplica : Nat
  tapeIdLength : Nat
  typeHash : Nat
deriving DecidableEq, Repr

/-- One slot of the tapeInfo array: the tape id as the C string held in the
buffer char tapeId[tapeIdLength + 1], and the start block (a long). -/
structure tape_info_t where
  tapeId : String
  startBlock : Int
deriving DecidableEq, Repr

/-- Modelled from the spec: FsObj::mig_attr_t of src/connector/Connector.h
(not among the sources), the migration attribute record: format tag, added
flag, number of copies (an int) and the array tapeInfo[Const::maxReplica]. -/
structure mig_attr_t where
  typeId : Nat
  added : Bool
  copies : Int
  tapeInfo : List tape_info_t
deriving DecidableEq, Repr

/-- The record after memset(&attr, 0, sizeof(mig_attr_t)). -/
def mig_attr_t.zero (cst : Const) : mig_attr_t :=
  { typeId := 0, added := false, copies := 0,
    tapeInfo := List.replicate cst.maxReplica { tapeId := "", startBlock := 0 } }

/-- A managed region dm_region_t. -/
structure dm_region_t where
  rg_offset : Nat
  rg_size : Nat
  rg_flags : Nat
deriving DecidableEq, Repr

/-- FsObj::file_state. -/
inductive file_state where
  | RESIDENT
  | PREMIGRATED
  | MIGRATED
deriving DecidableEq, Repr

/-- What the kernel keeps for one file: the stored value of the attribute
Const::DMAPI_ATTR_MIG (none when it was never set or was removed) and the
managed regions installed on the file. -/
structure KFile where
  migAttr : Option mig_attr_t
  regions : List dm_region_t
deriving DecidableEq, Repr

/-- The result of a kernel call that returns data: the data (return value 0) or
the errno of the failure (return value -1). -/
abbrev DmResult (α : Type) := Except Nat α

/-- The call dm_get_dmattr for the migration attribute: an injected failure,
ENOENT when the attribute is not set, the stored record otherwise. -/
def dm_get_dmattr (k : KFile) (fault : Option Nat) : DmResult mig_attr_t :=
  match fault with
  | some e => .error e
  | none =>
    match k.migAttr with
    | none => .error ENOENT
    | some a => .ok a

/-- The call dm_get_region with a buffer of `nelem` regions: an injected
failure, E2BIG when more regions are installed than the buffer holds, the
installed regions otherwise. -/
def dm_get_region (k : KFile) (nelem : Nat) (fault : Option Nat) : DmResult (List dm_region_t) :=
  match fault with
  | some e => .error e
  | none => if nelem < k.regions.length then .error E2BIG else .ok k.regions

/-- FsObj::getAttribute on the file `k`; `fault` is the injected failure of
dm_get_dmattr. -/
def FsObj.getAttribute (cst : Const) (k : KFile) (fault : Option Nat) : Except Exc mig_attr_t :=
  match dm_get_dmattr k fault with
  | .error e =>
    if e = ENOENT then .ok { mig_attr_t.zero cst with added := false }
    else .error (.ltfsdm .GENERAL_ERROR)
  | .ok attr =>
    if attr.typeId ≠ cst.typeHash then .error (.ltfsdm .ATTR_FORMAT)
    else .ok attr

/-- FsObj::getMigState on the file `k`; `faultAttr` and `faultRegion` are the
injected failures of dm_get_dmattr and dm_get_region. -/
def FsObj.getMigState (cst : Const) (k : KFile) (faultAttr faultRegion : Option Nat) :
    Except Exc file_state :=
  match FsObj.getAttribute cst k faultAttr with
  | .error e => .error e
  | .ok attr =>
    if attr.added = false then .ok .RESIDENT
    else
      match dm_get_region k 2 faultRegion with
      | .error _ => .error (.ltfsdm .GENERAL_ERROR)
      | .ok regbuf =>
        -- nelem is regbuf.length
        if 1 < regbuf.length then .error (.ltfsdm .GENERAL_ERROR)
        else
          match regbuf with
          | [] => .ok .RESIDENT
          | r :: _ =>
            if r.rg_flags = (DM_REGION_READ ||| DM_REGION_WRITE ||| DM_REGION_TRUNCATE) then
              .ok .MIGRATED
            else if r.rg_flags = (DM_REGION_WRITE ||| DM_REGION_TRUNCATE) then
              .ok .PREMIGRATED
            else .error (.ltfsdm .GENERAL_ERROR)

/-- The tail of getMigState, after the region query gave `regbuf`: the state
the regions stand for, with the flag values written out. -/
def stateOfRegions (regbuf : List dm_region_t) : Except Exc file_state :=
  if 1 < regbuf.length then .error (.ltfsdm .GENERAL_ERROR)
  else
    match regbuf with
    | [] => .ok .RESIDENT
    | r :: _ =>
      if r.rg_flags = 7 then .ok .MIGRATED
      else if r.rg_flags = 6 then .ok .PREMIGRATED
      else .error (.ltfsdm .GENERAL_ERROR)

/-- Sample constants: three copies, tape ids of eight characters. -/
def sampleConst : Const := { maxReplica := 3, tapeIdLength := 8, typeHash := 12345 }

/-- A record with the expected tag holding one copy on tape T001. -/
def sampleAttr : mig_attr_t :=
  { typeId := 12345, added := true, copies := 1,
    tapeInfo := [⟨"T001", 0⟩, ⟨"", 0⟩, ⟨"", 0⟩] }

/-- A record with the expected tag holding two copies, on tapes T001 and T002. -/
def sampleAttrTwo : mig_attr_t :=
  { typeId := 12345, added := true, copies := 2,
    tapeInfo := [⟨"T001", 0⟩, ⟨"T002", 500⟩, ⟨"", 0⟩] }

/-- The whole-file region with flags read, write, truncate. -/
def regionMigrated : dm_region_t := { rg_offset := 0, rg_size := 0, rg_flags := 7 }

/-- The whole-file region with flags write, truncate. -/
def regionPremigrated : dm_region_t := { rg_offset := 0, rg_size := 0, rg_flags := 6 }

/-! ## Appending a tape copy -/

/-- The kernel's answers to the calls of one addTapeAttr: the right request of
the lock() in the constructor of the guard, the right request of the explicit
fsolock.lock(), the failure of dm_get_dmattr, the result of dm_set_dmattr and
the right release of the unlock() in the destructor of the guard. -/
structure AttrOracle where
  request : Bool
  request2 : Bool
  getFault : Option Nat
  setOk : Bool
  release : Bool
deriving DecidableEq, Repr

/-- All calls succeed. -/
def AttrOracle.allOk : AttrOracle :=
  { request := true, request2 := true, getFault := none, setOk := true, release := true }

/-- What an operation on a file leaves behind: the exception it ended with
(none when it returned), the object, the registry and the kernel's state of
the file. -/
structure FileOpResult where
  thrown : Option Exc
  obj : FsObj
  reg : Registry
  file : KFile

/-- The member function lock() of std::unique_lock<FsObj> (C++ standard,
[thread.lock.unique.locking]): it throws std::system_error with the code
resource_deadlock_would_occur if on entry owns is true, and else calls lock()
of the guarded object and sets owns. The second component is owns afterwards. -/
def unique_lock.lock (owns : Bool) (o : FsObj) (reg : Registry) (rc : Bool) : LockResult × Bool :=
  if owns then ({ thrown := some .system_error_deadlock, obj := o, reg := reg }, owns)
  else
    match (o.lock reg rc).thrown with
    | some e => ({ thrown := some e, obj := (o.lock reg rc).obj, reg := (o.lock reg rc).reg }, false)
    | none => (o.lock reg rc, true)

/-- The destructor of std::unique_lock<FsObj>: if owns, unlock() of the guarded
object. The destructor is noexcept, so an exception of unlock() ends the
process through std::terminate. -/
def unique_lock.destroy (owns : Bool) (o : FsObj) (reg : Registry) (rc : Bool) : LockResult :=
  if owns then
    match (o.unlock reg rc).thrown with
    | some _ => { thrown := some .terminate, obj := (o.unlock reg rc).obj, reg := (o.unlock reg rc).reg }
    | none => o.unlock reg rc
  else { thrown := none, obj := o, reg := reg }

/-- The bytes strncpy(dst, tapeId.c_str(), n) leaves in the zeroed buffer dst
of n + 1 bytes, read as a C string: the characters of tapeId up to its first
NUL, at most n of them. -/
def strncpy (tapeId : String) (n : Nat) : String :=
  String.mk ((tapeId.toList.takeWhile (fun c => c ≠ Char.ofNat 0)).take n)

/-- The statements of addTapeAttr between getAttribute and dm_set_dmattr: tag
and added flag are set, slot number attr.copies of tapeInfo is written and
copies is raised. A slot index outside the array is undefined behaviour. -/
def FsObj.addTapeAttr.update (cst : Const) (attr : mig_attr_t) (tapeId : String)
    (startBlock : Int) : Except Exc mig_attr_t :=
  if 0 ≤ attr.copies ∧ attr.copies < (cst.maxReplica : Int) then
    .ok { typeId := cst.typeHash, added := true,
          tapeInfo := attr.tapeInfo.set attr.copies.toNat
            { tapeId := strncpy tapeId cst.tapeIdLength, startBlock := startBlock },
          copies := attr.copies + 1 }
  else .error .undefined

/-- The call dm_set_dmattr for the migration attribute: when it succeeds the
record is stored. -/
def dm_set_dmattr (k : KFile) (attr : mig_attr_t) (rc : Bool) : KFile :=
  if rc then { k with migAttr := some attr } else k

/-- FsObj::addTapeAttr on the object `o` of the file `k`.
The guard `std::unique_lock<FsObj> fsolock(*this)` locks the object in its
constructor; the statement `fsolock.lock()` that follows is the member function
of the guard, called while the guard owns the lock. Whatever ends the function
after the guard is built runs the destructor of the guard. -/
def FsObj.addTapeAttr (cst : Const) (o : FsObj) (reg : Registry) (k : KFile)
    (tapeId : String) (startBlock : Int) (orc : AttrOracle) : FileOpResult :=
  -- std::unique_lock<FsObj> fsolock(*this);
  let r1 := o.lock reg orc.request
  match r1.thrown with
  | some e => { thrown := some e, obj := r1.obj, reg := r1.reg, file := k }
  | none =>
    -- fsolock.lock();
    let (r2, owns) := unique_lock.lock true r1.obj r1.reg orc.request2
    match r2.thrown with
    | some e =>
      let d := unique_lock.destroy owns r2.obj r2.reg orc.release
      { thrown := some (d.thrown.getD e), obj := d.obj, reg := d.reg, file := k }
    | none =>
      -- attr = getAttribute();
      match FsObj.getAttribute cst k orc.getFault with
      | .error e =>
        let d := unique_lock.destroy owns r2.obj r2.reg orc.release
        { thrown := some (d.thrown.getD e), obj := d.obj, reg := d.reg, file := k }
      | .ok attr =>
        match FsObj.addTapeAttr.update cst attr tapeId startBlock with
        | .error e => { thrown := some e, obj := r2.obj, reg := r2.reg, file := k }
        | .ok attr1 =>
          -- rc = dm_set_dmattr(...)
          let k1 := dm_set_dmattr k attr1 orc.setOk
          if orc.setOk = false then
            let d := unique_lock.destroy owns r2.obj r2.reg orc.release
            { thrown := some (d.thrown.getD (.ltfsdm .GENERAL_ERROR)),
              obj := d.obj, reg := d.reg, file := k1 }
          else
            let d := unique_lock.destroy owns r2.obj r2.reg orc.release
            { thrown := d.thrown, obj := d.obj, reg := d.reg, file := k1 }

/-- A file that was never migrated: no attribute, no region. -/
def freshFile : KFile := { migAttr := none, regions := [] }

/-! ## Managing a filesystem -/

/-- Modelled from the spec: FsObj::fs_attr_t of src/connector/Connector.h (not
among the sources), the value of the filesystem attribute Const::DMAPI_ATTR_FS;
Connector.cc uses its member managed. -/
structure fs_attr_t where
  managed : Bool
deriving DecidableEq, Repr

/-- The kernel's answers to the calls of one manageFs, in the order of the
code: right request of the first lock(), dm_set_dmattr of managed = true, right
release of the unlock() after it, dm_handle_to_fshandle, dm_set_disp, and for
the handler that undoes the marking the right request of its lock(),
dm_set_dmattr of managed = false and the right release of its unlock(). -/
structure ManageFsOracle where
  request : Bool
  setAttr : Bool
  release : Bool
  toFsHandle : Bool
  setDisp : Bool
  request2 : Bool
  setAttr2 : Bool
  release2 : Bool
deriving DecidableEq, Repr

/-- All calls succeed. -/
def ManageFsOracle.allOk : ManageFsOracle :=
  { request := true, setAttr := true, release := true, toFsHandle := true, setDisp := true,
    request2 := true, setAttr2 := true, release2 := true }

/-- What manageFs leaves behind: the exception it ended with, the object, the
registry and the stored filesystem attribute (none when never set). -/
structure ManageFsResult where
  thrown : Option Exc
  obj : FsObj
  reg : Registry
  fsAttr : Option fs_attr_t

/-- The handler `catch (const LTFSDMException& e)` of manageFs: the marking is
undone under the lock and FS_ADD_ERROR is thrown. -/
def FsObj.manageFs.rollback (o : FsObj) (reg : Registry) (fsAttr : Option fs_attr_t)
    (orc : ManageFsOracle) : ManageFsResult :=
  let r1 := o.lock reg orc.request2
  match r1.thrown with
  | some e => { thrown := some e, obj := r1.obj, reg := r1.reg, fsAttr := fsAttr }
  | none =>
    if orc.setAttr2 = false then
      let r2 := r1.obj.unlock r1.reg orc.release2
      match r2.thrown with
      | some e => { thrown := some e, obj := r2.obj, reg := r2.reg, fsAttr := fsAttr }
      | none =>
        { thrown := some (.ltfsdm .FS_ADD_ERROR), obj := r2.obj, reg := r2.reg, fsAttr := fsAttr }
    else
      let r2 := r1.obj.unlock r1.reg orc.release2
      match r2.thrown with
      | some e =>
        { thrown := some e, obj := r2.obj, reg := r2.reg, fsAttr := some { managed := false } }
      | none =>
        { thrown := some (.ltfsdm .FS_ADD_ERROR), obj := r2.obj, reg := r2.reg,
          fsAttr := some { managed := false } }

/-- FsObj::manageFs(setDispo, starttime) on the object `o`; `fsAttr` is the
stored filesystem attribute of its handle. The argument starttime is not used
by the code. -/
def FsObj.manageFs (o : FsObj) (reg : Registry) (fsAttr : Option fs_attr_t) (setDispo : Bool)
    (orc : ManageFsOracle) : ManageFsResult :=
  let r1 := o.lock reg orc.request
  match r1.thrown with
  | some e => { thrown := some e, obj := r1.obj, reg := r1.reg, fsAttr := fsAttr }
  | none =>
    if orc.setAttr = false then
      let r2 := r1.obj.unlock r1.reg orc.release
      match r2.thrown with
      | some e => { thrown := some e, obj := r2.obj, reg := r2.reg, fsAttr := fsAttr }
      | none =>
        { thrown := some (.ltfsdm .FS_ADD_ERROR), obj := r2.obj, reg := r2.reg, fsAttr := fsAttr }
    else
      let marked : Option fs_attr_t := some { managed := true }
      let r2 := r1.obj.unlock r1.reg orc.release
      match r2.thrown with
      | some e => { thrown := some e, obj := r2.obj, reg := r2.reg, fsAttr := marked }
      | none =>
        if setDispo then
          if orc.toFsHandle = false then
            FsObj.manageFs.rollback r2.obj r2.reg marked orc
          else
            let reg3 := r2.reg.issue (.set_disp_fs_of r2.obj.handle)
            if orc.setDisp = false then
              FsObj.manageFs.rollback r2.obj reg3 marked orc
            else
              { thrown := none, obj := r2.obj, reg := reg3, fsAttr := marked }
        else
          { thrown := none, obj := r2.obj, reg := r2.reg, fsAttr := marked }

/-! ## The event dispatcher and the recall responder -/

/-- The event types Connector::getEvents tells apart; every other type is
`other` with its number. -/
inductive dm_eventtype_t where
  | DM_EVENT_MOUNT
  | DM_EVENT_READ
  | DM_EVENT_WRITE
  | DM_EVENT_TRUNCATE
  | DM_EVENT_USER
  | other (n : Nat)
deriving DecidableEq, Repr

/-- The fields of dm_mount_event_t that getEvents reads. -/
structure dm_mount_event_t where
  me_handle1 : Handle
  me_roothandle : Handle
  me_name1 : String
  me_name2 : String
deriving DecidableEq, Repr

/-- The field of dm_data_event_t that getEvents reads. -/
structure dm_data_event_t where
  de_handle : Handle
deriving DecidableEq, Repr

/-- The payload ev_data of an event message, by its kind. -/
inductive ev_data_t where
  | mount (m : dm_mount_event_t)
  | data (d : dm_data_event_t)
  | user (msg : String)
  | empty
deriving DecidableEq, Repr

/-- The event message dm_eventmsg_t. -/
structure dm_eventmsg_t where
  ev_type : dm_eventtype_t
  ev_token : Nat
  ev_data : ev_data_t
deriving DecidableEq, Repr

/-- The struct conn_info_t of Connector.cc: the event token. -/
structure conn_info_t where
  token : Nat
deriving DecidableEq, Repr

/-- Modelled from the spec: Connector::rec_info_t of src/connector/Connector.h
(not among the sources), the recall descriptor, with the four members that
getEvents initialises; conn_info is a pointer, none for the null pointer. -/
structure rec_info_t where
  conn_info : Option conn_info_t
  toresident : Bool
  fuid : fuid_t
  filename : String
deriving DecidableEq, Repr

/-- The descriptor `{ 0, 0, (fuid_t) {0,0,0,0}, "" }` getEvents starts from. -/
def rec_info_t.initial : rec_info_t :=
  { conn_info := none, toresident := false, fuid := ⟨0, 0, 0, 0⟩, filename := "" }

/-- The size of the name buffers of getEvents. -/
def PATH_MAX : Nat := 4096

/-- Modelled from the spec: the constructor FsObj(void *, size_t) of
src/connector/Connector.h (not among the sources), used by getEvents for the
root handle of a mount event: the handle is borrowed from the event, the
object is unlocked and does not free the handle. -/
def FsObj.ofHandle (h : Handle) : FsObj :=
  { handle := h, isLocked := false, handleFree := false }

/-- What the dispatcher works on: the lock table with the call log, and the
stored filesystem attribute of the root handle of the mount event. -/
structure World where
  reg : Registry
  fsAttr : Option fs_attr_t

/-- What getEvents leaves behind: the exception it ended with (none when it
returned), the descriptor it returned, and the world. -/
structure GetEventsResult where
  thrown : Option Exc
  recinfo : rec_info_t
  world : World

/-- The loop `while (retries < 4)` of the MOUNT case, started with `retries`
attempts behind it; `orc n` holds the kernel's answers during attempt number
`n`. An LTFSDMException of manageFs is caught and counted, anything else ends
getEvents. The result is the exception that ended it, the number of retries
and the world. -/
def Connector.getEvents.manageLoop (handR : Handle) (orc : Nat → ManageFsOracle) :
    Nat → Nat → World → Option Exc × Nat × World
  | 0, retries, w => (none, retries, w)
  | fuel + 1, retries, w =>
    if retries < 4 then
      let r := (FsObj.ofHandle handR).manageFs w.reg w.fsAttr false (orc retries)
      let w1 : World := { reg := r.reg, fsAttr := r.fsAttr }
      match r.thrown with
      | none => (none, retries, w1)
      | some (.ltfsdm _) => Connector.getEvents.manageLoop handR orc fuel (retries + 1) w1
      | some e => (some e, retries, w1)
    else (none, retries, w)

/-- The part of Connector::getEvents after an event was retrieved. -/
def Connector.getEvents.process (w : World) (ev : dm_eventmsg_t) (setDispOk respondOk : Bool)
    (orc : Nat → ManageFsOracle) : GetEventsResult :=
  let recinfo := rec_info_t.initial
  let token := ev.ev_token
  match ev.ev_type with
  | .DM_EVENT_MOUNT =>
    match ev.ev_data with
    | .mount m =>
      if PATH_MAX ≤ m.me_name1.length ∨ PATH_MAX ≤ m.me_name2.length then
        { thrown := some (.ltfsdm .GENERAL_ERROR), recinfo := recinfo, world := w }
      else
        let w1 : World := { w with reg := w.reg.issue (.set_disp m.me_handle1) }
        if setDispOk = false then
          { thrown := some (.ltfsdm .GENERAL_ERROR), recinfo := recinfo, world := w1 }
        else
          let w2 : World := { w1 with reg := w1.reg.issue (.respond_event token true 0) }
          if respondOk = false then
            { thrown := some (.ltfsdm .GENERAL_ERROR), recinfo := recinfo, world := w2 }
          else
            let (e, _, w3) := Connector.getEvents.manageLoop m.me_roothandle orc 5 0 w2
            { thrown := e, recinfo := recinfo, world := w3 }
    | _ => { thrown := some .undefined, recinfo := recinfo, world := w }
  | .DM_EVENT_READ | .DM_EVENT_WRITE | .DM_EVENT_TRUNCATE =>
    match ev.ev_data with
    | .data d =>
      let toresident : Bool := if ev.ev_type = .DM_EVENT_READ then false else true
      let recinfo1 : rec_info_t :=
        { recinfo with toresident := toresident, conn_info := some { token := token } }
      match d.de_handle.fsid with
      | none => { thrown := some (.ltfsdm .GENERAL_ERROR), recinfo := recinfo1, world := w }
      | some fsid_l =>
        match d.de_handle.igen with
        | none => { thrown := some (.ltfsdm .GENERAL_ERROR), recinfo := recinfo1, world := w }
        | some igen =>
          match d.de_handle.ino with
          | none => { thrown := some (.ltfsdm .GENERAL_ERROR), recinfo := recinfo1, world := w }
          | some inum =>
            { thrown := none,
              recinfo := { recinfo1 with fuid := ⟨0, fsid_l, igen, inum⟩ },
              world := w }
    | _ => { thrown := some .undefined, recinfo := recinfo, world := w }
  | .DM_EVENT_USER => { thrown := none, recinfo := recinfo, world := w }
  | .other _ => { thrown := none, recinfo := recinfo, world := w }

/-- Connector::getEvents. `rets` are the results of the successive calls of
dm_get_events: a failure with EINTR or EAGAIN is retried, any other failure
throws, the first event retrieved is processed. The result is none while the
loop is still waiting, that is when `rets` ends before an event or a fatal
failure. -/
def Connector.getEvents (w : World) (rets : List (DmResult dm_eventmsg_t))
    (setDispOk respondOk : Bool) (orc : Nat → ManageFsOracle) : Option GetEventsResult :=
  match rets with
  | [] => none
  | .error e :: rest =>
    if e ≠ EINTR ∧ e ≠ EAGAIN then
      some { thrown := some (.ltfsdm .GENERAL_ERROR), recinfo := rec_info_t.initial, world := w }
    else Connector.getEvents w rest setDispOk respondOk orc
  | .ok ev :: _ => some (Connector.getEvents.process w ev setDispOk respondOk orc)

/-- Connector::respondRecallEvent(recinfo, success) on the call log; `rc` is
the result of dm_respond_event. A descriptor without conn_info is a null
dereference. -/
def Connector.respondRecallEvent (calls : List KCall) (recinfo : rec_info_t) (success : Bool)
    (rc : Bool) : Option Exc × List KCall :=
  match recinfo.conn_info with
  | none => (some .undefined, calls)
  | some ci =>
    let token := ci.token
    if success = true then
      if rc = false then
        (some (.ltfsdm .GENERAL_ERROR), calls ++ [.respond_event token true 0])
      else (none, calls ++ [.respond_event token true 0])
    else
      if rc = false then
        (some (.ltfsdm .GENERAL_ERROR), calls ++ [.respond_event token false EIO_errno])
      else (none, calls ++ [.respond_event token false EIO_errno])

/-- One invocation of respondRecallEvent: the descriptor, the outcome of the
recall and the kernel's answer. -/
structure Respond where
  recinfo : rec_info_t
  success : Bool
  rc : Bool
deriving DecidableEq, Repr

/-- A sequence of invocations of respondRecallEvent, each on the log the one
before left; an exception goes to the caller of that invocation. -/
def respondAll (calls : List KCall) : List Respond → List KCall
  | [] => calls
  | r :: rs => respondAll (Connector.respondRecallEvent calls r.recinfo r.success r.rc).2 rs

/-- The kernel responses the log holds for a token. -/
def responsesFor (token : Nat) (calls : List KCall) : Nat :=
  calls.countP (fun c =>
    match c with
    | .respond_event t _ _ => decide (t = token)
    | _ => false)

/-- The invocations of a sequence made for a token. -/
def invocationsFor (token : Nat) (rs : List Respond) : Nat :=
  rs.countP (fun r => decide (r.recinfo.conn_info = some { token := token }))

/-- A READ event with token 99 on the file of `sampleObj`. -/
def sampleReadEvent : dm_eventmsg_t :=
  { ev_type := .DM_EVENT_READ, ev_token := 99, ev_data := .data { de_handle := sampleObj.handle } }

/-- The descriptor getEvents returns for `sampleReadEvent`. -/
def sampleRecinfo : rec_info_t :=
  { conn_info := some { token := 99 }, toresident := false, fuid := sampleFuid, filename := "" }

/-- The world of a starting process. -/
def World.initial : World := { reg := Registry.empty, fsAttr := none }

/-! ## Region transitions -/

/-- The call dm_set_region(session, handle, token, nelem, regbuf, exact): when
it succeeds the managed regions of the file are replaced by the first `nelem`
regions of `regbuf`, so `nelem` 0 clears them. -/
def dm_set_region (k : KFile) (nelem : Nat) (regbuf : List dm_region_t) (rc : Bool) : KFile :=
  if rc then { k with regions := regbuf.take nelem } else k

/-- FsObj::preparePremigration on the file `k`; `rc` is the result of
dm_set_region. The result is the exception and the file afterwards. -/
def FsObj.preparePremigration (k : KFile) (rc : Bool) : Option Exc × KFile :=
  let reg : dm_region_t :=
    { rg_offset := 0, rg_size := 0, rg_flags := DM_REGION_WRITE ||| DM_REGION_TRUNCATE }
  let k1 := dm_set_region k 1 [reg] rc
  if rc = false then (some (.ltfsdm .GENERAL_ERROR), k1) else (none, k1)

/-- FsObj::finishRecall(fstate) on the file `k`; `rc` is the result of
dm_set_region. -/
def FsObj.finishRecall (k : KFile) (fstate : file_state) (rc : Bool) : Option Exc × KFile :=
  if fstate = .PREMIGRATED then
    let reg : dm_region_t :=
      { rg_offset := 0, rg_size := 0, rg_flags := DM_REGION_WRITE ||| DM_REGION_TRUNCATE }
    let k1 := dm_set_region k 1 [reg] rc
    if rc = false then (some (.ltfsdm .GENERAL_ERROR), k1) else (none, k1)
  else
    -- memset(&reg, 0, sizeof(reg)); reg.rg_flags = DM_REGION_NOEVENT; nelem is 0
    let reg : dm_region_t := { rg_offset := 0, rg_size := 0, rg_flags := DM_REGION_NOEVENT }
    let k1 := dm_set_region k 0 [reg] rc
    if rc = false then (some (.ltfsdm .GENERAL_ERROR), k1) else (none, k1)

/-- FsObj::prepareStubbing on the file `k`; `rc` is the result of
dm_set_region. -/
def FsObj.prepareStubbing (k : KFile) (rc : Bool) : Option Exc × KFile :=
  let reg : dm_region_t :=
    { rg_offset := 0, rg_size := 0,
      rg_flags := DM_REGION_READ ||| DM_REGION_WRITE ||| DM_REGION_TRUNCATE }
  let k1 := dm_set_region k 1 [reg] rc
  if rc = false then (some (.ltfsdm .GENERAL_ERROR), k1) else (none, k1)

/-- The region list holds at most one region and that region covers the whole
file (offset 0, size 0). -/
def wholeFileOnly (regions : List dm_region_t) : Prop :=
  regions.length ≤ 1 ∧ ∀ r ∈ regions, r.rg_offset = 0 ∧ r.rg_size = 0

/-- A file with the record `sampleAttr` and two stale regions of a part of the
file. -/
def sampleFileStale : KFile :=
  { migAttr := some sampleAttr,
    regions := [⟨0, 100, 1⟩, ⟨100, 100, 2⟩] }

/-- FsObj::isFsManaged; `fsAttr` is the stored filesystem attribute of the
object's handle and `fault` the injected failure of dm_get_dmattr. A read that
fails with ENOENT, as for an attribute never set, gives false. -/
def FsObj.isFsManaged (fsAttr : Option fs_attr_t) (fault : Option Nat) : Except Exc Bool :=
  match fault with
  | some e => if e = ENOENT then .ok false else .error (.ltfsdm .FS_CHECK_ERROR)
  | none =>
    match fsAttr with
    | none => .ok false
    | some attr => .ok attr.managed

/-- The kernel's answers of a manageFs in which deriving the filesystem handle
fails and then the right request of the lock() in the handler fails. -/
def oracleRollbackLockFails : ManageFsOracle :=
  { ManageFsOracle.allOk with toFsHandle := false, request2 := false }

/-- The kernel's answers of a manageFs in which installing the disposition
fails and everything else succeeds. -/
def oracleSetDispFails : ManageFsOracle :=
  { ManageFsOracle.allOk with setDisp := false }

/-- A file whose record holds the maximum of three copies. -/
def sampleFileFull : KFile :=
  { migAttr := some { typeId := 12345, added := true, copies := 3,
                      tapeInfo := [⟨"T001", 0⟩, ⟨"T002", 500⟩, ⟨"T003", 900⟩] },
    regions := [regionMigrated] }

/-- The world of the MOUNT case after dm_set_disp on the filesystem handle and
the acknowledgement dm_respond_event(token, DM_RESP_CONTINUE) were issued. -/
def World.afterMountAck (w : World) (m : dm_mount_event_t) (token : Nat) : World :=
  { w with reg := (w.reg.issue (.set_disp m.me_handle1)).issue (.respond_event token true 0) }

/-- A MOUNT event with token 5 for a filesystem whose root is the handle of
`sampleObj`. -/
def sampleMountEvent : dm_eventmsg_t :=
  { ev_type := .DM_EVENT_MOUNT, ev_token := 5,
    ev_data := .mount { me_handle1 := { handleLength := 8, fsid := some 7, igen := none, ino := none },
                        me_roothandle := sampleObj.handle,
                        me_name1 := "/mnt/fs", me_name2 := "/dev/sdb" } }

/-- The kernel's answers of a manageFs whose attribute write fails. -/
def oracleSetAttrFails : ManageFsOracle :=
  { ManageFsOracle.allOk with setAttr := false }

/-! ## Teardown of the connector -/

/-- What happens inside Connector::~Connector besides the two kernel calls:
whether the messages MSG(LTFSDMS0077I) and MSG(LTFSDMS0078I) and the TRACE
raise an exception (the macros are not among the sources), and the results of
dm_respond_event and dm_destroy_session (true: 0, false: -1). -/
structure TeardownOracle where
  msg1Throws : Bool
  abortOk : Bool
  traceThrows : Bool
  destroyOk : Bool
  msg2Throws : Bool
deriving DecidableEq, Repr

/-- What teardown leaves behind: the call log and whether the handler
`catch (...)` ran kill(getpid(), SIGTERM). -/
structure TeardownResult where
  calls : List KCall
  killed : Bool
deriving DecidableEq, Repr

/-- Connector::~Connector for the session `dmapiSession` and its reserved user
event `dmapiToken`. The result of dm_respond_event is compared with 1 and the
result of dm_destroy_session is not looked at; the handler runs when a
statement of the try block raises. -/
def Connector.teardown (cleanup : Bool) (dmapiSession dmapiToken : Nat) (calls : List KCall)
    (orc : TeardownOracle) : TeardownResult :=
  if cleanup = true ∧ orc.msg1Throws = true then { calls := calls, killed := true }
  else
    let calls1 := calls ++ [KCall.respond_event dmapiToken false EINTR]
    let rc : Int := if orc.abortOk then 0 else -1
    if rc = 1 ∧ orc.traceThrows = true then { calls := calls1, killed := true }
    else
      let calls2 := calls1 ++ [KCall.destroy_session dmapiSession]
      if cleanup = true ∧ orc.msg2Throws = true then { calls := calls2, killed := true }
      else { calls := calls2, killed := false }

/-- A teardown in which the abort succeeds, destroying the session fails and
nothing raises. -/
def oracleDestroyFails : TeardownOracle :=
  { msg1Throws := false, abortOk := true, traceThrows := false, destroyOk := false,
    msg2Throws := false }

/-! ## Startup cleanup of stale sessions -/

/-- The result of a kernel enumeration into a buffer of a given capacity: the
data (return value 0), or E2BIG together with the capacity the kernel reports
as required, or another failure with its errno. -/
inductive SizedResult (α : Type) where
  | ok (a : α)
  | tooBig (required : Nat)
  | fail (errno : Nat)
deriving DecidableEq, Repr

/-- What the kernel holds for one session: its id, the result of
dm_query_session (the session name or the errno of the failure), its
outstanding tokens, an injected failure of dm_getall_tokens (an errno other
than E2BIG) and the result of dm_destroy_session. -/
structure KSession where
  sid : Nat
  query : DmResult String
  tokens : List Nat
  tokensFault : Option Nat
  destroyOk : Bool
deriving DecidableEq, Repr

/-- The call dm_getall_sessions(nelem, sidbuf, &nelemp) on the sessions `ss`. -/
def dm_getall_sessions (ss : List KSession) (nelem : Nat) (fault : Option Nat) :
    SizedResult (List Nat) :=
  match fault with
  | some e => .fail e
  | none => if nelem < ss.length then .tooBig ss.length else .ok (ss.map KSession.sid)

/-- The call dm_getall_tokens(sid, nelem, tokenbuf, &nelemp) on the session
`s`. -/
def dm_getall_tokens (s : KSession) (nelem : Nat) : SizedResult (List Nat) :=
  match s.tokensFault with
  | some e => .fail e
  | none => if nelem < s.tokens.length then .tooBig s.tokens.length else .ok s.tokens

/-- The loop `while (dm_getall_sessions(num_sessions, ...) == -1)` of
dmapiSessionCleanup, entered with the capacity `num_sessions`: after E2BIG the
buffer is allocated anew and num_sessions is set to the reported number. The
result is none when `fuel` iterations did not end the loop, else the
exception or the final num_sessions. -/
def dmapiSessionCleanup.sessionsLoop (ss : List KSession) (fault : Option Nat) :
    Nat → Nat → Option (Except Exc Nat)
  | 0, _ => none
  | fuel + 1, num_sessions =>
    match dm_getall_sessions ss num_sessions fault with
    | .ok _ => some (.ok num_sessions)
    | .fail _ => some (.error (.ltfsdm .GENERAL_ERROR))
    | .tooBig num_sessions_res =>
      dmapiSessionCleanup.sessionsLoop ss fault fuel num_sessions_res

/-- The loop `while (dm_getall_tokens(sid, num_tokens, ...) == -1)` of
dmapiSessionCleanup: after E2BIG a buffer for the reported number of tokens is
allocated, and the next call is made with num_tokens as it was. The result is
none when `fuel` iterations did not end the loop, else the exception or the
tokens returned. -/
def dmapiSessionCleanup.tokensLoop (s : KSession) : Nat → Nat → Option (Except Exc (List Nat))
  | 0, _ => none
  | fuel + 1, num_tokens =>
    match dm_getall_tokens s num_tokens with
    | .ok toks => some (.ok toks)
    | .fail _ => some (.error (.ltfsdm .GENERAL_ERROR))
    | .tooBig _ => dmapiSessionCleanup.tokensLoop s fuel num_tokens

/-- What dmapiSessionCleanup leaves behind: the exception it ended with, the
value of *oldSid and the call log. -/
structure CleanupResult where
  thrown : Option Exc
  oldSid : Nat
  calls : List KCall
deriving DecidableEq, Repr

/-- The loop `for (i = 0; i < num_sessions; i++)` of dmapiSessionCleanup with
`remaining` iterations to go; the list holds the sessions whose ids the kernel
wrote to sidbufp from position i on. Reading sidbufp past what the kernel
wrote is undefined. `sessionName` is Const::DMAPI_SESSION_NAME. -/
def dmapiSessionCleanup.forLoop (sessionName : String) (fuel : Nat) :
    Nat → List KSession → Nat → List KCall → Option CleanupResult
  | 0, _, oldSid, calls => some { thrown := none, oldSid := oldSid, calls := calls }
  | _ + 1, [], oldSid, calls => some { thrown := some .undefined, oldSid := oldSid, calls := calls }
  | remaining + 1, s :: rest, oldSid, calls =>
    match s.query with
    | .error _ =>
      some { thrown := some (.ltfsdm .GENERAL_ERROR), oldSid := oldSid, calls := calls }
    | .ok buffer =>
      if sessionName = buffer then
        match dmapiSessionCleanup.tokensLoop s fuel 1024 with
        | none => none
        | some (.error e) => some { thrown := some e, oldSid := oldSid, calls := calls }
        | some (.ok toks) =>
          let calls1 := calls ++ toks.map (fun t => KCall.respond_event_in s.sid t false EINTR)
          let calls2 := calls1 ++ [KCall.destroy_session s.sid]
          let oldSid1 := if s.destroyOk = false then s.sid else oldSid
          dmapiSessionCleanup.forLoop sessionName fuel remaining rest oldSid1 calls2
      else dmapiSessionCleanup.forLoop sessionName fuel remaining rest oldSid calls

/-- The function dmapiSessionCleanup(oldSid) on the kernel's sessions `ss`;
`fault` is an injected failure of dm_getall_sessions, `fuel` bounds the
iterations of each while loop, and the result is none when a loop did not end
within it. Allocations are taken to succeed. -/
def dmapiSessionCleanup (sessionName : String) (ss : List KSession) (fault : Option Nat)
    (fuel : Nat) (oldSid : Nat) (calls : List KCall) : Option CleanupResult :=
  match dmapiSessionCleanup.sessionsLoop ss fault fuel 0 with
  | none => none
  | some (.error e) => some { thrown := some e, oldSid := oldSid, calls := calls }
  | some (.ok num_sessions) =>
    dmapiSessionCleanup.forLoop sessionName fuel num_sessions ss oldSid calls

/-- The calls the cleanup is to issue, in the words of the spec: for every
session with the engine's name, in order, an abort with EINTR for each of its
outstanding tokens and then the destroy of the session; nothing for the other
sessions. -/
def expectedCleanupCalls (sessionName : String) (ss : List KSession) : List KCall :=
  (ss.filter (fun s => decide (s.query = .ok sessionName))).flatMap
    (fun s => s.tokens.map (fun t => KCall.respond_event_in s.sid t false EINTR)
      ++ [KCall.destroy_session s.sid])

/-- The session id the cleanup is to report: the last session with the engine's
name whose destroy failed, or the value before the call when there is none. -/
def expectedOldSid (sessionName : String) (ss : List KSession) (oldSid : Nat) : Nat :=
  ss.foldl
    (fun acc s => if s.query = .ok sessionName ∧ s.destroyOk = false then s.sid else acc) oldSid

/-- Three sessions: a stale one of the engine (id 11, tokens 1 and 2) whose
destroy fails, a foreign one (id 12) and another stale one of the engine
(id 13, token 7). -/
def sampleSessions : List KSession :=
  [ { sid := 11, query := .ok "ltfsdm", tokens := [1, 2], tokensFault := none,
      destroyOk := false },
    { sid := 12, query := .ok "other", tokens := [5], tokensFault := none, destroyOk := true },
    { sid := 13, query := .ok "ltfsdm", tokens := [7], tokensFault := none, destroyOk := true } ]

/-- A stale session of the engine with 1025 outstanding tokens. -/
def sessionManyTokens : KSession :=
  { sid := 21, query := .ok "ltfsdm", tokens := List.range 1025, tokensFault := none,
    destroyOk := true }

/-! ## Disposition recovery -/

/-- What the kernel holds for one disposition record dm_dispinfo_t of the
buffer: whether dm_handle_is_valid accepts its filesystem handle, an injected
failure of dm_get_mountinfo (an errno other than E2BIG), the buffer size the
mount info needs, the mount info, and the result of dm_set_disp on its
filesystem handle me_handle1. -/
structure KDisp where
  handleValid : Bool
  mountFault : Option Nat
  mountLen : Nat
  mount : dm_mount_event_t
  setDispOk : Bool
deriving DecidableEq, Repr

/-- The call dm_getall_disp(session, buflen, buf, &rlen); `rLen` is the size of
the kernel's records `disps`. -/
def dm_getall_disp (rLen : Nat) (disps : List KDisp) (fault : Option Nat) (buflen : Nat) :
    SizedResult (List KDisp) :=
  match fault with
  | some e => .fail e
  | none => if buflen < rLen then .tooBig rLen else .ok disps

/-- The call dm_get_mountinfo for the filesystem of the record `d` into a
buffer of `buflen` bytes. -/
def dm_get_mountinfo (d : KDisp) (buflen : Nat) : SizedResult dm_mount_event_t :=
  match d.mountFault with
  | some e => .fail e
  | none => if buflen < d.mountLen then .tooBig d.mountLen else .ok d.mount

/-- How the lookup of the mount info of one record ends: with the mount info,
with the record skipped (EBADF, EINVAL, EPERM), or with a fatal failure. -/
inductive MountLookup where
  | found (m : dm_mount_event_t)
  | skipped
  | fatal
deriving DecidableEq, Repr

/-- The retry at the label retry2 of recoverDisposition: after E2BIG
mountBufLen is set to the reported size and the call is repeated. The result is
none when `fuel` calls did not end the retry, else the outcome and the final
mountBufLen. -/
def recoverDisposition.mountInfo (d : KDisp) : Nat → Nat → Option (MountLookup × Nat)
  | 0, _ => none
  | fuel + 1, mountBufLen =>
    match dm_get_mountinfo d mountBufLen with
    | .ok m => some (.found m, mountBufLen)
    | .tooBig mlen => recoverDisposition.mountInfo d fuel mlen
    | .fail e =>
      if e = EBADF ∨ e = EINVAL then some (.skipped, mountBufLen)
      else if e = EPERM then some (.skipped, mountBufLen)
      else some (.fatal, mountBufLen)

/-- What recoverDisposition leaves behind: the exception it ended with and the
call log. -/
structure RecoverResult where
  thrown : Option Exc
  calls : List KCall
deriving DecidableEq, Repr

/-- The loop of recoverDisposition over the disposition records from the
current one on. An invalid handle ends the loop, a skipped record is passed
over by `continue`, and every exit with rc other than 0 throws
GENERAL_ERROR. -/
def recoverDisposition.forLoop (fuel : Nat) : List KDisp → Nat → List KCall → Option RecoverResult
  | [], _, calls => some { thrown := none, calls := calls }
  | d :: rest, mountBufLen, calls =>
    if d.handleValid = false then some { thrown := none, calls := calls }
    else
      match recoverDisposition.mountInfo d fuel mountBufLen with
      | none => none
      | some (.fatal, _) => some { thrown := some (.ltfsdm .GENERAL_ERROR), calls := calls }
      | some (.skipped, len) => recoverDisposition.forLoop fuel rest len calls
      | some (.found m, len) =>
        if 256 ≤ m.me_name1.length ∨ 256 ≤ m.me_name2.length then
          some { thrown := some (.ltfsdm .GENERAL_ERROR), calls := calls }
        else
          let calls1 := calls ++ [KCall.set_disp m.me_handle1]
          if d.setDispOk = false then
            some { thrown := some (.ltfsdm .GENERAL_ERROR), calls := calls1 }
          else recoverDisposition.forLoop fuel rest len calls1

/-- The retry at the label retry of recoverDisposition, entered with the
buffer size `bufLen`: after E2BIG bufLen is set to the reported size and the
call is repeated; then the records are worked through, unless the reported
size is 0. -/
def recoverDisposition.retry (rLen : Nat) (disps : List KDisp) (fault : Option Nat)
    (calls : List KCall) (fuelAll : Nat) : Nat → Nat → Option RecoverResult
  | 0, _ => none
  | fuel + 1, bufLen =>
    match dm_getall_disp rLen disps fault bufLen with
    | .tooBig required => recoverDisposition.retry rLen disps fault calls fuelAll fuel required
    | .fail _ => some { thrown := some (.ltfsdm .GENERAL_ERROR), calls := calls }
    | .ok records =>
      if rLen = 0 then some { thrown := none, calls := calls }
      else recoverDisposition.forLoop fuelAll records 4096 calls

/-- The function recoverDisposition on the kernel's disposition records
`disps` of total size `rLen`; `fault` is an injected failure of
dm_getall_disp, `fuel` bounds the repetitions of each retry, and the result is
none when a retry did not end within it. Both buffers start at 4096 bytes;
allocations are taken to succeed. -/
def recoverDisposition (rLen : Nat) (disps : List KDisp) (fault : Option Nat) (fuel : Nat)
    (calls : List KCall) : Option RecoverResult :=
  recoverDisposition.retry rLen disps fault calls fuel fuel 4096

/-- The record is one the recovery skips: its handle is valid and the lookup of
its mount info fails with EBADF, EINVAL or EPERM. -/
def KDisp.stale (d : KDisp) : Prop :=
  d.handleValid = true ∧
    (d.mountFault = some EBADF ∨ d.mountFault = some EINVAL ∨ d.mountFault = some EPERM)

/-- The record is valid: its handle is valid, the lookup of its mount info
succeeds with names that fit the buffers, and dm_set_disp on its filesystem
handle succeeds. -/
def KDisp.valid (d : KDisp) : Bool :=
  d.handleValid && d.mountFault.isNone && decide (d.mount.me_name1.length < 256) &&
    decide (d.mount.me_name2.length < 256) && d.setDispOk

/-- The calls the recovery is to issue, in the words of the spec: the
read, write, truncate disposition on the filesystem handle of every valid
record, in order. -/
def expectedRecoverCalls (disps : List KDisp) : List KCall :=
  (disps.filter KDisp.valid).map (fun d => KCall.set_disp d.mount.me_handle1)

/-- A mount info for the filesystem with the given fsid. -/
def sampleMount (fsid : Nat) : dm_mount_event_t :=
  { me_handle1 := { handleLength := 8, fsid := some fsid, igen := none, ino := none },
    me_roothandle := { handleLength := 24, fsid := some fsid, igen := some 1, ino := some 2 },
    me_name1 := "/mnt/fs", me_name2 := "/dev/sdb" }

/-- Three records: a valid one whose mount info needs 5000 bytes, one whose
filesystem is gone (EBADF) and another valid one. -/
def sampleDisps : List KDisp :=
  [ { handleValid := true, mountFault := none, mountLen := 5000, mount := sampleMount 1,
      setDispOk := true },
    { handleValid := true, mountFault := some EBADF, mountLen := 100, mount := sampleMount 2,
      setDispOk := true },
    { handleValid := true, mountFault := none, mountLen := 200, mount := sampleMount 3,
      setDispOk := true } ]

/-! ## The kernel's exclusive rights -/

/-- The kernel's count of the exclusive rights it holds for the session, by the
identity of the file; 0 for a file without a right. -/
abbrev Rights := fuid_t → Int

/-- The kernel's side of the calls one lock() or unlock() of an object of
identity `f` issued, the kernel answering `rc`: a granted dm_request_right
gives the right on the file, a successful dm_release_right takes it away, a
failed call changes nothing. -/
def grantRights (rights : Rights) (f : fuid_t) (rc : Bool) : List KCall → Rights
  | [] => rights
  | .request_right _ :: cs =>
    grantRights (if rc then fun g => if g = f then rights g + 1 else rights g else rights) f rc cs
  | .release_right _ :: cs =>
    grantRights (if rc then fun g => if g = f then rights g - 1 else rights g else rights) f rc cs
  | _ :: cs => grantRights rights f rc cs

/-- The process together with the kernel's rights. -/
structure KSys where
  sys : Sys
  rights : Rights

/-- One step of the process seen with the kernel: the step of `Sys.step`, and
the kernel's answer applied to the calls that the step added to the log. -/
def KSys.step (k : KSys) (a : Action) : KSys :=
  match a with
  | .lock i rc | .unlock i rc =>
    match k.sys.objs[i]? with
    | none => k
    | some o =>
      match o.getfuid with
      | .error _ => { sys := k.sys.step a, rights := k.rights }
      | .ok f =>
        { sys := k.sys.step a,
          rights := grantRights k.rights f rc
            ((k.sys.step a).reg.calls.drop k.sys.reg.calls.length) }

/-- The state after a sequence of steps. -/
def KSys.run (k : KSys) (acts : List Action) : KSys :=
  acts.foldl KSys.step k

/-- The starting process: any file objects, the lock table empty, no right
held. -/
def KSys.start (objs : List FsObj) : KSys :=
  { sys := { objs := objs, reg := Registry.empty }, rights := fun _ => 0 }

/-- The lock table and the kernel agree: an identity without an entry has no
right, an identity with an entry has a count of at least 1 and one right. -/
def tableMatchesRights (reg : Registry) (rights : Rights) : Prop :=
  ∀ f, (reg.fuidMap f = none ∧ rights f = 0) ∨
    (∃ c : Int, 1 ≤ c ∧ reg.fuidMap f = some c ∧ rights f = 1)

/-- A run with failing kernel calls: object 0 is refused the right, then gets
it, object 1 locks as well, object 0 unlocks, object 1 fails to release and
then releases. -/
def sampleRun : List Action :=
  [.lock 0 false, .lock 0 true, .lock 1 true, .unlock 0 true, .unlock 1 false, .unlock 1 true]

/-! # Theorems -/

/-! ## The lock table: one call -/

/-- FsObj::lock on an identity absent from the table. -/
theorem lock_absent (o : FsObj) (reg : Registry) (rc : Bool) (f : fuid_t)
    (hf : o.getfuid = .ok f) (hnone : reg.fuidMap f = none) :
    (o.lock reg rc).reg.calls = reg.calls ++ [KCall.request_right o.handle] ∧
    (rc = true →
      (o.lock reg rc).thrown = none ∧ (o.lock reg rc).reg.fuidMap f = some 1 ∧
      (o.lock reg rc).obj.isLocked = true) := by
  cases rc <;> simp [FsObj.lock, hf, hnone, Registry.issue, Registry.assign]

/-- FsObj::lock on an identity present in the table. -/
theorem lock_present (o : FsObj) (reg : Registry) (rc : Bool) (f : fuid_t) (c : Int)
    (hf : o.getfuid = .ok f) (hc : reg.fuidMap f = some c) :
    (o.lock reg rc).reg.calls = reg.calls ∧ (o.lock reg rc).thrown = none ∧
    (o.lock reg rc).reg.fuidMap f = some (c + 1) ∧
    (o.lock reg rc).obj.isLocked = true := by
  simp [FsObj.lock, hf, hc, Registry.assign]

/-- FsObj::lock leaves the entries of the other identities alone. -/
theorem lock_frame (o : FsObj) (reg : Registry) (rc : Bool) (f g : fuid_t)
    (hf : o.getfuid = .ok f) (hg : g ≠ f) :
    (o.lock reg rc).reg.fuidMap g = reg.fuidMap g := by
  cases hm : reg.fuidMap f with
  | none => cases rc <;> simp [FsObj.lock, hf, hm, Registry.issue, Registry.assign, hg]
  | some c => simp [FsObj.lock, hf, hm, Registry.assign, hg]

/-- C2. FsObj::lock on an object whose identity `f` is absent from the lock
table issues exactly one kernel exclusive-right request and, when it is
granted, returns with the identity inserted at count 1; on an identity already
present (count `c`) it issues no kernel request, returns and leaves the count at
`c + 1`; in both cases the entries of all other identities are unchanged. -/
theorem lock_contract (o : FsObj) (reg : Registry) (rc : Bool) (f : fuid_t)
    (hf : o.getfuid = .ok f) :
    (reg.fuidMap f = none →
      (o.lock reg rc).reg.calls = reg.calls ++ [KCall.request_right o.handle] ∧
      (rc = true →
        (o.lock reg rc).thrown = none ∧ (o.lock reg rc).reg.fuidMap f = some 1 ∧
        (o.lock reg rc).obj.isLocked = true)) ∧
    (∀ c : Int, reg.fuidMap f = some c →
      (o.lock reg rc).reg.calls = reg.calls ∧ (o.lock reg rc).thrown = none ∧
      (o.lock reg rc).reg.fuidMap f = some (c + 1) ∧
      (o.lock reg rc).obj.isLocked = true) ∧
    (∀ g : fuid_t, g ≠ f → (o.lock reg rc).reg.fuidMap g = reg.fuidMap g) := by
  refine ⟨?_, ?_, ?_⟩
  · intro hnone
    exact lock_absent o reg rc f hf hnone
  · intro c hc
    exact lock_present o reg rc f c hf hc
  · intro g hg
    exact lock_frame o reg rc f g hf hg

/-- C2 at a concrete object: `sampleObj` resolves to `sampleFuid`, and locking
it on the empty table issues the one request and inserts count 1. -/
theorem lock_contract_witness :
    sampleObj.getfuid = .ok sampleFuid ∧
    (sampleObj.lock Registry.empty true).reg.calls = [KCall.request_right sampleObj.handle] ∧
    (sampleObj.lock Registry.empty true).reg.fuidMap sampleFuid = some 1 :=
  ⟨rfl,
   ((lock_contract sampleObj Registry.empty true sampleFuid rfl).1 rfl).1,
   (((lock_contract sampleObj Registry.empty true sampleFuid rfl).1 rfl).2 rfl).2.1⟩

/-- FsObj::unlock by a holder on a count above 1. -/
theorem unlock_above_one (o : FsObj) (reg : Registry) (rc : Bool) (f : fuid_t) (c : Int)
    (hf : o.getfuid = .ok f) (hheld : o.isLocked = true)
    (hc : reg.fuidMap f = some c) (h1 : 1 < c) :
    (o.unlock reg rc).thrown = none ∧ (o.unlock reg rc).reg.fuidMap f = some (c - 1) ∧
    (o.unlock reg rc).reg.calls = reg.calls ∧ (o.unlock reg rc).obj.isLocked = false := by
  have hne : c ≠ 1 := by omega
  simp [FsObj.unlock, hf, hheld, hc, hne, Registry.assign]

/-- FsObj::unlock by a holder on the count 1. -/
theorem unlock_at_one (o : FsObj) (reg : Registry) (rc : Bool) (f : fuid_t)
    (hf : o.getfuid = .ok f) (hheld : o.isLocked = true) (hc : reg.fuidMap f = some 1) :
    (o.unlock reg rc).reg.calls = reg.calls ++ [KCall.release_right o.handle] ∧
    (rc = true →
      (o.unlock reg rc).thrown = none ∧ (o.unlock reg rc).reg.fuidMap f = none ∧
      (o.unlock reg rc).obj.isLocked = false) := by
  cases rc <;> simp [FsObj.unlock, hf, hheld, hc, Registry.issue, Registry.erase]

/-- FsObj::unlock leaves the entries of the other identities alone. -/
theorem unlock_frame (o : FsObj) (reg : Registry) (rc : Bool) (f g : fuid_t)
    (hf : o.getfuid = .ok f) (hg : g ≠ f) :
    (o.unlock reg rc).reg.fuidMap g = reg.fuidMap g := by
  cases hl : o.isLocked with
  | false => simp [FsObj.unlock, hf, hl]
  | true =>
    cases hm : reg.fuidMap f with
    | none => simp [FsObj.unlock, hf, hl, hm]
    | some c =>
      by_cases h1 : c = 1
      · cases rc <;> simp [FsObj.unlock, hf, hl, hm, h1, Registry.issue, Registry.erase, hg]
      · simp [FsObj.unlock, hf, hl, hm, h1, Registry.assign, hg]

/-- C3. FsObj::unlock by an object that holds the lock (its locked flag is set),
on an identity `f` whose table count is `c ≥ 1`: when `c > 1` it returns, the
count becomes `c - 1` and no kernel release is issued; when `c = 1` exactly one
kernel release is issued and, when it succeeds, the call returns with the entry
erased; the entries of all other identities are unchanged. The two cases cover
every count `c ≥ 1`. -/
theorem unlock_contract (o : FsObj) (reg : Registry) (rc : Bool) (f : fuid_t) (c : Int)
    (hf : o.getfuid = .ok f) (hheld : o.isLocked = true)
    (hc : reg.fuidMap f = some c) (hpos : 1 ≤ c) :
    (1 < c ∨ c = 1) ∧
    (1 < c →
      (o.unlock reg rc).thrown = none ∧ (o.unlock reg rc).reg.fuidMap f = some (c - 1) ∧
      (o.unlock reg rc).reg.calls = reg.calls ∧ (o.unlock reg rc).obj.isLocked = false) ∧
    (c = 1 →
      (o.unlock reg rc).reg.calls = reg.calls ++ [KCall.release_right o.handle] ∧
      (rc = true →
        (o.unlock reg rc).thrown = none ∧ (o.unlock reg rc).reg.fuidMap f = none ∧
        (o.unlock reg rc).obj.isLocked = false)) ∧
    (∀ g : fuid_t, g ≠ f → (o.unlock reg rc).reg.fuidMap g = reg.fuidMap g) := by
  refine ⟨by omega, ?_, ?_, ?_⟩
  · intro h1
    exact unlock_above_one o reg rc f c hf hheld hc h1
  · intro h1
    subst h1
    exact unlock_at_one o reg rc f hf hheld hc
  · intro g hg
    exact unlock_frame o reg rc f g hf hg

/-- C3 at a concrete object: `sampleObj` after one lock on the empty table holds
the identity at count 1, and its unlock issues the one release and erases the
entry. -/
theorem unlock_contract_witness :
    (sampleObj.unlock_after_lock).thrown = none ∧
    (sampleObj.unlock_after_lock).reg.fuidMap sampleFuid = none :=
  ((unlock_contract (sampleObj.lock Registry.empty true).obj
      (sampleObj.lock Registry.empty true).reg true sampleFuid 1 rfl rfl rfl (by decide)).2.2.1
    rfl).2 rfl |>.imp_right And.left

/-! ## The lock table: N locks, N unlocks -/

/-- C4 as stated fails on the code: two lock() calls followed by two unlock()
calls on the one object `sampleObj`, the identity absent at the start and every
kernel call succeeding. The first unlock() clears the object's locked flag, so
the second throws GENERAL_ERROR, the entry stays in the table at count 1 and no
kernel release is issued. -/
theorem lock_twice_unlock_twice_one_object_fails :
    Registry.empty.fuidMap sampleFuid = none ∧
    (sampleObj.lockTimes 2 Registry.empty true).thrown = none ∧
    (FsObj.unlockTimes 2 (sampleObj.lockTimes 2 Registry.empty true).obj
        (sampleObj.lockTimes 2 Registry.empty true).reg true).thrown
      = some (.ltfsdm .GENERAL_ERROR) ∧
    (FsObj.unlockTimes 2 (sampleObj.lockTimes 2 Registry.empty true).obj
        (sampleObj.lockTimes 2 Registry.empty true).reg true).reg.fuidMap sampleFuid
      = some 1 ∧
    (FsObj.unlockTimes 2 (sampleObj.lockTimes 2 Registry.empty true).obj
        (sampleObj.lockTimes 2 Registry.empty true).reg true).reg.calls
      = [KCall.request_right sampleObj.handle] := by
  refine ⟨rfl, ?_, ?_, ?_, ?_⟩ <;> decide

theorem getfuid_of_handle_eq (o p : FsObj) (h : o.handle = p.handle) :
    o.getfuid = p.getfuid := by
  simp [FsObj.getfuid, h]

/-- The lock() calls of objects of identity `f` on a table that already holds
`f` at count `c`: none issues a kernel call, all return, the count grows by the
number of objects. -/
theorem lockEach_present (f : fuid_t) (rc : Bool) :
    ∀ (objs : List FsObj) (reg : Registry) (c : Int),
      (∀ o ∈ objs, o.getfuid = .ok f) → reg.fuidMap f = some c →
      (lockEach objs reg rc).thrown = none ∧
      (lockEach objs reg rc).reg.fuidMap f = some (c + objs.length) ∧
      (∀ g, g ≠ f → (lockEach objs reg rc).reg.fuidMap g = reg.fuidMap g) ∧
      (lockEach objs reg rc).reg.calls = reg.calls ∧
      (lockEach objs reg rc).objs = objs.map (fun o => { o with isLocked := true }) := by
  intro objs
  induction objs with
  | nil => intro reg c _ hc; simp [lockEach, hc]
  | cons o os ih =>
    intro reg c hall hc
    have hf : o.getfuid = .ok f := hall o (List.mem_cons_self o os)
    have hos : ∀ p ∈ os, p.getfuid = .ok f := fun p hp => hall p (List.mem_cons_of_mem o hp)
    have hl := lock_present o reg rc f c hf hc
    have hother := fun g hg => lock_frame o reg rc f g hf hg
    have hobj : (o.lock reg rc).obj = { o with isLocked := true } := by
      simp [FsObj.lock, hf, hc]
    obtain ⟨h1, h2, h3, h4, h5⟩ := ih (o.lock reg rc).reg (c + 1) hos hl.2.2.1
    simp only [lockEach, hl.2.1]
    refine ⟨h1, ?_, ?_, ?_, ?_⟩
    · rw [h2]; congr 1; simp only [List.length_cons, Nat.cast_add, Nat.cast_one]; ring
    · intro g hg; rw [h3 g hg, hother g hg]
    · rw [h4, hl.1]
    · simp [h5, hobj]

/-- The unlock() calls of objects that hold identity `f`, on a table whose count
for `f` exceeds their number: none issues a kernel call, all return, the count
drops by the number of objects. -/
theorem unlockEach_above (f : fuid_t) (rc : Bool) :
    ∀ (objs : List FsObj) (reg : Registry) (c : Int),
      (∀ o ∈ objs, o.getfuid = .ok f ∧ o.isLocked = true) → reg.fuidMap f = some c →
      (objs.length : Int) < c →
      (unlockEach objs reg rc).thrown = none ∧
      (unlockEach objs reg rc).reg.fuidMap f = some (c - objs.length) ∧
      (∀ g, g ≠ f → (unlockEach objs reg rc).reg.fuidMap g = reg.fuidMap g) ∧
      (unlockEach objs reg rc).reg.calls = reg.calls := by
  intro objs
  induction objs with
  | nil => intro reg c _ hc _; simp [unlockEach, hc]
  | cons o os ih =>
    intro reg c hall hc hlen
    obtain ⟨hf, hheld⟩ := hall o (List.mem_cons_self o os)
    have hos : ∀ p ∈ os, p.getfuid = .ok f ∧ p.isLocked = true :=
      fun p hp => hall p (List.mem_cons_of_mem o hp)
    simp only [List.length_cons, Nat.cast_add, Nat.cast_one] at hlen
    have hpos : 1 ≤ c := by omega
    have hgt : 1 < c := by omega
    have hu := unlock_above_one o reg rc f c hf hheld hc hgt
    have hother := fun g hg => unlock_frame o reg rc f g hf hg
    obtain ⟨h1, h2, h3, h4⟩ := ih (o.unlock reg rc).reg (c - 1) hos hu.2.1 (by omega)
    simp only [unlockEach, hu.1]
    refine ⟨h1, ?_, ?_, ?_⟩
    · rw [h2]; congr 1; simp only [List.length_cons, Nat.cast_add, Nat.cast_one]; ring
    · intro g hg; rw [h3 g hg, hother g hg]
    · rw [h4, hu.2.2.1]

/-- The unlock() calls of objects that hold identity `f`, on a table whose count
for `f` is their number: the last one releases the kernel right and erases the
entry. -/
theorem unlockEach_exact (f : fuid_t) :
    ∀ (o : FsObj) (os : List FsObj) (reg : Registry),
      (∀ p ∈ o :: os, p.getfuid = .ok f ∧ p.isLocked = true) →
      reg.fuidMap f = some ((o :: os).length : Int) →
      (unlockEach (o :: os) reg true).thrown = none ∧
      (unlockEach (o :: os) reg true).reg.fuidMap f = none ∧
      (∀ g, g ≠ f → (unlockEach (o :: os) reg true).reg.fuidMap g = reg.fuidMap g) ∧
      (unlockEach (o :: os) reg true).reg.calls
        = reg.calls ++ [KCall.release_right ((o :: os).getLast (List.cons_ne_nil o os)).handle] := by
  intro o os
  induction os generalizing o with
  | nil =>
    intro reg hall hc
    obtain ⟨hf, hheld⟩ := hall o (List.mem_cons_self o [])
    have hc1 : reg.fuidMap f = some 1 := by simpa using hc
    have hu := unlock_at_one o reg true f hf hheld hc1
    have hother := fun g hg => unlock_frame o reg true f g hf hg
    have hr := hu.2 rfl
    simp only [unlockEach, hr.1, List.getLast_singleton]
    exact ⟨trivial, hr.2.1, hother, hu.1⟩
  | cons p ps ih =>
    intro reg hall hc
    obtain ⟨hf, hheld⟩ := hall o (List.mem_cons_self o (p :: ps))
    have hos : ∀ q ∈ p :: ps, q.getfuid = .ok f ∧ q.isLocked = true :=
      fun q hq => hall q (List.mem_cons_of_mem o hq)
    have hlen : (1 : Int) < ((o :: p :: ps).length : Int) := by
      simp only [List.length_cons, Nat.cast_add, Nat.cast_one]; omega
    have hu := unlock_above_one o reg true f _ hf hheld hc hlen
    have hother := fun g hg => unlock_frame o reg true f g hf hg
    have hc2 : (o.unlock reg true).reg.fuidMap f = some ((p :: ps).length : Int) := by
      rw [hu.2.1]; congr 1
      simp only [List.length_cons, Nat.cast_add, Nat.cast_one]; ring
    obtain ⟨h1, h2, h3, h4⟩ := ih p (o.unlock reg true).reg hos hc2
    have hlast : (o :: p :: ps).getLast (List.cons_ne_nil o (p :: ps))
        = (p :: ps).getLast (List.cons_ne_nil p ps) := by
      simp [List.getLast_cons]
    rw [hlast]
    rw [show unlockEach (o :: p :: ps) reg true
        = { thrown := (unlockEach (p :: ps) (o.unlock reg true).reg true).thrown,
            objs := (o.unlock reg true).obj :: (unlockEach (p :: ps) (o.unlock reg true).reg true).objs,
            reg := (unlockEach (p :: ps) (o.unlock reg true).reg true).reg } from by
      conv => lhs; unfold unlockEach
      simp only [hu.1]]
    refine ⟨h1, h2, ?_, ?_⟩
    · intro g hg; rw [h3 g hg, hother g hg]
    · rw [h4, hu.2.2.1]

/-- C4 (amended). For every N ≥ 1 (the length of `o :: os`) and every identity
`f` absent from the lock table at the start, N sequential lock() calls made by N
file objects of that identity, one call each, followed by one unlock() call of
each of these objects (kernel calls succeeding) all complete without error,
leave no table entry for `f`, leave every other entry as it was and issue
exactly one kernel right request (by the first locker) and exactly one kernel
right release (by the last unlocker). For N = 1 this is one lock() and one
unlock() on a single object. -/
theorem lock_each_unlock_each (f : fuid_t) (o : FsObj) (os : List FsObj) (reg : Registry)
    (hall : ∀ p ∈ o :: os, p.getfuid = .ok f) (habs : reg.fuidMap f = none) :
    (lockEach (o :: os) reg true).thrown = none ∧
    (unlockEach (lockEach (o :: os) reg true).objs
        (lockEach (o :: os) reg true).reg true).thrown = none ∧
    (unlockEach (lockEach (o :: os) reg true).objs
        (lockEach (o :: os) reg true).reg true).reg.fuidMap f = none ∧
    (∀ g, g ≠ f →
      (unlockEach (lockEach (o :: os) reg true).objs
        (lockEach (o :: os) reg true).reg true).reg.fuidMap g = reg.fuidMap g) ∧
    (unlockEach (lockEach (o :: os) reg true).objs
        (lockEach (o :: os) reg true).reg true).reg.calls
      = reg.calls ++ [KCall.request_right o.handle,
          KCall.release_right ((o :: os).getLast (List.cons_ne_nil o os)).handle] := by
  have hf : o.getfuid = .ok f := hall o (List.mem_cons_self o os)
  have hos : ∀ p ∈ os, p.getfuid = .ok f := fun p hp => hall p (List.mem_cons_of_mem o hp)
  have hl := lock_absent o reg true f hf habs
  have hother := fun g hg => lock_frame o reg true f g hf hg
  have hr := hl.2 rfl
  have hobj : (o.lock reg true).obj = { o with isLocked := true } := by
    simp [FsObj.lock, hf, habs]
  obtain ⟨h1, h2, h3, h4, h5⟩ := lockEach_present f true os (o.lock reg true).reg 1 hos hr.2.1
  have hrun : lockEach (o :: os) reg true
      = { thrown := none,
          objs := { o with isLocked := true } :: os.map (fun p => { p with isLocked := true }),
          reg := (lockEach os (o.lock reg true).reg true).reg } := by
    conv => lhs; unfold lockEach
    simp only [hr.1, h1, h5, hobj]
  rw [hrun]
  have hheld : ∀ p ∈ ({ o with isLocked := true } : FsObj)
      :: os.map (fun p => ({ p with isLocked := true } : FsObj)),
      p.getfuid = .ok f ∧ p.isLocked = true := by
    intro p hp
    rcases List.mem_cons.1 hp with rfl | hp
    · exact ⟨(getfuid_of_handle_eq _ o rfl).trans hf, rfl⟩
    · obtain ⟨q, hq, rfl⟩ := List.mem_map.1 hp
      exact ⟨(getfuid_of_handle_eq _ q rfl).trans (hos q hq), rfl⟩
  have hcount : (lockEach os (o.lock reg true).reg true).reg.fuidMap f
      = some (((({ o with isLocked := true } : FsObj)
          :: os.map (fun p => ({ p with isLocked := true } : FsObj))).length : Nat) : Int) := by
    rw [h2]; congr 1
    simp only [List.length_cons, List.length_map, Nat.cast_add, Nat.cast_one]; ring
  obtain ⟨u1, u2, u3, u4⟩ := unlockEach_exact f _ _ _ hheld hcount
  refine ⟨rfl, u1, u2, ?_, ?_⟩
  · intro g hg
    show (unlockEach _ (lockEach os (o.lock reg true).reg true).reg true).reg.fuidMap g = _
    rw [u3 g hg, h3 g hg, hother g hg]
  · show (unlockEach _ (lockEach os (o.lock reg true).reg true).reg true).reg.calls = _
    rw [u4, h4, hl.1]
    have hlast : ((({ o with isLocked := true } : FsObj)
          :: os.map (fun p => ({ p with isLocked := true } : FsObj))).getLast
            (List.cons_ne_nil _ _)).handle
        = ((o :: os).getLast (List.cons_ne_nil o os)).handle := by
      have : (({ o with isLocked := true } : FsObj)
          :: os.map (fun p => ({ p with isLocked := true } : FsObj)))
          = (o :: os).map (fun p => ({ p with isLocked := true } : FsObj)) := by simp
      simp only [this, List.getLast_map]
    rw [hlast]
    simp

theorem sample_objs_fuid : ∀ p ∈ [sampleObj, sampleObj2], p.getfuid = .ok sampleFuid := by
  intro p hp
  simp only [List.mem_cons, List.mem_singleton, List.not_mem_nil, or_false] at hp
  rcases hp with rfl | rfl <;> rfl

/-- C4 (amended) at a concrete input: the two objects `sampleObj` and
`sampleObj2` of the same file lock and then unlock on the empty table. -/
theorem lock_each_unlock_each_witness :
    (∀ p ∈ [sampleObj, sampleObj2], p.getfuid = .ok sampleFuid) ∧
    (unlockEach (lockEach [sampleObj, sampleObj2] Registry.empty true).objs
        (lockEach [sampleObj, sampleObj2] Registry.empty true).reg true).reg.fuidMap sampleFuid
      = none ∧
    (unlockEach (lockEach [sampleObj, sampleObj2] Registry.empty true).objs
        (lockEach [sampleObj, sampleObj2] Registry.empty true).reg true).reg.calls
      = [KCall.request_right sampleObj.handle, KCall.release_right sampleObj2.handle] :=
  ⟨sample_objs_fuid,
   (lock_each_unlock_each sampleFuid sampleObj [sampleObj2] Registry.empty
      sample_objs_fuid rfl).2.2.1,
   (lock_each_unlock_each sampleFuid sampleObj [sampleObj2] Registry.empty
      sample_objs_fuid rfl).2.2.2.2⟩

/-! ## The lock table under interleaved calls -/

/-- C5 as stated fails on the code: two objects of the same file, both
unlocked, the table empty. Object 0 locks, then object 1 locks: the second
lock() returns at once, without a kernel request, and both objects hold the
identity. -/
theorem two_objects_hold_same_identity :
    ((Sys.init [sampleObj.handle, sampleObj.handle]).run
        [Action.lock 0 true, Action.lock 1 true]).holders sampleFuid = 2 ∧
    ((Sys.init [sampleObj.handle, sampleObj.handle]).run
        [Action.lock 0 true, Action.lock 1 true]).reg.calls
      = [KCall.request_right sampleObj.handle] ∧
    ((Sys.init [sampleObj.handle, sampleObj.handle]).run
        [Action.lock 0 true, Action.lock 1 true]).reg.fuidMap sampleFuid = some 2 := by
  refine ⟨?_, ?_, ?_⟩ <;> decide

theorem lock_handle (o : FsObj) (reg : Registry) (rc : Bool) :
    (o.lock reg rc).obj.handle = o.handle := by
  cases hget : o.getfuid with
  | error e => simp [FsObj.lock, hget]
  | ok f =>
    cases hm : reg.fuidMap f <;> cases rc <;> simp [FsObj.lock, hget, hm]

theorem unlock_handle (o : FsObj) (reg : Registry) (rc : Bool) :
    (o.unlock reg rc).obj.handle = o.handle := by
  cases hget : o.getfuid with
  | error e => simp [FsObj.unlock, hget]
  | ok f =>
    cases hl : o.isLocked with
    | false => simp [FsObj.unlock, hget, hl]
    | true =>
      cases hm : reg.fuidMap f with
      | none => simp [FsObj.unlock, hget, hl, hm]
      | some c =>
        by_cases h1 : c = 1
        · cases rc <;> simp [FsObj.unlock, hget, hl, hm, h1]
        · simp [FsObj.unlock, hget, hl, hm, h1]

theorem holds_of_ok (f fo : fuid_t) (o : FsObj) (hf : o.getfuid = .ok fo) :
    FsObj.holds f o = (o.isLocked && decide (fo = f)) := by
  simp [FsObj.holds, hf]

/-- One lock() call raises the table count of every identity at least as much
as it raises the number of holders. -/
theorem lock_delta (o : FsObj) (reg : Registry) (rc : Bool) (f : fuid_t) :
    (if FsObj.holds f (o.lock reg rc).obj then (1 : Int) else 0)
        - (if FsObj.holds f o then (1 : Int) else 0)
      ≤ (o.lock reg rc).reg.count f - reg.count f := by
  cases hget : o.getfuid with
  | error e => simp [FsObj.lock, hget]
  | ok fo =>
    have hget2 : (o.lock reg rc).obj.getfuid = .ok fo :=
      (getfuid_of_handle_eq _ o (lock_handle o reg rc)).trans hget
    rw [holds_of_ok f fo _ hget2, holds_of_ok f fo o hget]
    by_cases hfe : fo = f
    · subst hfe
      cases hm : reg.fuidMap fo <;> cases rc <;> cases hl : o.isLocked <;>
        simp [FsObj.lock, hget, hm, hl, Registry.count, Registry.assign, Registry.issue]
    · have hne : f ≠ fo := fun h => hfe h.symm
      have hsame := lock_frame o reg rc fo f hget hne
      simp [hfe, Registry.count, hsame]

/-- One unlock() call lowers the number of holders of every identity at least
as much as it lowers the table count. -/
theorem unlock_delta (o : FsObj) (reg : Registry) (rc : Bool) (f : fuid_t) :
    (if FsObj.holds f (o.unlock reg rc).obj then (1 : Int) else 0)
        - (if FsObj.holds f o then (1 : Int) else 0)
      ≤ (o.unlock reg rc).reg.count f - reg.count f := by
  cases hget : o.getfuid with
  | error e => simp [FsObj.unlock, hget]
  | ok fo =>
    have hget2 : (o.unlock reg rc).obj.getfuid = .ok fo :=
      (getfuid_of_handle_eq _ o (unlock_handle o reg rc)).trans hget
    rw [holds_of_ok f fo _ hget2, holds_of_ok f fo o hget]
    cases hl : o.isLocked with
    | false => simp [FsObj.unlock, hget, hl]
    | true =>
      cases hm : reg.fuidMap fo with
      | none => simp [FsObj.unlock, hget, hl, hm]
      | some c =>
        by_cases hfe : fo = f
        · subst hfe
          by_cases h1 : c = 1
          · cases rc <;>
              simp [FsObj.unlock, hget, hm, hl, h1, Registry.count, Registry.erase,
                Registry.issue]
          · simp [FsObj.unlock, hget, hm, hl, h1, Registry.count, Registry.assign]
        · have hne : f ≠ fo := fun h => hfe h.symm
          by_cases h1 : c = 1
          · cases rc <;>
              simp [FsObj.unlock, hget, hm, hl, h1, hfe, hne, Registry.count, Registry.erase,
                Registry.issue]
          · simp [FsObj.unlock, hget, hm, hl, h1, hfe, hne, Registry.count, Registry.assign]

theorem countP_set_int (p : FsObj → Bool) (l : List FsObj) (i : Nat) (a : FsObj)
    (h : i < l.length) :
    (((l.set i a).countP p : Nat) : Int)
      = (l.countP p : Int) - (if p l[i] then 1 else 0) + (if p a then 1 else 0) := by
  have h1 := List.countP_set p l i a h
  have h2 : (if p l[i] = true then 1 else 0) ≤ l.countP p := List.boole_getElem_le_countP p l i h
  rw [h1]
  split_ifs at h2 ⊢ <;> omega

/-- The invariant of the lock table: no identity has more holders than its
table count. -/
theorem step_holders_le_count (s : Sys) (a : Action)
    (hinv : ∀ f, (s.holders f : Int) ≤ s.reg.count f) :
    ∀ f, ((s.step a).holders f : Int) ≤ (s.step a).reg.count f := by
  intro f
  cases a with
  | lock i rc =>
    cases hi : s.objs[i]? with
    | none => simpa [Sys.step, hi] using hinv f
    | some o =>
      obtain ⟨hlt, hget⟩ := List.getElem?_eq_some_iff.1 hi
      have hd := lock_delta o s.reg rc f
      have hc := countP_set_int (FsObj.holds f) s.objs i (o.lock s.reg rc).obj hlt
      have := hinv f
      simp only [Sys.step, hi, Sys.holders] at this ⊢
      rw [hc, hget]
      omega
  | unlock i rc =>
    cases hi : s.objs[i]? with
    | none => simpa [Sys.step, hi] using hinv f
    | some o =>
      obtain ⟨hlt, hget⟩ := List.getElem?_eq_some_iff.1 hi
      have hd := unlock_delta o s.reg rc f
      have hc := countP_set_int (FsObj.holds f) s.objs i (o.unlock s.reg rc).obj hlt
      have := hinv f
      simp only [Sys.step, hi, Sys.holders] at this ⊢
      rw [hc, hget]
      omega

theorem run_holders_le_count (acts : List Action) :
    ∀ s : Sys, (∀ f, (s.holders f : Int) ≤ s.reg.count f) →
      ∀ f, ((s.run acts).holders f : Int) ≤ (s.run acts).reg.count f := by
  induction acts with
  | nil => intro s h; simpa [Sys.run] using h
  | cons a as ih =>
    intro s h
    have := ih (s.step a) (step_holders_le_count s a h)
    simpa [Sys.run] using this

theorem init_holders (handles : List Handle) (f : fuid_t) :
    (Sys.init handles).holders f = 0 := by
  simp [Sys.init, Sys.holders, FsObj.holds, List.countP_eq_zero]

/-- C5 (amended). In every state reachable from the starting process by any
interleaving of lock() and unlock() steps of any number of file objects (kernel
calls succeeding or failing), the file objects that have completed lock() and
not yet unlock() for an identity `f` are at most as many as the table count of
`f`; they can be more than one, since a lock() step by any object of identity
`f` while some object holds `f` returns at once, with no kernel request, sets
the caller's locked flag and raises the count by one. -/
theorem holders_bounded_by_count (handles : List Handle) (acts : List Action) (f : fuid_t) :
    ((((Sys.init handles).run acts).holders f : Nat) : Int)
      ≤ ((Sys.init handles).run acts).reg.count f ∧
    (∀ (i : Nat) (o : FsObj) (rc : Bool),
      ((Sys.init handles).run acts).objs[i]? = some o → o.getfuid = .ok f →
      1 ≤ ((Sys.init handles).run acts).holders f →
      (o.lock ((Sys.init handles).run acts).reg rc).thrown = none ∧
      (o.lock ((Sys.init handles).run acts).reg rc).obj.isLocked = true ∧
      (o.lock ((Sys.init handles).run acts).reg rc).reg.calls
        = ((Sys.init handles).run acts).reg.calls ∧
      (o.lock ((Sys.init handles).run acts).reg rc).reg.count f
        = ((Sys.init handles).run acts).reg.count f + 1) := by
  have hinv := run_holders_le_count acts (Sys.init handles)
    (fun g => by rw [init_holders]; simp [Sys.init, Registry.count, Registry.empty])
  refine ⟨hinv f, ?_⟩
  intro i o rc _ hf hheld
  have hle := hinv f
  have hpos : 1 ≤ ((Sys.init handles).run acts).reg.count f := by omega
  cases hm : ((Sys.init handles).run acts).reg.fuidMap f with
  | none => simp [Registry.count, hm] at hpos
  | some c =>
    have hl := lock_present o ((Sys.init handles).run acts).reg rc f c hf hm
    refine ⟨hl.2.1, hl.2.2.2, hl.1, ?_⟩
    simp [Registry.count, hl.2.2.1, hm]

/-- C5 (amended) at a concrete state: two objects of the file of `sampleObj`,
object 0 has locked. The lock() of object 1 returns without a kernel request
and the count becomes 2. -/
theorem holders_bounded_by_count_witness :
    ((Sys.init [sampleObj.handle, sampleObj.handle]).run [Action.lock 0 true]).holders sampleFuid
      = 1 ∧
    (sampleObj.lock
      ((Sys.init [sampleObj.handle, sampleObj.handle]).run [Action.lock 0 true]).reg true).thrown
      = none ∧
    (sampleObj.lock
      ((Sys.init [sampleObj.handle, sampleObj.handle]).run [Action.lock 0 true]).reg true).reg.calls
      = [KCall.request_right sampleObj.handle] ∧
    (sampleObj.lock
      ((Sys.init [sampleObj.handle, sampleObj.handle]).run [Action.lock 0 true]).reg
        true).reg.count sampleFuid = 2 := by
  have h := (holders_bounded_by_count [sampleObj.handle, sampleObj.handle] [Action.lock 0 true]
    sampleFuid).2 1 sampleObj true (by decide) (by decide) (by decide)
  exact ⟨by decide, h.1, h.2.2.1, h.2.2.2⟩

/-! ## The migration state -/

theorem region_flag_values :
    (DM_REGION_WRITE ||| DM_REGION_TRUNCATE) = 6 ∧
    (DM_REGION_READ ||| DM_REGION_WRITE ||| DM_REGION_TRUNCATE) = 7 := by
  decide

/-- What getMigState does once the attribute was read with added = true and
the region query gave `regs`. -/
theorem getMigState_of_added (cst : Const) (k : KFile) (fa fr : Option Nat)
    (attr : mig_attr_t) (regs : List dm_region_t)
    (hattr : FsObj.getAttribute cst k fa = .ok attr) (hadded : attr.added = true)
    (hreg : dm_get_region k 2 fr = .ok regs) :
    FsObj.getMigState cst k fa fr = stateOfRegions regs := by
  simp only [FsObj.getMigState, hattr, hadded, hreg, region_flag_values.1, region_flag_values.2,
    stateOfRegions]
  rfl

theorem dm_get_region_ok (k : KFile) (n : Nat) (fr : Option Nat) (regs : List dm_region_t)
    (h : dm_get_region k n fr = .ok regs) : regs = k.regions ∧ fr = none := by
  unfold dm_get_region at h
  cases fr with
  | some e => simp at h
  | none =>
    by_cases hn : n < k.regions.length
    · simp [hn] at h
    · simp only [hn, if_false] at h
      injection h with h
      exact ⟨h.symm, rfl⟩

/-- C1. For every file whose migration attribute record is read with
added = true and whose region query succeeds with the installed regions `regs`,
FsObj::getMigState returns RESIDENT when no region is installed, PREMIGRATED
when exactly one region is installed with flags exactly write, truncate,
MIGRATED when exactly one region is installed with flags exactly read, write,
truncate, and raises GENERAL_ERROR when more than one region is installed or
the single region carries any other flag combination. -/
theorem getMigState_by_regions (cst : Const) (k : KFile) (fa fr : Option Nat)
    (attr : mig_attr_t) (regs : List dm_region_t)
    (hattr : FsObj.getAttribute cst k fa = .ok attr) (hadded : attr.added = true)
    (hreg : dm_get_region k 2 fr = .ok regs) :
    regs = k.regions ∧
    (regs = [] → FsObj.getMigState cst k fa fr = .ok .RESIDENT) ∧
    (∀ r, regs = [r] → r.rg_flags = (DM_REGION_WRITE ||| DM_REGION_TRUNCATE) →
      FsObj.getMigState cst k fa fr = .ok .PREMIGRATED) ∧
    (∀ r, regs = [r] →
      r.rg_flags = (DM_REGION_READ ||| DM_REGION_WRITE ||| DM_REGION_TRUNCATE) →
      FsObj.getMigState cst k fa fr = .ok .MIGRATED) ∧
    (1 < regs.length → FsObj.getMigState cst k fa fr = .error (.ltfsdm .GENERAL_ERROR)) ∧
    (∀ r, regs = [r] → r.rg_flags ≠ (DM_REGION_WRITE ||| DM_REGION_TRUNCATE) →
      r.rg_flags ≠ (DM_REGION_READ ||| DM_REGION_WRITE ||| DM_REGION_TRUNCATE) →
      FsObj.getMigState cst k fa fr = .error (.ltfsdm .GENERAL_ERROR)) := by
  have hm := getMigState_of_added cst k fa fr attr regs hattr hadded hreg
  rw [region_flag_values.1, region_flag_values.2]
  refine ⟨(dm_get_region_ok k 2 fr regs hreg).1, ?_, ?_, ?_, ?_, ?_⟩
  · intro h; rw [hm, h]; rfl
  · intro r h hflags; rw [hm, h]; simp [stateOfRegions, hflags]
  · intro r h hflags; rw [hm, h]; simp [stateOfRegions, hflags]
  · intro h; rw [hm]; simp [stateOfRegions, h]
  · intro r h h6 h7; rw [hm, h]; simp [stateOfRegions, h6, h7]

/-- C1 at a concrete file: the record `sampleAttr` and the one whole-file
region with flags write, truncate give PREMIGRATED. -/
theorem getMigState_by_regions_witness :
    FsObj.getAttribute sampleConst ⟨some sampleAttr, [regionPremigrated]⟩ none = .ok sampleAttr ∧
    sampleAttr.added = true ∧
    dm_get_region ⟨some sampleAttr, [regionPremigrated]⟩ 2 none = .ok [regionPremigrated] ∧
    FsObj.getMigState sampleConst ⟨some sampleAttr, [regionPremigrated]⟩ none none
      = .ok .PREMIGRATED :=
  ⟨by decide, rfl, by decide,
   (getMigState_by_regions sampleConst ⟨some sampleAttr, [regionPremigrated]⟩ none none
      sampleAttr [regionPremigrated] (by decide) rfl (by decide)).2.2.1
     regionPremigrated rfl (by decide)⟩

/-- C9 as stated fails on the code: two files with the same installed region
list, one without a migration attribute record and one with `sampleAttr`.
With the one region of flags read, write, truncate the first is RESIDENT and the
second MIGRATED; with two regions installed the first is still reported
RESIDENT, without an error. -/
theorem getMigState_depends_on_attribute :
    (⟨none, [regionMigrated]⟩ : KFile).regions
      = (⟨some sampleAttr, [regionMigrated]⟩ : KFile).regions ∧
    FsObj.getMigState sampleConst ⟨none, [regionMigrated]⟩ none none = .ok .RESIDENT ∧
    FsObj.getMigState sampleConst ⟨some sampleAttr, [regionMigrated]⟩ none none
      = .ok .MIGRATED ∧
    FsObj.getMigState sampleConst ⟨none, [regionMigrated, regionPremigrated]⟩ none none
      = .ok .RESIDENT := by
  refine ⟨rfl, ?_, ?_, ?_⟩ <;> decide

/-- C9 (amended). Among the files whose migration attribute record is read
with added = true, the outcome of FsObj::getMigState is determined by the
installed regions alone: two such files with the same installed region list
(and the same outcome of the region query) give the same state or both raise,
whatever else their records contain, and more than one region or an
unrecognized flag combination on such a file raises an error. A file whose
record is absent or has added = false is RESIDENT whatever regions it has. -/
theorem getMigState_regions_only_when_added (cst : Const) (k1 k2 : KFile)
    (fa1 fa2 fr : Option Nat) :
    (∀ a1 a2 : mig_attr_t,
      FsObj.getAttribute cst k1 fa1 = .ok a1 → a1.added = true →
      FsObj.getAttribute cst k2 fa2 = .ok a2 → a2.added = true →
      k1.regions = k2.regions →
      FsObj.getMigState cst k1 fa1 fr = FsObj.getMigState cst k2 fa2 fr ∧
      (1 < k1.regions.length →
        ∃ e, FsObj.getMigState cst k1 fa1 fr = .error e) ∧
      (∀ r, k1.regions = [r] →
        r.rg_flags ≠ (DM_REGION_WRITE ||| DM_REGION_TRUNCATE) →
        r.rg_flags ≠ (DM_REGION_READ ||| DM_REGION_WRITE ||| DM_REGION_TRUNCATE) →
        ∃ e, FsObj.getMigState cst k1 fa1 fr = .error e)) ∧
    (∀ a1 : mig_attr_t, FsObj.getAttribute cst k1 fa1 = .ok a1 → a1.added = false →
      FsObj.getMigState cst k1 fa1 fr = .ok .RESIDENT) := by
  refine ⟨?_, ?_⟩
  · intro a1 a2 h1 hadd1 h2 hadd2 hregs
    have hq : dm_get_region k1 2 fr = dm_get_region k2 2 fr := by
      simp [dm_get_region, hregs]
    refine ⟨?_, ?_, ?_⟩
    · simp only [FsObj.getMigState, h1, h2, hadd1, hadd2, hq]
    · intro hlen
      cases hr : dm_get_region k1 2 fr with
      | error e =>
        exact ⟨.ltfsdm .GENERAL_ERROR, by simp [FsObj.getMigState, h1, hadd1, hr]⟩
      | ok regs =>
        have hk := (dm_get_region_ok k1 2 fr regs hr).1
        refine ⟨.ltfsdm .GENERAL_ERROR, ?_⟩
        rw [getMigState_of_added cst k1 fa1 fr a1 regs h1 hadd1 hr, hk]
        simp [stateOfRegions, hlen]
    · intro r hr1 h6 h7
      cases hr : dm_get_region k1 2 fr with
      | error e =>
        exact ⟨.ltfsdm .GENERAL_ERROR, by simp [FsObj.getMigState, h1, hadd1, hr]⟩
      | ok regs =>
        have hk := (dm_get_region_ok k1 2 fr regs hr).1
        rw [region_flag_values.1] at h6
        rw [region_flag_values.2] at h7
        refine ⟨.ltfsdm .GENERAL_ERROR, ?_⟩
        rw [getMigState_of_added cst k1 fa1 fr a1 regs h1 hadd1 hr, hk, hr1]
        simp [stateOfRegions, h6, h7]
  · intro a1 h1 hadd
    simp [FsObj.getMigState, h1, hadd]

/-- C9 (amended) at concrete files: a record with one copy and a record with
two copies, both with the one region of flags read, write, truncate, are both
MIGRATED. -/
theorem getMigState_regions_only_when_added_witness :
    FsObj.getMigState sampleConst ⟨some sampleAttr, [regionMigrated]⟩ none none
      = FsObj.getMigState sampleConst ⟨some sampleAttrTwo, [regionMigrated]⟩ none none ∧
    FsObj.getMigState sampleConst ⟨some sampleAttrTwo, [regionMigrated]⟩ none none
      = .ok .MIGRATED :=
  ⟨((getMigState_regions_only_when_added sampleConst ⟨some sampleAttr, [regionMigrated]⟩
      ⟨some sampleAttrTwo, [regionMigrated]⟩ none none none).1 sampleAttr sampleAttrTwo
      (by decide) rfl (by decide) rfl rfl).1,
   by decide⟩

/-- C10 as stated fails on the code: the file holds the record `sampleAttr`
(added = true, one copy) and has no region installed, as after a recall to
resident. FsObj::getMigState returns RESIDENT although neither added = false
nor copies = 0. -/
theorem resident_with_copies :
    FsObj.getAttribute sampleConst ⟨some sampleAttr, []⟩ none = .ok sampleAttr ∧
    FsObj.getMigState sampleConst ⟨some sampleAttr, []⟩ none none = .ok .RESIDENT ∧
    ¬ (sampleAttr.added = false ∨ sampleAttr.copies = 0) := by
  refine ⟨?_, ?_, ?_⟩ <;> decide

/-- C10 (amended). For every file on which FsObj::getMigState returns a state,
the returned state is RESIDENT if and only if the file's migration attribute
record has added = false or no region is installed on the file; the number of
copies in the record plays no part. -/
theorem resident_iff_not_added_or_no_region (cst : Const) (k : KFile) (fa fr : Option Nat)
    (attr : mig_attr_t) (st : file_state)
    (hattr : FsObj.getAttribute cst k fa = .ok attr)
    (hst : FsObj.getMigState cst k fa fr = .ok st) :
    st = .RESIDENT ↔ (attr.added = false ∨ k.regions = []) := by
  cases hadd : attr.added with
  | false =>
    have : FsObj.getMigState cst k fa fr = .ok .RESIDENT := by
      simp [FsObj.getMigState, hattr, hadd]
    rw [this] at hst
    injection hst with hst
    simp [← hst]
  | true =>
    cases hr : dm_get_region k 2 fr with
    | error e => simp [FsObj.getMigState, hattr, hadd, hr] at hst
    | ok regs =>
      have hk := (dm_get_region_ok k 2 fr regs hr).1
      have hm := getMigState_of_added cst k fa fr attr regs hattr hadd hr
      rw [hm, hk] at hst
      cases hregs : k.regions with
      | nil =>
        rw [hregs] at hst
        simp [stateOfRegions] at hst
        simp [← hst]
      | cons r rs =>
        rw [hregs] at hst
        simp only [Bool.true_eq_false, false_or, reduceCtorEq, iff_false]
        intro hres
        subst hres
        simp only [stateOfRegions] at hst
        split_ifs at hst <;> simp at hst

/-- C10 (amended) at a concrete file: `sampleAttr` with the whole-file region of
flags read, write, truncate is MIGRATED, and indeed added = true and a region is
installed. -/
theorem resident_iff_not_added_or_no_region_witness :
    (file_state.MIGRATED = file_state.RESIDENT ↔
      (sampleAttr.added = false ∨ (⟨some sampleAttr, [regionMigrated]⟩ : KFile).regions = [])) :=
  resident_iff_not_added_or_no_region sampleConst ⟨some sampleAttr, [regionMigrated]⟩ none none
    sampleAttr .MIGRATED (by decide) (by decide)

/-! ## Appending a tape copy -/

/-- C6, the code at the failing input: FsObj::addTapeAttr("T001", 0) on a fresh
file, every kernel call succeeding. The guard is built locked and the explicit
fsolock.lock() throws std::system_error (resource_deadlock_would_occur); the
destructor of the guard unlocks again, nothing is persisted. -/
theorem addTapeAttr_fresh_file_throws :
    (FsObj.addTapeAttr sampleConst sampleObj Registry.empty freshFile "T001" 0
        AttrOracle.allOk).thrown = some .system_error_deadlock ∧
    (FsObj.addTapeAttr sampleConst sampleObj Registry.empty freshFile "T001" 0
        AttrOracle.allOk).file.migAttr = none ∧
    (FsObj.addTapeAttr sampleConst sampleObj Registry.empty freshFile "T001" 0
        AttrOracle.allOk).reg.fuidMap sampleFuid = none := by
  refine ⟨?_, ?_, ?_⟩ <;> decide

/-- FsObj::addTapeAttr never returns normally and never changes the stored
attribute, whatever the object, the file, the arguments and the kernel's
answers are. -/
theorem addTapeAttr_never_returns (cst : Const) (o : FsObj) (reg : Registry) (k : KFile)
    (tapeId : String) (startBlock : Int) (orc : AttrOracle) :
    (FsObj.addTapeAttr cst o reg k tapeId startBlock orc).thrown ≠ none ∧
    (FsObj.addTapeAttr cst o reg k tapeId startBlock orc).file = k := by
  unfold FsObj.addTapeAttr
  cases h1 : (o.lock reg orc.request).thrown with
  | some e => simp [h1]
  | none => simp [h1, unique_lock.lock]

/-- The read-modify-write that addTapeAttr attempts: on a record with `n`
copies, `n` below the maximum copy count and the array of full size, and a
tape id without NUL no longer than the tape-id length, the updated record has
added = true, copies = n + 1, entry `n` equal to (tapeId, startBlock) and every
other entry unchanged. -/
theorem addTapeAttr_update_appends (cst : Const) (attr : mig_attr_t) (tapeId : String)
    (startBlock : Int) (n : Nat) (hn : attr.copies = n) (hmax : n < cst.maxReplica)
    (hsize : attr.tapeInfo.length = cst.maxReplica)
    (hlen : tapeId.length ≤ cst.tapeIdLength) (hnul : ∀ c ∈ tapeId.toList, c ≠ Char.ofNat 0) :
    ∃ attr1, FsObj.addTapeAttr.update cst attr tapeId startBlock = .ok attr1 ∧
      attr1.added = true ∧ attr1.typeId = cst.typeHash ∧ attr1.copies = n + 1 ∧
      attr1.tapeInfo[n]? = some ⟨tapeId, startBlock⟩ ∧
      (∀ i, i ≠ n → attr1.tapeInfo[i]? = attr.tapeInfo[i]?) := by
  have hcopy : strncpy tapeId cst.tapeIdLength = tapeId := by
    unfold strncpy
    have h1 : tapeId.toList.takeWhile (fun c => c ≠ Char.ofNat 0) = tapeId.toList := by
      rw [List.takeWhile_eq_self_iff]
      intro c hc
      exact decide_eq_true (hnul c hc)
    rw [h1, List.take_of_length_le (show tapeId.toList.length ≤ cst.tapeIdLength from hlen)]
    rfl
  have hrange : 0 ≤ attr.copies ∧ attr.copies < (cst.maxReplica : Int) := by
    rw [hn]; exact ⟨Int.natCast_nonneg n, by exact_mod_cast hmax⟩
  have hidx : attr.copies.toNat = n := by rw [hn]; rfl
  refine ⟨{ typeId := cst.typeHash, added := true,
            tapeInfo := attr.tapeInfo.set n { tapeId := tapeId, startBlock := startBlock },
            copies := attr.copies + 1 }, ?_, rfl, rfl, ?_, ?_, ?_⟩
  · simp only [FsObj.addTapeAttr.update, hrange, and_self, if_true, hidx, hcopy]
  · simp [hn]
  · simp [hsize, hmax]
  · intro i hi
    simp [List.getElem?_set, Ne.symm hi]

/-- The update at a concrete input: the first copy ("T001", 0) on the record of
a never migrated file. -/
theorem addTapeAttr_update_appends_witness :
    ∃ attr1, FsObj.addTapeAttr.update sampleConst (mig_attr_t.zero sampleConst) "T001" 0
        = .ok attr1 ∧
      attr1.added = true ∧ attr1.copies = 1 ∧ attr1.tapeInfo[0]? = some ⟨"T001", 0⟩ := by
  obtain ⟨a, h1, h2, _, h4, h5, _⟩ :=
    addTapeAttr_update_appends sampleConst (mig_attr_t.zero sampleConst) "T001" 0 0 rfl
      (by decide) (by decide) (by decide) (by decide)
  exact ⟨a, h1, h2, h4, h5⟩

/-- The update applied twice, ("T001", 0) and then ("T002", 500), to the record
of a never migrated file: two copies in append order. -/
theorem addTapeAttr_update_twice :
    (FsObj.addTapeAttr.update sampleConst (mig_attr_t.zero sampleConst) "T001" 0).bind
        (fun a => FsObj.addTapeAttr.update sampleConst a "T002" 500)
      = .ok { typeId := 12345, added := true, copies := 2,
              tapeInfo := [⟨"T001", 0⟩, ⟨"T002", 500⟩, ⟨"", 0⟩] } := by
  decide

/-! ## The event dispatcher -/

theorem getEvents_skips_transient (w : World) (pre : List Nat)
    (hpre : ∀ e ∈ pre, e = EINTR ∨ e = EAGAIN) (rets : List (DmResult dm_eventmsg_t))
    (setDispOk respondOk : Bool) (orc : Nat → ManageFsOracle) :
    Connector.getEvents w (pre.map Except.error ++ rets) setDispOk respondOk orc
      = Connector.getEvents w rets setDispOk respondOk orc := by
  induction pre with
  | nil => rfl
  | cons e es ih =>
    have he : ¬ (e ≠ EINTR ∧ e ≠ EAGAIN) := by
      rcases hpre e (List.mem_cons_self e es) with h | h <;> simp [h]
    have ih2 := ih (fun x hx => hpre x (List.mem_cons_of_mem e hx))
    simp only [List.map_cons, List.cons_append]
    rw [Connector.getEvents]
    simp only [he, if_false]
    exact ih2

/-- C7. For every retrieved event of type READ, WRITE or TRUNCATE whose handle
resolves (the three kernel conversions give `fsid_l`, `igen`, `inum`),
retrieved after any number of interrupted attempts, Connector::getEvents
returns normally a recall descriptor that carries the event's own token, the
file identity (0, fsid_l, igen, inum) derived from the event handle and a
classification with toresident = false exactly when the event is READ, and
toresident = true for WRITE and TRUNCATE; the lock table and the call log are
left as they were. -/
theorem getEvents_recall_descriptor (w : World) (pre : List Nat)
    (ev : dm_eventmsg_t) (d : dm_data_event_t) (rest : List (DmResult dm_eventmsg_t))
    (setDispOk respondOk : Bool) (orc : Nat → ManageFsOracle) (fsid_l igen inum : Nat)
    (hpre : ∀ e ∈ pre, e = EINTR ∨ e = EAGAIN)
    (htype : ev.ev_type = .DM_EVENT_READ ∨ ev.ev_type = .DM_EVENT_WRITE ∨
      ev.ev_type = .DM_EVENT_TRUNCATE)
    (hdata : ev.ev_data = .data d)
    (hfsid : d.de_handle.fsid = some fsid_l) (higen : d.de_handle.igen = some igen)
    (hino : d.de_handle.ino = some inum) :
    ∃ r, Connector.getEvents w (pre.map Except.error ++ .ok ev :: rest) setDispOk respondOk orc
        = some r ∧
      r.thrown = none ∧
      r.recinfo.conn_info = some { token := ev.ev_token } ∧
      r.recinfo.fuid = ⟨0, fsid_l, igen, inum⟩ ∧
      (r.recinfo.toresident = false ↔ ev.ev_type = .DM_EVENT_READ) ∧
      (ev.ev_type = .DM_EVENT_WRITE ∨ ev.ev_type = .DM_EVENT_TRUNCATE →
        r.recinfo.toresident = true) ∧
      r.world.reg.calls = w.reg.calls ∧ r.world.reg.fuidMap = w.reg.fuidMap := by
  rw [getEvents_skips_transient w pre hpre]
  refine ⟨Connector.getEvents.process w ev setDispOk respondOk orc, rfl, ?_⟩
  rcases htype with h | h | h <;>
    simp [Connector.getEvents.process, h, hdata, hfsid, higen, hino, rec_info_t.initial]

/-- C7 at a concrete event: the READ event `sampleReadEvent`, retrieved after
one interrupted attempt, gives the descriptor `sampleRecinfo`. -/
theorem getEvents_recall_descriptor_witness :
    ∃ r, Connector.getEvents World.initial
        ([EINTR].map Except.error ++ .ok sampleReadEvent :: []) true true
        (fun _ => ManageFsOracle.allOk) = some r ∧
      r.thrown = none ∧ r.recinfo.conn_info = some { token := 99 } ∧
      r.recinfo.fuid = sampleFuid ∧ r.recinfo.toresident = false := by
  obtain ⟨r, h1, h2, h3, h4, h5, -⟩ :=
    getEvents_recall_descriptor World.initial [EINTR] sampleReadEvent
      { de_handle := sampleObj.handle } [] true true (fun _ => ManageFsOracle.allOk) 7 1 42
      (by simp) (Or.inl rfl) rfl rfl rfl rfl
  exact ⟨r, h1, h2, h3, h4, h5.2 rfl⟩

/-! ## The recall responder -/

/-- C8 as stated fails on the code: respondRecallEvent is invoked twice for the
descriptor `sampleRecinfo`, the kernel accepting the first response and
rejecting the second. Both invocations issue a kernel response for token 99. -/
theorem respond_twice_issues_two_responses :
    respondAll [] [⟨sampleRecinfo, true, true⟩, ⟨sampleRecinfo, true, false⟩]
      = [KCall.respond_event 99 true 0, KCall.respond_event 99 true 0] ∧
    responsesFor 99
      (respondAll [] [⟨sampleRecinfo, true, true⟩, ⟨sampleRecinfo, true, false⟩]) = 2 := by
  refine ⟨?_, ?_⟩ <;> decide

theorem responsesFor_append_singleton (token : Nat) (calls : List KCall) (c : KCall) :
    responsesFor token (calls ++ [c]) = responsesFor token calls + responsesFor token [c] := by
  simp [responsesFor, List.countP_append]

/-- One invocation adds one kernel response for the token of its descriptor and
none for any other token. -/
theorem respondRecallEvent_responses (calls : List KCall) (r : Respond) (token : Nat) :
    responsesFor token (Connector.respondRecallEvent calls r.recinfo r.success r.rc).2
      = responsesFor token calls + invocationsFor token [r] := by
  unfold Connector.respondRecallEvent
  cases hci : r.recinfo.conn_info with
  | none => simp [invocationsFor, hci]
  | some ci =>
    obtain ⟨t⟩ := ci
    have hinv : invocationsFor token [r] = if t = token then 1 else 0 := by
      by_cases h : t = token <;> simp [invocationsFor, hci, h, List.countP_cons]
    have hone : ∀ (b : Bool) (e : Nat),
        responsesFor token [KCall.respond_event t b e] = if t = token then 1 else 0 := by
      intro b e
      by_cases h : t = token <;> simp [responsesFor, h, List.countP_cons]
    cases hs : r.success <;> cases hr : r.rc <;>
      simp [responsesFor_append_singleton, hone, hinv]

theorem respondAll_responses (token : Nat) (rs : List Respond) :
    ∀ calls : List KCall,
      responsesFor token (respondAll calls rs)
        = responsesFor token calls + invocationsFor token rs := by
  induction rs with
  | nil => intro calls; simp [respondAll, invocationsFor]
  | cons r rs ih =>
    intro calls
    have hsplit : invocationsFor token (r :: rs)
        = invocationsFor token [r] + invocationsFor token rs := by
      simp only [invocationsFor, List.countP_cons, List.countP_nil]
      omega
    rw [respondAll, ih, respondRecallEvent_responses, hsplit]
    omega

/-- C8 (amended). Every invocation of Connector::respondRecallEvent for a
recall descriptor issues exactly one kernel response for the descriptor's
token, continue on success and abort with EIO on failure, and returns exactly
when the kernel accepts it; this is so also when the token was answered before,
so a second invocation for the same token is possible and issues a second
kernel response. Over any sequence of invocations each token receives as many
kernel responses as there are invocations for it, hence at most one kernel
response when it is invoked at most once for that token. -/
theorem responses_equal_invocations (calls : List KCall) (rs : List Respond) (token : Nat) :
    (∀ (recinfo : rec_info_t) (success rc : Bool),
      recinfo.conn_info = some { token := token } →
      (Connector.respondRecallEvent calls recinfo success rc).2
        = calls ++ [KCall.respond_event token success (if success then 0 else EIO_errno)] ∧
      ((Connector.respondRecallEvent calls recinfo success rc).1 = none ↔ rc = true)) ∧
    responsesFor token (respondAll calls rs)
      = responsesFor token calls + invocationsFor token rs ∧
    (invocationsFor token rs ≤ 1 → responsesFor token (respondAll [] rs) ≤ 1) := by
  refine ⟨?_, respondAll_responses token rs calls, ?_⟩
  · intro recinfo success rc hci
    cases success <;> cases rc <;> simp [Connector.respondRecallEvent, hci]
  · intro h
    rw [respondAll_responses token rs []]
    simpa [responsesFor] using h

/-- C8 (amended) at a concrete sequence: one invocation for the descriptor
`sampleRecinfo` gives token 99 its one kernel response. -/
theorem responses_equal_invocations_witness :
    invocationsFor 99 [⟨sampleRecinfo, true, true⟩] = 1 ∧
    responsesFor 99 (respondAll [] [⟨sampleRecinfo, true, true⟩]) ≤ 1 ∧
    (Connector.respondRecallEvent [] sampleRecinfo false true).2
      = [KCall.respond_event 99 false EIO_errno] :=
  ⟨by decide,
   (responses_equal_invocations [] [⟨sampleRecinfo, true, true⟩] 99).2.2 (by decide),
   ((responses_equal_invocations [] [⟨sampleRecinfo, true, true⟩] 99).1 sampleRecinfo false true
      rfl).1⟩

/-! ## Region transitions -/

/-- The migration state of a file whose record is read with added = true and
whose regions are `regs`, at most two of them. -/
theorem getMigState_of_regions (cst : Const) (k : KFile) (attr : mig_attr_t)
    (hattr : FsObj.getAttribute cst k none = .ok attr) (hadded : attr.added = true)
    (hlen : k.regions.length ≤ 2) :
    FsObj.getMigState cst k none none = stateOfRegions k.regions := by
  have hq : dm_get_region k 2 none = .ok k.regions := by
    have : ¬ 2 < k.regions.length := by omega
    simp [dm_get_region, this]
  exact getMigState_of_added cst k none none attr k.regions hattr hadded hq

theorem getAttribute_set_region (cst : Const) (k : KFile) (nelem : Nat)
    (regbuf : List dm_region_t) (rc : Bool) (fault : Option Nat) :
    FsObj.getAttribute cst (dm_set_region k nelem regbuf rc) fault
      = FsObj.getAttribute cst k fault := by
  cases rc <;> simp [dm_set_region, FsObj.getAttribute, dm_get_dmattr]

/-- C11. For every file whose migration attribute record is read with
added = true, each region transition that succeeds leaves exactly the state it
is named for, and the regions it leaves are at most one region, covering the
whole file (offset 0, size 0): after preparePremigration getMigState returns
PREMIGRATED, after prepareStubbing MIGRATED, after finishRecall(PREMIGRATED)
PREMIGRATED, and after finishRecall with any other target state RESIDENT. -/
theorem region_transitions (cst : Const) (k : KFile) (attr : mig_attr_t)
    (hattr : FsObj.getAttribute cst k none = .ok attr) (hadded : attr.added = true) :
    ((FsObj.preparePremigration k true).1 = none ∧
      FsObj.getMigState cst (FsObj.preparePremigration k true).2 none none = .ok .PREMIGRATED ∧
      wholeFileOnly (FsObj.preparePremigration k true).2.regions) ∧
    ((FsObj.prepareStubbing k true).1 = none ∧
      FsObj.getMigState cst (FsObj.prepareStubbing k true).2 none none = .ok .MIGRATED ∧
      wholeFileOnly (FsObj.prepareStubbing k true).2.regions) ∧
    ((FsObj.finishRecall k .PREMIGRATED true).1 = none ∧
      FsObj.getMigState cst (FsObj.finishRecall k .PREMIGRATED true).2 none none
        = .ok .PREMIGRATED ∧
      wholeFileOnly (FsObj.finishRecall k .PREMIGRATED true).2.regions) ∧
    (∀ fstate : file_state, fstate ≠ .PREMIGRATED →
      (FsObj.finishRecall k fstate true).1 = none ∧
      FsObj.getMigState cst (FsObj.finishRecall k fstate true).2 none none = .ok .RESIDENT ∧
      wholeFileOnly (FsObj.finishRecall k fstate true).2.regions) := by
  have h6 := region_flag_values.1
  have h7 := region_flag_values.2
  refine ⟨⟨rfl, ?_, ?_⟩, ⟨rfl, ?_, ?_⟩, ⟨rfl, ?_, ?_⟩, ?_⟩
  · have ha : FsObj.getAttribute cst (FsObj.preparePremigration k true).2 none = .ok attr := by
      simpa [FsObj.preparePremigration] using
        (getAttribute_set_region cst k 1 _ true none).trans hattr
    rw [getMigState_of_regions cst _ attr ha hadded (by simp [FsObj.preparePremigration, dm_set_region])]
    simp [FsObj.preparePremigration, dm_set_region, stateOfRegions, h6]
  · simp [wholeFileOnly, FsObj.preparePremigration, dm_set_region]
  · have ha : FsObj.getAttribute cst (FsObj.prepareStubbing k true).2 none = .ok attr := by
      simpa [FsObj.prepareStubbing] using
        (getAttribute_set_region cst k 1 _ true none).trans hattr
    rw [getMigState_of_regions cst _ attr ha hadded (by simp [FsObj.prepareStubbing, dm_set_region])]
    simp [FsObj.prepareStubbing, dm_set_region, stateOfRegions, h7]
  · simp [wholeFileOnly, FsObj.prepareStubbing, dm_set_region]
  · have ha : FsObj.getAttribute cst (FsObj.finishRecall k .PREMIGRATED true).2 none
        = .ok attr := by
      simpa [FsObj.finishRecall] using
        (getAttribute_set_region cst k 1 _ true none).trans hattr
    rw [getMigState_of_regions cst _ attr ha hadded (by simp [FsObj.finishRecall, dm_set_region])]
    simp [FsObj.finishRecall, dm_set_region, stateOfRegions, h6]
  · simp [wholeFileOnly, FsObj.finishRecall, dm_set_region]
  · intro fstate hne
    have ha : FsObj.getAttribute cst (FsObj.finishRecall k fstate true).2 none = .ok attr := by
      simpa [FsObj.finishRecall, hne] using
        (getAttribute_set_region cst k 0 _ true none).trans hattr
    refine ⟨by simp [FsObj.finishRecall, hne], ?_, ?_⟩
    · rw [getMigState_of_regions cst _ attr ha hadded
        (by simp [FsObj.finishRecall, hne, dm_set_region])]
      simp [FsObj.finishRecall, hne, dm_set_region, stateOfRegions]
    · simp [wholeFileOnly, FsObj.finishRecall, hne, dm_set_region]

/-- C11 at a concrete file: `sampleFileStale` holds the record `sampleAttr` and
two stale regions; prepareStubbing leaves the one whole-file region and the
state MIGRATED, finishRecall(RESIDENT) leaves no region and the state
RESIDENT. -/
theorem region_transitions_witness :
    FsObj.getAttribute sampleConst sampleFileStale none = .ok sampleAttr ∧
    sampleAttr.added = true ∧
    FsObj.getMigState sampleConst (FsObj.prepareStubbing sampleFileStale true).2 none none
      = .ok .MIGRATED ∧
    FsObj.getMigState sampleConst (FsObj.finishRecall sampleFileStale .RESIDENT true).2 none none
      = .ok .RESIDENT :=
  ⟨by decide, rfl,
   (region_transitions sampleConst sampleFileStale sampleAttr (by decide) rfl).2.1.2.1,
   ((region_transitions sampleConst sampleFileStale sampleAttr (by decide) rfl).2.2.2
      .RESIDENT (by decide)).2.1⟩

/-! ## Reading the migration attribute -/

/-- C12. FsObj::getAttribute raises exactly when the kernel attribute read
fails with an errno other than ENOENT (GENERAL_ERROR), or the read succeeds and
the stored format tag differs from the expected tag (ATTR_FORMAT); when the
read fails with ENOENT, as for a never-set attribute, it returns the all-zero
record with added = false and copies = 0, and for a stored record with the
expected tag it returns that record unchanged. -/
theorem getAttribute_contract (cst : Const) (k : KFile) (fault : Option Nat) :
    ((∃ e, FsObj.getAttribute cst k fault = .error e) ↔
      ((∃ errno, dm_get_dmattr k fault = .error errno ∧ errno ≠ ENOENT) ∨
       (∃ a, dm_get_dmattr k fault = .ok a ∧ a.typeId ≠ cst.typeHash))) ∧
    (∀ errno, dm_get_dmattr k fault = .error errno → errno ≠ ENOENT →
      FsObj.getAttribute cst k fault = .error (.ltfsdm .GENERAL_ERROR)) ∧
    (∀ a, dm_get_dmattr k fault = .ok a → a.typeId ≠ cst.typeHash →
      FsObj.getAttribute cst k fault = .error (.ltfsdm .ATTR_FORMAT)) ∧
    (dm_get_dmattr k fault = .error ENOENT →
      FsObj.getAttribute cst k fault = .ok (mig_attr_t.zero cst) ∧
      (mig_attr_t.zero cst).added = false ∧ (mig_attr_t.zero cst).copies = 0 ∧
      (mig_attr_t.zero cst).typeId = 0 ∧
      ∀ t ∈ (mig_attr_t.zero cst).tapeInfo, t = ⟨"", 0⟩) ∧
    (k.migAttr = none → dm_get_dmattr k none = .error ENOENT) ∧
    (∀ a, dm_get_dmattr k fault = .ok a → a.typeId = cst.typeHash →
      FsObj.getAttribute cst k fault = .ok a) := by
  refine ⟨?_, ?_, ?_, ?_, ?_, ?_⟩
  · cases h : dm_get_dmattr k fault with
    | error errno =>
      by_cases he : errno = ENOENT <;> simp [FsObj.getAttribute, h, he]
    | ok a =>
      by_cases ht : a.typeId = cst.typeHash <;> simp [FsObj.getAttribute, h, ht]
  · intro errno h he
    simp [FsObj.getAttribute, h, he]
  · intro a h ht
    simp [FsObj.getAttribute, h, ht]
  · intro h
    refine ⟨by simp [FsObj.getAttribute, h, mig_attr_t.zero], rfl, rfl, rfl, ?_⟩
    intro t ht
    simpa [mig_attr_t.zero] using (List.mem_replicate.1 ht).2
  · intro h
    simp [dm_get_dmattr, h]
  · intro a h ht
    simp [FsObj.getAttribute, h, ht]

/-! ## Unlocking an identity without an entry -/

/-- C15. For every file object whose identity `f` has no entry in the lock
table, FsObj::unlock does not return normally: it throws GENERAL_ERROR when the
object's locked flag is not set and fails the assert on the table entry when it
is; it issues no kernel right release and leaves the lock table and the object
unchanged. -/
theorem unlock_without_entry (o : FsObj) (reg : Registry) (rc : Bool) (f : fuid_t)
    (hf : o.getfuid = .ok f) (hnone : reg.fuidMap f = none) :
    (o.unlock reg rc).thrown ≠ none ∧
    (o.isLocked = false → (o.unlock reg rc).thrown = some (.ltfsdm .GENERAL_ERROR)) ∧
    (o.isLocked = true → (o.unlock reg rc).thrown = some .assert_abort) ∧
    (o.unlock reg rc).reg.calls = reg.calls ∧
    (o.unlock reg rc).reg.fuidMap = reg.fuidMap ∧
    (o.unlock reg rc).obj = o := by
  cases hl : o.isLocked <;> simp [FsObj.unlock, hf, hnone, hl]

/-- C15 at concrete objects: `sampleObj` was never locked and the table is
empty, so its unlock() throws GENERAL_ERROR; after one lock() and one unlock()
a further unlock() throws as well. -/
theorem unlock_without_entry_witness :
    sampleObj.getfuid = .ok sampleFuid ∧ Registry.empty.fuidMap sampleFuid = none ∧
    (sampleObj.unlock Registry.empty true).thrown = some (.ltfsdm .GENERAL_ERROR) ∧
    (sampleObj.unlock_after_lock.obj.unlock sampleObj.unlock_after_lock.reg true).thrown
      = some (.ltfsdm .GENERAL_ERROR) :=
  ⟨rfl, rfl,
   (unlock_without_entry sampleObj Registry.empty true sampleFuid rfl rfl).2.1 rfl,
   (unlock_without_entry sampleObj.unlock_after_lock.obj sampleObj.unlock_after_lock.reg true
      sampleFuid rfl (by decide)).2.1 (by decide)⟩

/-! ## The copy count bound -/

/-- The update statements of addTapeAttr have no bound check: on a record that
holds the maximum number of copies the slot index is outside the array. -/
theorem addTapeAttr_update_at_max (cst : Const) (attr : mig_attr_t) (tapeId : String)
    (startBlock : Int) (hmax : attr.copies = cst.maxReplica) :
    FsObj.addTapeAttr.update cst attr tapeId startBlock = .error .undefined := by
  simp [FsObj.addTapeAttr.update, hmax]

/-- Whatever addTapeAttr ends with, it is not the undefined behaviour of a slot
write outside the array, and the stored attribute is as before. -/
theorem addTapeAttr_no_write (cst : Const) (o : FsObj) (reg : Registry) (k : KFile)
    (tapeId : String) (startBlock : Int) (orc : AttrOracle) :
    (FsObj.addTapeAttr cst o reg k tapeId startBlock orc).thrown ≠ some .undefined ∧
    (FsObj.addTapeAttr cst o reg k tapeId startBlock orc).file = k := by
  unfold FsObj.addTapeAttr
  cases h1 : (o.lock reg orc.request).thrown with
  | some e =>
    have he : e ≠ .undefined := by
      intro h
      subst h
      unfold FsObj.lock at h1
      cases hg : o.getfuid with
      | error e2 =>
        simp only [hg] at h1
        unfold FsObj.getfuid at hg
        split_ifs at hg
        split at hg
        · simp at hg; subst hg; simp at h1
        · split at hg
          · simp at hg; subst hg; simp at h1
          · split at hg
            · simp at hg; subst hg; simp at h1
            · simp at hg
      | ok f =>
        simp only [hg] at h1
        cases hm : reg.fuidMap f <;> cases hr : orc.request <;> simp [hm, hr] at h1
    simp [h1, he]
  | none =>
    cases hu : ((o.lock reg orc.request).obj.unlock (o.lock reg orc.request).reg
        orc.release).thrown <;>
      simp [h1, unique_lock.lock, unique_lock.destroy, hu]

/-- C13. For every file whose record already holds the maximum number of
copies, FsObj::addTapeAttr neither writes an entry beyond the last slot of the
copy list (it does not end in the undefined behaviour of an index outside the
array) nor persists a record with more copies than the maximum: the stored
record is the one that was there, with its copy count at the maximum. -/
theorem addTapeAttr_at_max_copies (cst : Const) (o : FsObj) (reg : Registry) (k : KFile)
    (attr : mig_attr_t) (tapeId : String) (startBlock : Int) (orc : AttrOracle)
    (hattr : k.migAttr = some attr) (hmax : attr.copies = cst.maxReplica) :
    (FsObj.addTapeAttr cst o reg k tapeId startBlock orc).thrown ≠ some .undefined ∧
    (FsObj.addTapeAttr cst o reg k tapeId startBlock orc).file.migAttr = some attr ∧
    (∀ a, (FsObj.addTapeAttr cst o reg k tapeId startBlock orc).file.migAttr = some a →
      a.copies ≤ cst.maxReplica ∧ a.tapeInfo = attr.tapeInfo) := by
  obtain ⟨h1, h2⟩ := addTapeAttr_no_write cst o reg k tapeId startBlock orc
  refine ⟨h1, by rw [h2, hattr], ?_⟩
  intro a ha
  rw [h2, hattr] at ha
  injection ha with ha
  subst ha
  exact ⟨le_of_eq hmax, rfl⟩

/-- C13 at a concrete file: `sampleFileFull` holds three copies, the maximum of
`sampleConst`; addTapeAttr("T004", 1200) leaves the stored record as it was. -/
theorem addTapeAttr_at_max_copies_witness :
    (FsObj.addTapeAttr sampleConst sampleObj Registry.empty sampleFileFull "T004" 1200
        AttrOracle.allOk).file.migAttr = sampleFileFull.migAttr ∧
    (FsObj.addTapeAttr sampleConst sampleObj Registry.empty sampleFileFull "T004" 1200
        AttrOracle.allOk).thrown ≠ some .undefined :=
  ⟨(addTapeAttr_at_max_copies sampleConst sampleObj Registry.empty sampleFileFull _ "T004" 1200
      AttrOracle.allOk rfl rfl).2.1,
   (addTapeAttr_at_max_copies sampleConst sampleObj Registry.empty sampleFileFull _ "T004" 1200
      AttrOracle.allOk rfl rfl).1⟩

/-! ## Marking a filesystem as managed -/

theorem getfuid_mk (o : FsObj) (b c : Bool) :
    FsObj.getfuid { handle := o.handle, isLocked := b, handleFree := c } = o.getfuid := rfl

/-- C14 as stated fails on the code: manageFs(true) on `sampleObj`, table empty.
The flag is written, deriving the filesystem handle fails, and in the handler
the right request of lock() fails: manageFs raises GENERAL_ERROR, the flag is
still managed = true, so isFsManaged returns true afterwards. -/
theorem manageFs_rollback_lock_fails :
    (sampleObj.manageFs Registry.empty none true oracleRollbackLockFails).thrown
      = some (.ltfsdm .GENERAL_ERROR) ∧
    (sampleObj.manageFs Registry.empty none true oracleRollbackLockFails).fsAttr
      = some { managed := true } ∧
    FsObj.isFsManaged
      (sampleObj.manageFs Registry.empty none true oracleRollbackLockFails).fsAttr none
      = .ok true ∧
    oracleRollbackLockFails.setAttr = true ∧ oracleRollbackLockFails.setAttr2 = true := by
  refine ⟨?_, ?_, ?_, rfl, rfl⟩ <;> decide

/-- The manageFs with setDispo = true whose marking succeeds and whose
disposition step fails, the handler succeeding, on an identity absent from the
table. -/
theorem manageFs_rollback_absent (o : FsObj) (reg : Registry) (fsAttr : Option fs_attr_t)
    (orc : ManageFsOracle) (f : fuid_t) (hf : o.getfuid = .ok f)
    (habs : reg.fuidMap f = none)
    (hreq : orc.request = true) (hset : orc.setAttr = true) (hrel : orc.release = true)
    (hfail : orc.toFsHandle = false ∨ orc.setDisp = false)
    (hreq2 : orc.request2 = true) (hset2 : orc.setAttr2 = true) (hrel2 : orc.release2 = true) :
    (o.manageFs reg fsAttr true orc).thrown = some (.ltfsdm .FS_ADD_ERROR) ∧
    (o.manageFs reg fsAttr true orc).fsAttr = some { managed := false } ∧
    (∀ g, (o.manageFs reg fsAttr true orc).reg.fuidMap g = reg.fuidMap g) := by
  rcases hfail with h | h
  · refine ⟨?_, ?_, ?_⟩
    · simp [FsObj.manageFs, FsObj.manageFs.rollback, FsObj.lock, FsObj.unlock, hf, habs, hreq,
        hset, hrel, h, hreq2, hset2, hrel2, getfuid_mk, Registry.issue, Registry.assign,
        Registry.erase]
    · simp [FsObj.manageFs, FsObj.manageFs.rollback, FsObj.lock, FsObj.unlock, hf, habs, hreq,
        hset, hrel, h, hreq2, hset2, hrel2, getfuid_mk, Registry.issue, Registry.assign,
        Registry.erase]
    · intro g
      by_cases hg : g = f
      · subst hg
        simp [FsObj.manageFs, FsObj.manageFs.rollback, FsObj.lock, FsObj.unlock, hf, habs, hreq,
          hset, hrel, h, hreq2, hset2, hrel2, getfuid_mk, Registry.issue, Registry.assign,
          Registry.erase]
      · simp [FsObj.manageFs, FsObj.manageFs.rollback, FsObj.lock, FsObj.unlock, hf, habs, hreq,
          hset, hrel, h, hreq2, hset2, hrel2, getfuid_mk, Registry.issue, Registry.assign,
          Registry.erase, hg]
  · cases ht : orc.toFsHandle
    · refine ⟨?_, ?_, ?_⟩
      · simp [FsObj.manageFs, FsObj.manageFs.rollback, FsObj.lock, FsObj.unlock, hf, habs, hreq,
          hset, hrel, ht, hreq2, hset2, hrel2, getfuid_mk, Registry.issue, Registry.assign,
          Registry.erase]
      · simp [FsObj.manageFs, FsObj.manageFs.rollback, FsObj.lock, FsObj.unlock, hf, habs, hreq,
          hset, hrel, ht, hreq2, hset2, hrel2, getfuid_mk, Registry.issue, Registry.assign,
          Registry.erase]
      · intro g
        by_cases hg : g = f
        · subst hg
          simp [FsObj.manageFs, FsObj.manageFs.rollback, FsObj.lock, FsObj.unlock, hf, habs,
            hreq, hset, hrel, ht, hreq2, hset2, hrel2, getfuid_mk, Registry.issue,
            Registry.assign, Registry.erase]
        · simp [FsObj.manageFs, FsObj.manageFs.rollback, FsObj.lock, FsObj.unlock, hf, habs,
            hreq, hset, hrel, ht, hreq2, hset2, hrel2, getfuid_mk, Registry.issue,
            Registry.assign, Registry.erase, hg]
    · refine ⟨?_, ?_, ?_⟩
      · simp [FsObj.manageFs, FsObj.manageFs.rollback, FsObj.lock, FsObj.unlock, hf, habs, hreq,
          hset, hrel, ht, h, hreq2, hset2, hrel2, getfuid_mk, Registry.issue, Registry.assign,
          Registry.erase]
      · simp [FsObj.manageFs, FsObj.manageFs.rollback, FsObj.lock, FsObj.unlock, hf, habs, hreq,
          hset, hrel, ht, h, hreq2, hset2, hrel2, getfuid_mk, Registry.issue, Registry.assign,
          Registry.erase]
      · intro g
        by_cases hg : g = f
        · subst hg
          simp [FsObj.manageFs, FsObj.manageFs.rollback, FsObj.lock, FsObj.unlock, hf, habs,
            hreq, hset, hrel, ht, h, hreq2, hset2, hrel2, getfuid_mk, Registry.issue,
            Registry.assign, Registry.erase]
        · simp [FsObj.manageFs, FsObj.manageFs.rollback, FsObj.lock, FsObj.unlock, hf, habs,
            hreq, hset, hrel, ht, h, hreq2, hset2, hrel2, getfuid_mk, Registry.issue,
            Registry.assign, Registry.erase, hg]

/-- The same manageFs on an identity already in the table at a count of at
least 1: no kernel right call is needed. -/
theorem manageFs_rollback_present (o : FsObj) (reg : Registry) (fsAttr : Option fs_attr_t)
    (orc : ManageFsOracle) (f : fuid_t) (c : Int) (hf : o.getfuid = .ok f)
    (hc : reg.fuidMap f = some c) (hpos : 1 ≤ c)
    (hset : orc.setAttr = true)
    (hfail : orc.toFsHandle = false ∨ orc.setDisp = false)
    (hset2 : orc.setAttr2 = true) :
    (o.manageFs reg fsAttr true orc).thrown = some (.ltfsdm .FS_ADD_ERROR) ∧
    (o.manageFs reg fsAttr true orc).fsAttr = some { managed := false } ∧
    (∀ g, (o.manageFs reg fsAttr true orc).reg.fuidMap g = reg.fuidMap g) := by
  have h1 : ¬ c + 1 = 1 := by omega
  have h2 : ¬ c + 1 - 1 + 1 = 1 := by omega
  have h3 : c + 1 - 1 + 1 - 1 = c := by omega
  have h4 : ¬ c = 0 := by omega
  have hcase : ¬ (orc.toFsHandle = true ∧ orc.setDisp = true) := by
    rintro ⟨a, b⟩
    rcases hfail with h | h
    · rw [a] at h; exact Bool.noConfusion h
    · rw [b] at h; exact Bool.noConfusion h
  cases ht : orc.toFsHandle <;> cases hd : orc.setDisp
  case true.true => exact absurd ⟨ht, hd⟩ hcase
  all_goals
    refine ⟨?_, ?_, ?_⟩
    · simp [FsObj.manageFs, FsObj.manageFs.rollback, FsObj.lock, FsObj.unlock, hf, hc, hset,
        ht, hd, hset2, getfuid_mk, Registry.issue, Registry.assign, h1, h2, h4]
    · simp [FsObj.manageFs, FsObj.manageFs.rollback, FsObj.lock, FsObj.unlock, hf, hc, hset,
        ht, hd, hset2, getfuid_mk, Registry.issue, Registry.assign, h1, h2, h4]
    · intro g
      by_cases hg : g = f
      · subst hg
        simp [FsObj.manageFs, FsObj.manageFs.rollback, FsObj.lock, FsObj.unlock, hf, hc,
          hset, ht, hd, hset2, getfuid_mk, Registry.issue, Registry.assign, h1, h2, h3, h4]
      · simp [FsObj.manageFs, FsObj.manageFs.rollback, FsObj.lock, FsObj.unlock, hf, hc,
          hset, ht, hd, hset2, getfuid_mk, Registry.issue, Registry.assign, h1, h2, h4, hg]

/-- C14 (amended). For every FsObj::manageFs call with setDispo = true in which
the managed flag is written but deriving the filesystem handle or installing
the disposition then fails, the attribute writes succeeding and, when the
identity is not yet in the lock table, the kernel right requests and releases
succeeding too, manageFs raises FS_ADD_ERROR only after rewriting the flag as
not managed, so FsObj::isFsManaged returns false afterwards and every entry of
the lock table is the same as before the call. The table entry of the
identity, if there is one, has a count of at least 1. -/
theorem manageFs_rolls_back (o : FsObj) (reg : Registry) (fsAttr : Option fs_attr_t)
    (orc : ManageFsOracle) (f : fuid_t) (hf : o.getfuid = .ok f)
    (hwf : ∀ c, reg.fuidMap f = some c → 1 ≤ c)
    (hset : orc.setAttr = true)
    (hfail : orc.toFsHandle = false ∨ orc.setDisp = false)
    (hset2 : orc.setAttr2 = true)
    (hrights : reg.fuidMap f = none →
      orc.request = true ∧ orc.release = true ∧ orc.request2 = true ∧ orc.release2 = true) :
    (o.manageFs reg fsAttr true orc).thrown = some (.ltfsdm .FS_ADD_ERROR) ∧
    (o.manageFs reg fsAttr true orc).fsAttr = some { managed := false } ∧
    FsObj.isFsManaged (o.manageFs reg fsAttr true orc).fsAttr none = .ok false ∧
    (∀ g, (o.manageFs reg fsAttr true orc).reg.fuidMap g = reg.fuidMap g) := by
  have key : (o.manageFs reg fsAttr true orc).thrown = some (.ltfsdm .FS_ADD_ERROR) ∧
      (o.manageFs reg fsAttr true orc).fsAttr = some { managed := false } ∧
      (∀ g, (o.manageFs reg fsAttr true orc).reg.fuidMap g = reg.fuidMap g) := by
    cases hm : reg.fuidMap f with
    | none =>
      obtain ⟨r1, r2, r3, r4⟩ := hrights hm
      exact manageFs_rollback_absent o reg fsAttr orc f hf hm r1 hset r2 hfail r3 hset2 r4
    | some c =>
      exact manageFs_rollback_present o reg fsAttr orc f c hf hm (hwf c hm) hset hfail hset2
  refine ⟨key.1, key.2.1, ?_, key.2.2⟩
  rw [key.2.1]
  rfl

/-- C14 (amended) at a concrete call: manageFs(true) on `sampleObj`, the table
empty, installing the disposition fails and every other call succeeds. -/
theorem manageFs_rolls_back_witness :
    (sampleObj.manageFs Registry.empty none true oracleSetDispFails).thrown
      = some (.ltfsdm .FS_ADD_ERROR) ∧
    FsObj.isFsManaged
      (sampleObj.manageFs Registry.empty none true oracleSetDispFails).fsAttr none
      = .ok false ∧
    (sampleObj.manageFs Registry.empty none true oracleSetDispFails).reg.fuidMap sampleFuid
      = none :=
  ⟨(manageFs_rolls_back sampleObj Registry.empty none oracleSetDispFails sampleFuid rfl
      (by intro c h; simp [Registry.empty] at h) rfl (Or.inr rfl) rfl
      (fun _ => ⟨rfl, rfl, rfl, rfl⟩)).1,
   (manageFs_rolls_back sampleObj Registry.empty none oracleSetDispFails sampleFuid rfl
      (by intro c h; simp [Registry.empty] at h) rfl (Or.inr rfl) rfl
      (fun _ => ⟨rfl, rfl, rfl, rfl⟩)).2.2.1,
   (manageFs_rolls_back sampleObj Registry.empty none oracleSetDispFails sampleFuid rfl
      (by intro c h; simp [Registry.empty] at h) rfl (Or.inr rfl) rfl
      (fun _ => ⟨rfl, rfl, rfl, rfl⟩)).2.2.2 sampleFuid⟩

/-! ## The MOUNT event -/

theorem getfuid_error (o : FsObj) (e : Exc) (h : o.getfuid = .error e) :
    e = .ltfsdm .GENERAL_ERROR := by
  unfold FsObj.getfuid at h
  split_ifs at h
  split at h
  · injection h with h; exact h.symm
  · split at h
    · injection h with h; exact h.symm
    · split at h
      · injection h with h; exact h.symm
      · cases h

/-- The manageFs(false) of the MOUNT case ends normally or with an
LTFSDMException, never otherwise. -/
theorem manageFs_false_thrown (o : FsObj) (reg : Registry) (fsAttr : Option fs_attr_t)
    (orc : ManageFsOracle) :
    (o.manageFs reg fsAttr false orc).thrown = none ∨
    ∃ e, (o.manageFs reg fsAttr false orc).thrown = some (.ltfsdm e) := by
  cases hg : o.getfuid with
  | error e =>
    have he := getfuid_error o e hg
    subst he
    right
    exact ⟨.GENERAL_ERROR, by simp [FsObj.manageFs, FsObj.lock, hg]⟩
  | ok f =>
    cases hm : reg.fuidMap f with
    | none =>
      cases hr : orc.request <;> cases hs : orc.setAttr <;> cases hl : orc.release <;>
        simp [FsObj.manageFs, FsObj.lock, FsObj.unlock, hg, hm, hr, hs, hl, getfuid_mk,
          Registry.issue, Registry.assign, Registry.erase]
    | some c =>
      by_cases h1 : c + 1 = 1 <;>
        cases hs : orc.setAttr <;> cases hl : orc.release <;>
        simp [FsObj.manageFs, FsObj.lock, FsObj.unlock, hg, hm, hs, hl, h1, getfuid_mk,
          Registry.issue, Registry.assign, Registry.erase]

/-- A manageFs(false) whose attribute write fails ends with an
LTFSDMException and leaves the stored attribute as it was. -/
theorem manageFs_false_fails (o : FsObj) (reg : Registry) (fsAttr : Option fs_attr_t)
    (orc : ManageFsOracle) (hs : orc.setAttr = false) :
    (∃ e, (o.manageFs reg fsAttr false orc).thrown = some (.ltfsdm e)) ∧
    (o.manageFs reg fsAttr false orc).fsAttr = fsAttr := by
  cases hg : o.getfuid with
  | error e =>
    have he := getfuid_error o e hg
    subst he
    exact ⟨⟨.GENERAL_ERROR, by simp [FsObj.manageFs, FsObj.lock, hg]⟩,
      by simp [FsObj.manageFs, FsObj.lock, hg]⟩
  | ok f =>
    cases hm : reg.fuidMap f with
    | none =>
      cases hr : orc.request <;> cases hl : orc.release <;>
        simp [FsObj.manageFs, FsObj.lock, FsObj.unlock, hg, hm, hr, hs, hl, getfuid_mk,
          Registry.issue, Registry.assign, Registry.erase]
    | some c =>
      by_cases h1 : c + 1 = 1 <;> cases hl : orc.release <;>
        simp [FsObj.manageFs, FsObj.lock, FsObj.unlock, hg, hm, hs, hl, h1, getfuid_mk,
          Registry.issue, Registry.assign, Registry.erase]

/-- A manageFs(false) on a handle that resolves, with the right request, the
attribute write and the right release succeeding, returns with the flag
stored as managed. -/
theorem manageFs_false_succeeds (o : FsObj) (reg : Registry) (fsAttr : Option fs_attr_t)
    (orc : ManageFsOracle) (f : fuid_t) (hg : o.getfuid = .ok f)
    (hr : orc.request = true) (hs : orc.setAttr = true) (hl : orc.release = true) :
    (o.manageFs reg fsAttr false orc).thrown = none ∧
    (o.manageFs reg fsAttr false orc).fsAttr = some { managed := true } := by
  cases hm : reg.fuidMap f with
  | none =>
    simp [FsObj.manageFs, FsObj.lock, FsObj.unlock, hg, hm, hr, hs, hl, getfuid_mk,
      Registry.issue, Registry.assign, Registry.erase]
  | some c =>
    by_cases h1 : c + 1 = 1 <;>
      simp [FsObj.manageFs, FsObj.lock, FsObj.unlock, hg, hm, hs, hl, h1, getfuid_mk,
        Registry.issue, Registry.assign, Registry.erase]

theorem manageLoop_no_throw (handR : Handle) (orc : Nat → ManageFsOracle) :
    ∀ (fuel retries : Nat) (w : World),
      (Connector.getEvents.manageLoop handR orc fuel retries w).1 = none := by
  intro fuel
  induction fuel with
  | zero => intro retries w; rfl
  | succ fuel ih =>
    intro retries w
    by_cases hlt : retries < 4
    · rcases manageFs_false_thrown (FsObj.ofHandle handR) w.reg w.fsAttr (orc retries) with h | ⟨e, h⟩
      · simp [Connector.getEvents.manageLoop, hlt, h]
      · simp only [Connector.getEvents.manageLoop, hlt, if_true, h]
        exact ih _ _
    · simp [Connector.getEvents.manageLoop, hlt]

/-- The loop stops at the first attempt that succeeds: when the attribute write
fails in the attempts `retries` to `n - 1` and attempt `n`, one of the four,
succeeds, the loop ends with `n` retries counted and the flag stored. -/
theorem manageLoop_stops (handR : Handle) (orc : Nat → ManageFsOracle) (f : fuid_t)
    (hres : (FsObj.ofHandle handR).getfuid = .ok f) (n : Nat) (hn : n < 4)
    (hok : (orc n).request = true ∧ (orc n).setAttr = true ∧ (orc n).release = true) :
    ∀ (fuel retries : Nat) (w : World), retries ≤ n → n - retries < fuel →
      (∀ i, retries ≤ i → i < n → (orc i).setAttr = false) →
      (Connector.getEvents.manageLoop handR orc fuel retries w).2.1 = n ∧
      (Connector.getEvents.manageLoop handR orc fuel retries w).2.2.fsAttr
        = some { managed := true } := by
  intro fuel
  induction fuel with
  | zero => intro retries w _ hf; omega
  | succ fuel ih =>
    intro retries w hle hfuel hfail
    have hlt : retries < 4 := by omega
    by_cases heq : retries = n
    · subst heq
      obtain ⟨h1, h2⟩ := manageFs_false_succeeds (FsObj.ofHandle handR) w.reg w.fsAttr
        (orc retries) f hres hok.1 hok.2.1 hok.2.2
      simp [Connector.getEvents.manageLoop, hlt, h1, h2]
    · have hlt2 : retries < n := by omega
      obtain ⟨⟨e, h1⟩, _⟩ := manageFs_false_fails (FsObj.ofHandle handR) w.reg w.fsAttr
        (orc retries) (hfail retries (le_refl _) hlt2)
      simp only [Connector.getEvents.manageLoop, hlt, if_true, h1]
      exact ih (retries + 1) _ (by omega) (by omega)
        (fun i hi hin => hfail i (by omega) hin)

/-- The loop gives up after four failed attempts: when the attribute write
fails in every attempt from `retries` on, the loop ends with 4 retries counted
and the stored attribute as it was. -/
theorem manageLoop_exhausts (handR : Handle) (orc : Nat → ManageFsOracle) :
    ∀ (fuel retries : Nat) (w : World), retries ≤ 4 → 4 - retries < fuel →
      (∀ i, retries ≤ i → i < 4 → (orc i).setAttr = false) →
      (Connector.getEvents.manageLoop handR orc fuel retries w).2.1 = 4 ∧
      (Connector.getEvents.manageLoop handR orc fuel retries w).2.2.fsAttr = w.fsAttr := by
  intro fuel
  induction fuel with
  | zero => intro retries w _ hf; omega
  | succ fuel ih =>
    intro retries w hle hfuel hfail
    by_cases hlt : retries < 4
    · obtain ⟨⟨e, h1⟩, h2⟩ := manageFs_false_fails (FsObj.ofHandle handR) w.reg w.fsAttr
        (orc retries) (hfail retries (le_refl _) hlt)
      simp only [Connector.getEvents.manageLoop, hlt, if_true, h1]
      have := ih (retries + 1)
        { reg := ((FsObj.ofHandle handR).manageFs w.reg w.fsAttr false (orc retries)).reg,
          fsAttr := ((FsObj.ofHandle handR).manageFs w.reg w.fsAttr false (orc retries)).fsAttr }
        (by omega) (by omega) (fun i hi hin => hfail i (by omega) hin)
      exact ⟨this.1, this.2.trans h2⟩
    · have : retries = 4 := by omega
      simp [Connector.getEvents.manageLoop, hlt, this]

/-- The world after the disposition install and the acknowledgement of a MOUNT
event: both calls are in the log. -/
theorem mount_process_eq (w : World) (ev : dm_eventmsg_t) (m : dm_mount_event_t)
    (orc : Nat → ManageFsOracle)
    (htype : ev.ev_type = .DM_EVENT_MOUNT) (hdata : ev.ev_data = .mount m)
    (hn1 : m.me_name1.length < PATH_MAX) (hn2 : m.me_name2.length < PATH_MAX) :
    Connector.getEvents.process w ev true true orc
      = { thrown := (Connector.getEvents.manageLoop m.me_roothandle orc 5 0
            (w.afterMountAck m ev.ev_token)).1,
          recinfo := rec_info_t.initial,
          world := (Connector.getEvents.manageLoop m.me_roothandle orc 5 0
            (w.afterMountAck m ev.ev_token)).2.2 } := by
  have h : ¬ (PATH_MAX ≤ m.me_name1.length ∨ PATH_MAX ≤ m.me_name2.length) := by
    omega
  simp only [Connector.getEvents.process, htype, hdata, h, if_false]
  rfl

/-- C19. For every MOUNT event whose disposition install and "continue"
acknowledgement succeed (the two names fit their buffers, so both calls are
made), retrieved after any number of interrupted attempts, Connector::getEvents
returns normally with the empty recall descriptor whatever the outcome of
persisting the managed flag. The loop stops at the first attempt that
succeeds: when the attribute write fails in the attempts before attempt `n`,
one of the four, and attempt `n` succeeds, `n` retries are counted and the
flag is stored as managed. A failed attempt is retried until the counter
retries reaches 4: when the write fails in all four attempts, 4 retries are
counted, which is when the error is reported, and the stored flag is as it
was. -/
theorem getEvents_mount_returns (w : World) (pre : List Nat) (ev : dm_eventmsg_t)
    (m : dm_mount_event_t) (rest : List (DmResult dm_eventmsg_t))
    (orc : Nat → ManageFsOracle)
    (hpre : ∀ e ∈ pre, e = EINTR ∨ e = EAGAIN)
    (htype : ev.ev_type = .DM_EVENT_MOUNT) (hdata : ev.ev_data = .mount m)
    (hn1 : m.me_name1.length < PATH_MAX) (hn2 : m.me_name2.length < PATH_MAX) :
    ∃ r, Connector.getEvents w (pre.map Except.error ++ .ok ev :: rest) true true orc = some r ∧
      r.thrown = none ∧ r.recinfo = rec_info_t.initial ∧
      r.world = (Connector.getEvents.manageLoop m.me_roothandle orc 5 0
        (w.afterMountAck m ev.ev_token)).2.2 ∧
      (∀ (n : Nat) (f : fuid_t), n < 4 →
        (FsObj.ofHandle m.me_roothandle).getfuid = .ok f →
        (∀ i, i < n → (orc i).setAttr = false) →
        (orc n).request = true ∧ (orc n).setAttr = true ∧ (orc n).release = true →
        (Connector.getEvents.manageLoop m.me_roothandle orc 5 0
          (w.afterMountAck m ev.ev_token)).2.1 = n ∧
        r.world.fsAttr = some { managed := true }) ∧
      ((∀ i, i < 4 → (orc i).setAttr = false) →
        (Connector.getEvents.manageLoop m.me_roothandle orc 5 0
          (w.afterMountAck m ev.ev_token)).2.1 = 4 ∧
        r.world.fsAttr = w.fsAttr) := by
  rw [getEvents_skips_transient w pre hpre]
  refine ⟨Connector.getEvents.process w ev true true orc, rfl, ?_⟩
  rw [mount_process_eq w ev m orc htype hdata hn1 hn2]
  refine ⟨manageLoop_no_throw _ _ _ _ _, rfl, rfl, ?_, ?_⟩
  · intro n f hn hres hfail hok
    exact manageLoop_stops m.me_roothandle orc f hres n hn hok 5 0 _ (Nat.zero_le n) (by omega)
      (fun i _ hin => hfail i hin)
  · intro hfail
    exact manageLoop_exhausts m.me_roothandle orc 5 0 _ (by omega) (by omega)
      (fun i _ hin => hfail i hin)

/-- C19 at a concrete event: `sampleMountEvent`, retrieved after one
interrupted attempt; the attribute write fails in every attempt. getEvents
returns the empty descriptor and the filesystem attribute stays unset. -/
theorem getEvents_mount_returns_witness :
    ∃ r, Connector.getEvents World.initial ([EINTR].map Except.error ++ .ok sampleMountEvent :: [])
        true true (fun _ => oracleSetAttrFails) = some r ∧
      r.thrown = none ∧ r.recinfo = rec_info_t.initial ∧ r.world.fsAttr = none := by
  obtain ⟨r, h1, h2, h3, _, _, h6⟩ :=
    getEvents_mount_returns World.initial [EINTR] sampleMountEvent
      { me_handle1 := { handleLength := 8, fsid := some 7, igen := none, ino := none },
        me_roothandle := sampleObj.handle, me_name1 := "/mnt/fs", me_name2 := "/dev/sdb" }
      [] (fun _ => oracleSetAttrFails) (by simp) rfl rfl (by decide) (by decide)
  exact ⟨r, h1, h2, h3, (h6 (fun _ _ => rfl)).2⟩

/-! ## Teardown of the connector -/

/-- C20 as stated fails on the code: a teardown of session 3 with reserved
token 1 in which dm_destroy_session fails. Both calls are issued, and the
process is not signalled. -/
theorem teardown_destroy_fails_not_killed :
    oracleDestroyFails.destroyOk = false ∧
    (Connector.teardown true 3 1 [] oracleDestroyFails).calls
      = [KCall.respond_event 1 false EINTR, KCall.destroy_session 3] ∧
    (Connector.teardown true 3 1 [] oracleDestroyFails).killed = false := by
  refine ⟨rfl, ?_, ?_⟩ <;> decide

/-- C20 (amended). Connector teardown aborts the reserved user event with an
interrupt status and then destroys the session, whatever the abort returned,
unless the message before them raises an exception; the results of the two
calls are not acted on. The process is terminated forcibly by signalling itself
exactly when a statement of teardown raises an exception, which only the two
cleanup messages can do; a failure of the abort or of the destroy reported by
the kernel does not lead to it. -/
theorem teardown_contract (cleanup : Bool) (dmapiSession dmapiToken : Nat) (calls : List KCall)
    (orc : TeardownOracle) :
    (¬ (cleanup = true ∧ orc.msg1Throws = true) →
      (Connector.teardown cleanup dmapiSession dmapiToken calls orc).calls
        = calls ++ [KCall.respond_event dmapiToken false EINTR,
                    KCall.destroy_session dmapiSession]) ∧
    ((Connector.teardown cleanup dmapiSession dmapiToken calls orc).killed = true ↔
      (cleanup = true ∧ (orc.msg1Throws = true ∨ orc.msg2Throws = true))) ∧
    (orc.msg1Throws = false → orc.msg2Throws = false →
      (Connector.teardown cleanup dmapiSession dmapiToken calls orc).killed = false) := by
  have hrc : ¬ ((if orc.abortOk then (0 : Int) else -1) = 1) := by
    cases orc.abortOk <;> decide
  refine ⟨?_, ?_, ?_⟩
  · intro h
    cases hc : cleanup <;> cases h1 : orc.msg1Throws <;> cases h2 : orc.msg2Throws <;>
      first
      | (exfalso; exact h ⟨hc, h1⟩)
      | simp [Connector.teardown, h1, h2, hrc]
  · cases cleanup <;> cases h1 : orc.msg1Throws <;> cases h2 : orc.msg2Throws <;>
      simp [Connector.teardown, h1, h2, hrc]
  · intro h1 h2
    cases cleanup <;> simp [Connector.teardown, h1, h2, hrc]

/-- C20 (amended) at a concrete teardown: without cleanup messages, the abort
failing and the destroy succeeding, both calls are issued and the process is
not signalled. -/
theorem teardown_contract_witness :
    (Connector.teardown false 3 1 []
        { msg1Throws := false, abortOk := false, traceThrows := true, destroyOk := true,
          msg2Throws := false }).calls
      = [KCall.respond_event 1 false EINTR, KCall.destroy_session 3] ∧
    (Connector.teardown false 3 1 []
        { msg1Throws := false, abortOk := false, traceThrows := true, destroyOk := true,
          msg2Throws := false }).killed = false :=
  ⟨(teardown_contract false 3 1 []
      { msg1Throws := false, abortOk := false, traceThrows := true, destroyOk := true,
        msg2Throws := false }).1 (by decide),
   (teardown_contract false 3 1 []
      { msg1Throws := false, abortOk := false, traceThrows := true, destroyOk := true,
        msg2Throws := false }).2.2 rfl rfl⟩

/-! ## Startup cleanup of stale sessions -/

/-- The session enumeration follows the grow-and-retry protocol: entered with
capacity 0, it ends within two calls with num_sessions the number of
sessions. -/
theorem sessionsLoop_ok (ss : List KSession) (fuel : Nat) :
    dmapiSessionCleanup.sessionsLoop ss none (fuel + 2) 0 = some (.ok ss.length) := by
  cases ss with
  | nil => simp [dmapiSessionCleanup.sessionsLoop, dm_getall_sessions]
  | cons s rest =>
    simp [dmapiSessionCleanup.sessionsLoop, dm_getall_sessions]

/-- The token enumeration ends with the first call when the session has no
more tokens than the capacity. -/
theorem tokensLoop_ok (s : KSession) (fuel n : Nat) (hfault : s.tokensFault = none)
    (hlen : s.tokens.length ≤ n) :
    dmapiSessionCleanup.tokensLoop s (fuel + 1) n = some (.ok s.tokens) := by
  have : ¬ n < s.tokens.length := by omega
  simp [dmapiSessionCleanup.tokensLoop, dm_getall_tokens, hfault, this]

theorem expectedCleanupCalls_cons (sessionName : String) (s : KSession) (rest : List KSession) :
    expectedCleanupCalls sessionName (s :: rest)
      = (if s.query = .ok sessionName then
          s.tokens.map (fun t => KCall.respond_event_in s.sid t false EINTR)
            ++ [KCall.destroy_session s.sid]
         else []) ++ expectedCleanupCalls sessionName rest := by
  by_cases h : s.query = .ok sessionName <;>
    simp [expectedCleanupCalls, List.filter_cons, h]

theorem expectedOldSid_cons (sessionName : String) (s : KSession) (rest : List KSession)
    (oldSid : Nat) :
    expectedOldSid sessionName (s :: rest) oldSid
      = expectedOldSid sessionName rest
          (if s.query = .ok sessionName ∧ s.destroyOk = false then s.sid else oldSid) := by
  simp [expectedOldSid]

/-- The loop over the sessions, when every query succeeds and the token
enumeration of every session of the engine succeeds at once. -/
theorem forLoop_spec (sessionName : String) (fuel : Nat) :
    ∀ (ss : List KSession) (oldSid : Nat) (calls : List KCall),
      (∀ s ∈ ss, ∃ nm, s.query = .ok nm) →
      (∀ s ∈ ss, s.query = .ok sessionName → s.tokensFault = none ∧ s.tokens.length ≤ 1024) →
      dmapiSessionCleanup.forLoop sessionName (fuel + 1) ss.length ss oldSid calls
        = some { thrown := none, oldSid := expectedOldSid sessionName ss oldSid,
                 calls := calls ++ expectedCleanupCalls sessionName ss } := by
  intro ss
  induction ss with
  | nil =>
    intro oldSid calls _ _
    simp [dmapiSessionCleanup.forLoop, expectedOldSid, expectedCleanupCalls]
  | cons s rest ih =>
    intro oldSid calls hq ht
    obtain ⟨nm, hnm⟩ := hq s (List.mem_cons_self s rest)
    have hq2 : ∀ x ∈ rest, ∃ nm, x.query = .ok nm :=
      fun x hx => hq x (List.mem_cons_of_mem s hx)
    have ht2 : ∀ x ∈ rest, x.query = .ok sessionName →
        x.tokensFault = none ∧ x.tokens.length ≤ 1024 :=
      fun x hx => ht x (List.mem_cons_of_mem s hx)
    rw [expectedCleanupCalls_cons, expectedOldSid_cons]
    by_cases hname : sessionName = nm
    · subst hname
      obtain ⟨hfault, hlen⟩ := ht s (List.mem_cons_self s rest) hnm
      have htok := tokensLoop_ok s fuel 1024 hfault hlen
      simp only [List.length_cons, dmapiSessionCleanup.forLoop, hnm, if_true, htok]
      rw [ih _ _ hq2 ht2]
      cases hd : s.destroyOk <;> simp [hd]
    · have hne2 : ¬ nm = sessionName := fun h => hname h.symm
      simp only [List.length_cons, dmapiSessionCleanup.forLoop, hnm, hname, if_false]
      rw [ih _ _ hq2 ht2]
      simp [hne2]

theorem mem_expectedCleanupCalls (sessionName : String) (ss : List KSession) (c : KCall)
    (hc : c ∈ expectedCleanupCalls sessionName ss) :
    ∃ s ∈ ss, s.query = .ok sessionName ∧
      (c = KCall.destroy_session s.sid ∨
       ∃ t ∈ s.tokens, c = KCall.respond_event_in s.sid t false EINTR) := by
  simp only [expectedCleanupCalls, List.mem_flatMap, List.mem_filter, decide_eq_true_eq,
    List.mem_append, List.mem_map, List.mem_singleton] at hc
  obtain ⟨s, ⟨hs, hq⟩, h⟩ := hc
  refine ⟨s, hs, hq, ?_⟩
  rcases h with ⟨t, ht, rfl⟩ | rfl
  · exact Or.inr ⟨t, ht, rfl⟩
  · exact Or.inl rfl

theorem expectedCleanupCalls_complete (sessionName : String) (ss : List KSession) (s : KSession)
    (hs : s ∈ ss) (hq : s.query = .ok sessionName) :
    KCall.destroy_session s.sid ∈ expectedCleanupCalls sessionName ss ∧
    ∀ t ∈ s.tokens, KCall.respond_event_in s.sid t false EINTR
      ∈ expectedCleanupCalls sessionName ss := by
  simp only [expectedCleanupCalls, List.mem_flatMap, List.mem_filter, decide_eq_true_eq,
    List.mem_append, List.mem_map, List.mem_singleton]
  refine ⟨⟨s, ⟨hs, hq⟩, Or.inr rfl⟩, ?_⟩
  intro t ht
  exact ⟨s, ⟨hs, hq⟩, Or.inl ⟨t, ht, rfl⟩⟩

theorem expectedOldSid_unchanged (sessionName : String) :
    ∀ (ss : List KSession) (oldSid : Nat),
      (∀ x ∈ ss, ¬ (x.query = .ok sessionName ∧ x.destroyOk = false)) →
      expectedOldSid sessionName ss oldSid = oldSid := by
  intro ss
  induction ss with
  | nil => intro oldSid _; rfl
  | cons s rest ih =>
    intro oldSid h
    rw [expectedOldSid_cons, if_neg (h s (List.mem_cons_self s rest))]
    exact ih oldSid (fun x hx => h x (List.mem_cons_of_mem s hx))

theorem expectedOldSid_last (sessionName : String) (s : KSession) (post : List KSession) :
    ∀ (pre : List KSession) (oldSid : Nat),
      s.query = .ok sessionName → s.destroyOk = false →
      (∀ x ∈ post, ¬ (x.query = .ok sessionName ∧ x.destroyOk = false)) →
      expectedOldSid sessionName (pre ++ s :: post) oldSid = s.sid := by
  intro pre
  induction pre with
  | nil =>
    intro oldSid hq hd hpost
    rw [List.nil_append, expectedOldSid_cons, if_pos ⟨hq, hd⟩]
    exact expectedOldSid_unchanged sessionName post s.sid hpost
  | cons p pre ih =>
    intro oldSid hq hd hpost
    rw [List.cons_append, expectedOldSid_cons]
    exact ih _ hq hd hpost

/-- C17. For every list of active sessions, the session queries succeeding and
the token enumeration of every session with the engine's name succeeding,
dmapiSessionCleanup returns normally; the calls it issues are exactly, session
by session in order, an abort with EINTR of every outstanding token of every
session whose name equals the engine's session name followed by the destroy of
that session, also for the sessions listed after one whose destroy fails, and
no abort or destroy for a session with any other name. Through oldSid it
reports the id of the session whose destroy failed (the last one, if several
fail) and leaves oldSid as it was when none fails. -/
theorem sessionCleanup_contract (sessionName : String) (ss : List KSession) (fuel : Nat)
    (oldSid : Nat) (calls : List KCall)
    (hq : ∀ s ∈ ss, ∃ nm, s.query = .ok nm)
    (ht : ∀ s ∈ ss, s.query = .ok sessionName → s.tokensFault = none ∧ s.tokens.length ≤ 1024) :
    ∃ r, dmapiSessionCleanup sessionName ss none (fuel + 2) oldSid calls = some r ∧
      r.thrown = none ∧
      r.calls = calls ++ expectedCleanupCalls sessionName ss ∧
      (∀ s ∈ ss, s.query = .ok sessionName →
        KCall.destroy_session s.sid ∈ r.calls ∧
        ∀ t ∈ s.tokens, KCall.respond_event_in s.sid t false EINTR ∈ r.calls) ∧
      (∀ c ∈ expectedCleanupCalls sessionName ss,
        ∃ s ∈ ss, s.query = .ok sessionName ∧
          (c = KCall.destroy_session s.sid ∨
           ∃ t ∈ s.tokens, c = KCall.respond_event_in s.sid t false EINTR)) ∧
      (∀ (pre post : List KSession) (s : KSession), ss = pre ++ s :: post →
        s.query = .ok sessionName → s.destroyOk = false →
        (∀ x ∈ post, ¬ (x.query = .ok sessionName ∧ x.destroyOk = false)) →
        r.oldSid = s.sid) ∧
      ((∀ x ∈ ss, ¬ (x.query = .ok sessionName ∧ x.destroyOk = false)) → r.oldSid = oldSid) := by
  refine ⟨{ thrown := none, oldSid := expectedOldSid sessionName ss oldSid,
            calls := calls ++ expectedCleanupCalls sessionName ss }, ?_, rfl, rfl, ?_, ?_, ?_, ?_⟩
  · simp only [dmapiSessionCleanup, sessionsLoop_ok]
    exact forLoop_spec sessionName (fuel + 1) ss oldSid calls hq ht
  · intro s hs hname
    obtain ⟨h1, h2⟩ := expectedCleanupCalls_complete sessionName ss s hs hname
    exact ⟨List.mem_append_right _ h1, fun t htok => List.mem_append_right _ (h2 t htok)⟩
  · intro c hc
    exact mem_expectedCleanupCalls sessionName ss c hc
  · intro pre post s hss hname hd hpost
    subst hss
    exact expectedOldSid_last sessionName s post pre oldSid hname hd hpost
  · intro hnone
    exact expectedOldSid_unchanged sessionName ss oldSid hnone

theorem sampleSessions_ok :
    (∀ s ∈ sampleSessions, ∃ nm, s.query = .ok nm) ∧
    (∀ s ∈ sampleSessions, s.query = .ok "ltfsdm" →
      s.tokensFault = none ∧ s.tokens.length ≤ 1024) := by
  constructor
  · intro s hs
    simp only [sampleSessions, List.mem_cons, List.mem_singleton, List.not_mem_nil,
      or_false] at hs
    rcases hs with rfl | rfl | rfl <;> exact ⟨_, rfl⟩
  · intro s hs _
    simp only [sampleSessions, List.mem_cons, List.mem_singleton, List.not_mem_nil,
      or_false] at hs
    rcases hs with rfl | rfl | rfl <;> exact ⟨rfl, by decide⟩

/-- C17 at a concrete list: in `sampleSessions` the destroy of session 11
fails; the tokens of sessions 11 and 13 are aborted, both are destroyed, the
foreign session 12 is left alone and oldSid reports 11. -/
theorem sessionCleanup_contract_witness :
    ∃ r, dmapiSessionCleanup "ltfsdm" sampleSessions none 2 0 [] = some r ∧
      r.thrown = none ∧
      r.calls = [KCall.respond_event_in 11 1 false EINTR, KCall.respond_event_in 11 2 false EINTR,
                 KCall.destroy_session 11, KCall.respond_event_in 13 7 false EINTR,
                 KCall.destroy_session 13] ∧
      r.oldSid = 11 := by
  obtain ⟨r, h1, h2, h3, _, _, h6, _⟩ :=
    sessionCleanup_contract "ltfsdm" sampleSessions 0 0 [] sampleSessions_ok.1 sampleSessions_ok.2
  refine ⟨r, h1, h2, ?_, ?_⟩
  · rw [h3]; decide
  · exact h6 [] _ _ rfl rfl rfl (by decide)

/-! ## Grow and retry -/

/-- When a session has more tokens than num_tokens, the token enumeration
repeats the same call for ever: no number of iterations ends the loop. -/
theorem tokensLoop_stuck (s : KSession) (n : Nat) (hfault : s.tokensFault = none)
    (hlen : n < s.tokens.length) :
    ∀ fuel, dmapiSessionCleanup.tokensLoop s fuel n = none := by
  intro fuel
  induction fuel with
  | zero => rfl
  | succ fuel ih =>
    simp only [dmapiSessionCleanup.tokensLoop, dm_getall_tokens, hfault, hlen, if_true]
    exact ih

theorem forLoop_stuck (sessionName : String) (fuel remaining : Nat) (s : KSession)
    (rest : List KSession) (oldSid : Nat) (calls : List KCall)
    (hq : s.query = .ok sessionName)
    (hstuck : dmapiSessionCleanup.tokensLoop s fuel 1024 = none) :
    dmapiSessionCleanup.forLoop sessionName fuel (remaining + 1) (s :: rest) oldSid calls
      = none := by
  simp only [dmapiSessionCleanup.forLoop, hq, if_true, hstuck]

/-- C18, the code at the failing input: the one active session is a stale
session of the engine with 1025 outstanding tokens. dm_getall_tokens reports
E2BIG with 1025; the loop allocates a buffer of 1025 tokens and calls again
with num_tokens still 1024, so the same too-small request is repeated and
dmapiSessionCleanup does not return, whatever the number of iterations. -/
theorem tokens_enumeration_never_ends :
    dm_getall_tokens sessionManyTokens 1024 = .tooBig 1025 ∧
    dm_getall_tokens sessionManyTokens 1025 = .ok sessionManyTokens.tokens ∧
    ∀ fuel, dmapiSessionCleanup "ltfsdm" [sessionManyTokens] none fuel 0 [] = none := by
  have htok : sessionManyTokens.tokens = List.range 1025 := by
    simp only [sessionManyTokens]
  have hlen : sessionManyTokens.tokens.length = 1025 := by
    rw [htok]
    exact List.length_range 1025
  have hfault : sessionManyTokens.tokensFault = none := by
    simp only [sessionManyTokens]
  have hq : sessionManyTokens.query = .ok "ltfsdm" := by
    simp only [sessionManyTokens]
  refine ⟨?_, ?_, ?_⟩
  · simp only [dm_getall_tokens, hfault, hlen]
    simp
  · simp only [dm_getall_tokens, hfault, hlen]
    simp
  · intro fuel
    have hstuck := tokensLoop_stuck sessionManyTokens 1024 hfault (by rw [hlen]; decide)
    match fuel with
    | 0 => simp [dmapiSessionCleanup, dmapiSessionCleanup.sessionsLoop]
    | 1 =>
      simp [dmapiSessionCleanup, dmapiSessionCleanup.sessionsLoop, dm_getall_sessions]
    | fuel + 2 =>
      simp only [dmapiSessionCleanup, sessionsLoop_ok]
      exact forLoop_stuck "ltfsdm" (fuel + 2) 0 sessionManyTokens [] 0 [] hq (hstuck _)

/-! ## Disposition recovery -/

/-- The mount info lookup follows the grow-and-retry protocol: it ends within
two calls with the mount info, the buffer grown to the reported size when it
was too small. -/
theorem mountInfo_found (d : KDisp) (fuel len : Nat) (hfault : d.mountFault = none) :
    recoverDisposition.mountInfo d (fuel + 2) len
      = some (.found d.mount, if len < d.mountLen then d.mountLen else len) := by
  by_cases h : len < d.mountLen
  · simp [recoverDisposition.mountInfo, dm_get_mountinfo, hfault, h]
  · simp [recoverDisposition.mountInfo, dm_get_mountinfo, hfault, h]

theorem mountInfo_skipped (d : KDisp) (fuel len : Nat)
    (hfault : d.mountFault = some EBADF ∨ d.mountFault = some EINVAL ∨
      d.mountFault = some EPERM) :
    recoverDisposition.mountInfo d (fuel + 1) len = some (.skipped, len) := by
  rcases hfault with h | h | h <;>
    simp [recoverDisposition.mountInfo, dm_get_mountinfo, h, EBADF, EINVAL, EPERM]

/-- The disposition enumeration follows the grow-and-retry protocol: entered
with 4096 bytes, it ends within two calls and the records are worked
through. -/
theorem retry_ok (rLen : Nat) (disps : List KDisp) (calls : List KCall) (fuelAll fuel : Nat) :
    recoverDisposition.retry rLen disps none calls fuelAll (fuel + 2) 4096
      = if rLen = 0 then some { thrown := none, calls := calls }
        else recoverDisposition.forLoop fuelAll disps 4096 calls := by
  by_cases h : 4096 < rLen
  · simp [recoverDisposition.retry, dm_getall_disp, h]
  · simp [recoverDisposition.retry, dm_getall_disp, h]

theorem expectedRecoverCalls_cons (d : KDisp) (rest : List KDisp) :
    expectedRecoverCalls (d :: rest)
      = (if d.valid = true then [KCall.set_disp d.mount.me_handle1] else [])
        ++ expectedRecoverCalls rest := by
  by_cases h : d.valid = true <;> simp [expectedRecoverCalls, List.filter_cons, h]

theorem stale_not_valid (d : KDisp) (h : d.stale) : d.valid = false := by
  rcases h.2 with h | h | h <;> simp [KDisp.valid, h]

/-- The loop over the records, when every record is stale or valid. -/
theorem forLoop_recover (fuel : Nat) :
    ∀ (disps : List KDisp) (len : Nat) (calls : List KCall),
      (∀ d ∈ disps, d.stale ∨ d.valid = true) →
      recoverDisposition.forLoop (fuel + 2) disps len calls
        = some { thrown := none, calls := calls ++ expectedRecoverCalls disps } := by
  intro disps
  induction disps with
  | nil => intro len calls _; simp [recoverDisposition.forLoop, expectedRecoverCalls]
  | cons d rest ih =>
    intro len calls hall
    have hrest : ∀ x ∈ rest, x.stale ∨ x.valid = true :=
      fun x hx => hall x (List.mem_cons_of_mem d hx)
    rw [expectedRecoverCalls_cons]
    rcases hall d (List.mem_cons_self d rest) with hs | hv
    · have hnv := stale_not_valid d hs
      have hm := mountInfo_skipped d (fuel + 1) len hs.2
      simp only [recoverDisposition.forLoop, hs.1, hm]
      rw [ih len calls hrest]
      simp [hnv]
    · have hv2 := hv
      simp only [KDisp.valid, Bool.and_eq_true, Option.isNone_iff_eq_none,
        decide_eq_true_eq] at hv2
      obtain ⟨⟨⟨⟨h1, h2⟩, h3⟩, h4⟩, h5⟩ := hv2
      have hm := mountInfo_found d fuel len h2
      have hnames : ¬ (256 ≤ d.mount.me_name1.length ∨ 256 ≤ d.mount.me_name2.length) := by
        omega
      simp only [recoverDisposition.forLoop, h1, hm, hnames, h5]
      simp only [Bool.true_eq_false, if_false]
      rw [ih _ _ hrest]
      simp [hv]

/-- C16. For every list of surviving disposition records in which the
mount-info lookup of some entries fails as unmountable or forbidden (EBADF,
EINVAL or EPERM) and every other entry is valid, recoverDisposition returns
without error and the calls it issues are exactly the read, write, truncate
disposition on the filesystem handle of every valid entry, in order, including
those that come after a bad entry; nothing is installed for the bad entries. -/
theorem recoverDisposition_skips_stale (rLen : Nat) (disps : List KDisp) (fuel : Nat)
    (calls : List KCall)
    (hall : ∀ d ∈ disps, d.stale ∨ d.valid = true)
    (hsize : disps ≠ [] → 0 < rLen) :
    ∃ r, recoverDisposition rLen disps none (fuel + 2) calls = some r ∧
      r.thrown = none ∧
      r.calls = calls ++ expectedRecoverCalls disps ∧
      (∀ d ∈ disps, d.valid = true → KCall.set_disp d.mount.me_handle1 ∈ r.calls) ∧
      (∀ c ∈ expectedRecoverCalls disps,
        ∃ d ∈ disps, d.valid = true ∧ ¬ d.stale ∧ c = KCall.set_disp d.mount.me_handle1) := by
  refine ⟨{ thrown := none, calls := calls ++ expectedRecoverCalls disps }, ?_, rfl, rfl, ?_, ?_⟩
  · unfold recoverDisposition
    rw [retry_ok]
    by_cases h0 : rLen = 0
    · have hnil : disps = [] := by
        by_contra hne
        have := hsize hne
        omega
      simp [h0, hnil, expectedRecoverCalls]
    · simp only [h0, if_false]
      exact forLoop_recover fuel disps 4096 calls hall
  · intro d hd hv
    apply List.mem_append_right
    simp only [expectedRecoverCalls, List.mem_map, List.mem_filter]
    exact ⟨d, ⟨hd, hv⟩, rfl⟩
  · intro c hc
    simp only [expectedRecoverCalls, List.mem_map, List.mem_filter] at hc
    obtain ⟨d, ⟨hd, hv⟩, rfl⟩ := hc
    refine ⟨d, hd, hv, ?_, rfl⟩
    intro hs
    rw [stale_not_valid d hs] at hv
    exact Bool.noConfusion hv

theorem sampleDisps_ok : ∀ d ∈ sampleDisps, d.stale ∨ d.valid = true := by
  intro d hd
  simp only [sampleDisps, List.mem_cons, List.mem_singleton, List.not_mem_nil, or_false] at hd
  rcases hd with rfl | rfl | rfl
  · right; decide
  · left; exact ⟨rfl, Or.inl rfl⟩
  · right; decide

/-- C16 at a concrete list: in `sampleDisps` the second record is stale (EBADF);
the dispositions of the first and the third record are installed and the call
returns. -/
theorem recoverDisposition_skips_stale_witness :
    ∃ r, recoverDisposition 300 sampleDisps none 2 [] = some r ∧
      r.thrown = none ∧
      r.calls = [KCall.set_disp (sampleMount 1).me_handle1,
                 KCall.set_disp (sampleMount 3).me_handle1] := by
  obtain ⟨r, h1, h2, h3, _⟩ :=
    recoverDisposition_skips_stale 300 sampleDisps 0 [] sampleDisps_ok (fun _ => by decide)
  refine ⟨r, h1, h2, ?_⟩
  rw [h3]
  decide

/-- C12 at concrete files: the never migrated `freshFile` gives the all-zero
record, and a stored record with a foreign tag raises ATTR_FORMAT. -/
theorem getAttribute_contract_witness :
    FsObj.getAttribute sampleConst freshFile none = .ok (mig_attr_t.zero sampleConst) ∧
    FsObj.getAttribute sampleConst ⟨some { sampleAttr with typeId := 1 }, []⟩ none
      = .error (.ltfsdm .ATTR_FORMAT) :=
  ⟨((getAttribute_contract sampleConst freshFile none).2.2.2.1 rfl).1,
   (getAttribute_contract sampleConst ⟨some { sampleAttr with typeId := 1 }, []⟩ none).2.2.1
      { sampleAttr with typeId := 1 } rfl (by decide)⟩

/-! ## The lock table and the kernel's rights -/

theorem grantRights_nil (rights : Rights) (f : fuid_t) (rc : Bool) :
    grantRights rights f rc [] = rights := rfl

theorem grantRights_request (rights : Rights) (f : fuid_t) (rc : Bool) (h : Handle) :
    grantRights rights f rc [KCall.request_right h]
      = if rc then fun g => if g = f then rights g + 1 else rights g else rights := rfl

theorem grantRights_release (rights : Rights) (f : fuid_t) (rc : Bool) (h : Handle) :
    grantRights rights f rc [KCall.release_right h]
      = if rc then fun g => if g = f then rights g - 1 else rights g else rights := rfl

/-- One lock() call keeps the lock table and the kernel's rights in
agreement, whatever the kernel answers. -/
theorem lock_keeps_agreement (o : FsObj) (reg : Registry) (rc : Bool) (rights : Rights)
    (fo : fuid_t) (hf : o.getfuid = .ok fo) (hinv : tableMatchesRights reg rights) :
    tableMatchesRights (o.lock reg rc).reg
      (grantRights rights fo rc ((o.lock reg rc).reg.calls.drop reg.calls.length)) := by
  cases hm : reg.fuidMap fo with
  | none =>
    have hr0 : rights fo = 0 := by
      rcases hinv fo with h | ⟨c, _, h, _⟩
      · exact h.2
      · rw [hm] at h; cases h
    cases rc with
    | false =>
      have hreg : (o.lock reg false).reg = reg.issue (.request_right o.handle) := by
        simp [FsObj.lock, hf, hm]
      rw [hreg]
      simp only [Registry.issue, List.drop_left, grantRights_request, Bool.false_eq_true,
        if_false]
      exact hinv
    | true =>
      have hreg : (o.lock reg true).reg
          = (reg.issue (.request_right o.handle)).assign fo 1 := by
        simp [FsObj.lock, hf, hm]
      rw [hreg]
      simp only [Registry.issue, Registry.assign, List.drop_left, grantRights_request, if_true]
      intro f
      by_cases hfe : f = fo
      · subst hfe
        right
        exact ⟨1, le_refl 1, by simp, by simp [hr0]⟩
      · simpa [hfe] using hinv f
  | some c =>
    have hc1 : 1 ≤ c ∧ rights fo = 1 := by
      rcases hinv fo with h | ⟨c2, h1, h2, h3⟩
      · rw [hm] at h; cases h.1
      · rw [hm] at h2
        injection h2 with h2
        subst h2
        exact ⟨h1, h3⟩
    have hreg : (o.lock reg rc).reg = reg.assign fo (c + 1) := by
      simp [FsObj.lock, hf, hm]
    rw [hreg]
    simp only [Registry.assign, List.drop_length, grantRights_nil]
    intro f
    by_cases hfe : f = fo
    · subst hfe
      right
      exact ⟨c + 1, by omega, by simp, hc1.2⟩
    · simpa [hfe] using hinv f

/-- One unlock() call keeps the lock table and the kernel's rights in
agreement, whatever the kernel answers. -/
theorem unlock_keeps_agreement (o : FsObj) (reg : Registry) (rc : Bool) (rights : Rights)
    (fo : fuid_t) (hf : o.getfuid = .ok fo) (hinv : tableMatchesRights reg rights) :
    tableMatchesRights (o.unlock reg rc).reg
      (grantRights rights fo rc ((o.unlock reg rc).reg.calls.drop reg.calls.length)) := by
  cases hl : o.isLocked with
  | false =>
    have hreg : (o.unlock reg rc).reg = reg := by simp [FsObj.unlock, hf, hl]
    rw [hreg]
    simpa [grantRights_nil] using hinv
  | true =>
    cases hm : reg.fuidMap fo with
    | none =>
      have hreg : (o.unlock reg rc).reg = reg := by simp [FsObj.unlock, hf, hl, hm]
      rw [hreg]
      simpa [grantRights_nil] using hinv
    | some c =>
      have hc1 : 1 ≤ c ∧ rights fo = 1 := by
        rcases hinv fo with h | ⟨c2, h1, h2, h3⟩
        · rw [hm] at h; cases h.1
        · rw [hm] at h2
          injection h2 with h2
          subst h2
          exact ⟨h1, h3⟩
      by_cases h1 : c = 1
      · subst h1
        cases rc with
        | false =>
          have hreg : (o.unlock reg false).reg = reg.issue (.release_right o.handle) := by
            simp [FsObj.unlock, hf, hl, hm]
          rw [hreg]
          simp only [Registry.issue, List.drop_left, grantRights_release, Bool.false_eq_true,
            if_false]
          exact hinv
        | true =>
          have hreg : (o.unlock reg true).reg
              = (reg.issue (.release_right o.handle)).erase fo := by
            simp [FsObj.unlock, hf, hl, hm]
          rw [hreg]
          simp only [Registry.issue, Registry.erase, List.drop_left, grantRights_release,
            if_true]
          intro f
          by_cases hfe : f = fo
          · subst hfe
            left
            exact ⟨by simp, by simp [hc1.2]⟩
          · simpa [hfe] using hinv f
      · have hreg : (o.unlock reg rc).reg = reg.assign fo (c - 1) := by
          simp [FsObj.unlock, hf, hl, hm, h1]
        rw [hreg]
        simp only [Registry.assign, List.drop_length, grantRights_nil]
        intro f
        by_cases hfe : f = fo
        · subst hfe
          right
          exact ⟨c - 1, by omega, by simp, hc1.2⟩
        · simpa [hfe] using hinv f

/-- A step of the process keeps the lock table and the kernel's rights in
agreement. -/
theorem step_keeps_agreement (k : KSys) (a : Action)
    (hinv : tableMatchesRights k.sys.reg k.rights) :
    tableMatchesRights (k.step a).sys.reg (k.step a).rights := by
  cases a with
  | lock i rc =>
    cases hi : k.sys.objs[i]? with
    | none => simpa [KSys.step, hi] using hinv
    | some o =>
      cases hf : o.getfuid with
      | error e =>
        have hreg : (o.lock k.sys.reg rc).reg = k.sys.reg := by simp [FsObj.lock, hf]
        simpa [KSys.step, Sys.step, hi, hf, hreg] using hinv
      | ok fo =>
        simpa [KSys.step, Sys.step, hi, hf] using
          lock_keeps_agreement o k.sys.reg rc k.rights fo hf hinv
  | unlock i rc =>
    cases hi : k.sys.objs[i]? with
    | none => simpa [KSys.step, hi] using hinv
    | some o =>
      cases hf : o.getfuid with
      | error e =>
        have hreg : (o.unlock k.sys.reg rc).reg = k.sys.reg := by simp [FsObj.unlock, hf]
        simpa [KSys.step, Sys.step, hi, hf, hreg] using hinv
      | ok fo =>
        simpa [KSys.step, Sys.step, hi, hf] using
          unlock_keeps_agreement o k.sys.reg rc k.rights fo hf hinv

theorem run_keeps_agreement (acts : List Action) :
    ∀ k : KSys, tableMatchesRights k.sys.reg k.rights →
      tableMatchesRights (k.run acts).sys.reg (k.run acts).rights := by
  induction acts with
  | nil => intro k h; simpa [KSys.run] using h
  | cons a as ih =>
    intro k h
    have := ih (k.step a) (step_keeps_agreement k a h)
    simpa [KSys.run] using this

/-- The process part of a step with the kernel's rights is the step of the
process. -/
theorem kstep_sys (k : KSys) (a : Action) : (k.step a).sys = k.sys.step a := by
  cases a with
  | lock i rc =>
    cases hi : k.sys.objs[i]? with
    | none => simp [KSys.step, Sys.step, hi]
    | some o => cases hf : o.getfuid <;> simp [KSys.step, hi, hf]
  | unlock i rc =>
    cases hi : k.sys.objs[i]? with
    | none => simp [KSys.step, Sys.step, hi]
    | some o => cases hf : o.getfuid <;> simp [KSys.step, hi, hf]

theorem krun_sys (acts : List Action) : ∀ k : KSys, (k.run acts).sys = k.sys.run acts := by
  induction acts with
  | nil => intro k; rfl
  | cons a as ih =>
    intro k
    have h := ih (k.step a)
    rw [kstep_sys] at h
    simpa [KSys.run, Sys.run] using h

/-- One lock() call raises no count by more than one. -/
theorem lock_count_le (o : FsObj) (reg : Registry) (rc : Bool) (n : Nat)
    (h : ∀ f c, reg.fuidMap f = some c → c ≤ (n : Int)) :
    ∀ f c, (o.lock reg rc).reg.fuidMap f = some c → c ≤ ((n + 1 : Nat) : Int) := by
  intro f c hc
  cases hf : o.getfuid with
  | error e =>
    have hreg : (o.lock reg rc).reg = reg := by simp [FsObj.lock, hf]
    rw [hreg] at hc
    have := h f c hc
    push_cast
    omega
  | ok fo =>
    by_cases hfe : f = fo
    · subst hfe
      cases hm : reg.fuidMap f with
      | none =>
        cases rc with
        | false =>
          have hreg : (o.lock reg false).reg.fuidMap = reg.fuidMap := by
            simp [FsObj.lock, hf, hm, Registry.issue]
          rw [hreg, hm] at hc
          cases hc
        | true =>
          have h1 := ((lock_absent o reg true f hf hm).2 rfl).2.1
          rw [h1] at hc
          injection hc with hc
          push_cast
          omega
      | some c0 =>
        have h1 := (lock_present o reg rc f c0 hf hm).2.2.1
        rw [h1] at hc
        injection hc with hc
        have := h f c0 hm
        push_cast
        omega
    · rw [lock_frame o reg rc fo f hf hfe] at hc
      have := h f c hc
      push_cast
      omega

/-- One unlock() call raises no count. -/
theorem unlock_count_le (o : FsObj) (reg : Registry) (rc : Bool) (n : Nat)
    (h : ∀ f c, reg.fuidMap f = some c → c ≤ (n : Int)) :
    ∀ f c, (o.unlock reg rc).reg.fuidMap f = some c → c ≤ ((n + 1 : Nat) : Int) := by
  intro f c hc
  cases hf : o.getfuid with
  | error e =>
    have hreg : (o.unlock reg rc).reg = reg := by simp [FsObj.unlock, hf]
    rw [hreg] at hc
    have := h f c hc
    push_cast
    omega
  | ok fo =>
    by_cases hfe : f = fo
    · subst hfe
      cases hl : o.isLocked with
      | false =>
        have hreg : (o.unlock reg rc).reg = reg := by simp [FsObj.unlock, hf, hl]
        rw [hreg] at hc
        have := h f c hc
        push_cast
        omega
      | true =>
        cases hm : reg.fuidMap f with
        | none =>
          have hreg : (o.unlock reg rc).reg = reg := by simp [FsObj.unlock, hf, hl, hm]
          rw [hreg, hm] at hc
          cases hc
        | some c0 =>
          have hb := h f c0 hm
          by_cases h1 : c0 = 1
          · subst h1
            cases rc with
            | false =>
              have hreg : (o.unlock reg false).reg.fuidMap = reg.fuidMap := by
                simp [FsObj.unlock, hf, hl, hm, Registry.issue]
              rw [hreg, hm] at hc
              injection hc with hc
              push_cast
              omega
            | true =>
              have h2 := ((unlock_at_one o reg true f hf hl hm).2 rfl).2.1
              rw [h2] at hc
              cases hc
          · have hreg : (o.unlock reg rc).reg = reg.assign f (c0 - 1) := by
              simp [FsObj.unlock, hf, hl, hm, h1]
            rw [hreg] at hc
            simp only [Registry.assign, if_true] at hc
            injection hc with hc
            push_cast
            omega
    · rw [unlock_frame o reg rc fo f hf hfe] at hc
      have := h f c hc
      push_cast
      omega

/-- After a run of calls no count exceeds the number of calls made, so that a
run of fewer than 2^31 calls stays within the C++ int. -/
theorem run_count_le (acts : List Action) :
    ∀ (s : Sys) (n : Nat), (∀ f c, s.reg.fuidMap f = some c → c ≤ (n : Int)) →
      ∀ f c, (s.run acts).reg.fuidMap f = some c → c ≤ ((n + acts.length : Nat) : Int) := by
  induction acts with
  | nil => intro s n h f c hc; simpa [Sys.run] using h f c hc
  | cons a as ih =>
    intro s n h f c hc
    have hstep : ∀ f c, (s.step a).reg.fuidMap f = some c → c ≤ ((n + 1 : Nat) : Int) := by
      cases a with
      | lock i rc =>
        cases hi : s.objs[i]? with
        | none =>
          intro f c hc
          have := h f c (by simpa [Sys.step, hi] using hc)
          push_cast
          omega
        | some o =>
          intro f c hc
          exact lock_count_le o s.reg rc n h f c (by simpa [Sys.step, hi] using hc)
      | unlock i rc =>
        cases hi : s.objs[i]? with
        | none =>
          intro f c hc
          have := h f c (by simpa [Sys.step, hi] using hc)
          push_cast
          omega
        | some o =>
          intro f c hc
          exact unlock_count_le o s.reg rc n h f c (by simpa [Sys.step, hi] using hc)
    have := ih (s.step a) (n + 1) hstep f c (by simpa [Sys.run] using hc)
    simp only [List.length_cons]
    push_cast at this ⊢
    omega

/-- From objects that start unlocked, as the constructors of FsObj leave them,
an object whose flag is set always finds its identity in the table: the assert
of unlock() never fails, and unlock() never creates an entry by reading one. -/
theorem locked_object_has_entry (handles : List Handle) (acts : List Action) (o : FsObj)
    (f : fuid_t) (ho : o ∈ ((Sys.init handles).run acts).objs) (hl : o.isLocked = true)
    (hf : o.getfuid = .ok f) (rc : Bool) :
    ((Sys.init handles).run acts).reg.fuidMap f ≠ none ∧
    (o.unlock ((Sys.init handles).run acts).reg rc).thrown ≠ some .assert_abort := by
  have h0 : ∀ g, (((Sys.init handles).holders g : Nat) : Int) ≤ (Sys.init handles).reg.count g := by
    intro g
    rw [init_holders]
    simp [Registry.count, Sys.init, Registry.empty]
  have h := run_holders_le_count acts (Sys.init handles) h0 f
  have hpos : 0 < ((Sys.init handles).run acts).holders f := by
    unfold Sys.holders
    rw [List.countP_pos_iff]
    exact ⟨o, ho, by simp [holds_of_ok f f o hf, hl]⟩
  have hne : ((Sys.init handles).run acts).reg.fuidMap f ≠ none := by
    intro hn
    have hz : ((Sys.init handles).run acts).reg.count f = 0 := by simp [Registry.count, hn]
    rw [hz] at h
    omega
  refine ⟨hne, ?_⟩
  cases hm : ((Sys.init handles).run acts).reg.fuidMap f with
  | none => exact absurd hm hne
  | some c =>
    by_cases h1 : c = 1
    · cases rc <;> simp [FsObj.unlock, hf, hl, hm, h1]
    · simp [FsObj.unlock, hf, hl, hm, h1]

/-- A lock() whose kernel request fails throws and leaves the table and the
object as they were. -/
theorem lock_request_failed (o : FsObj) (reg : Registry)
    (hcall : (o.lock reg false).reg.calls = reg.calls ++ [KCall.request_right o.handle]) :
    (o.lock reg false).thrown = some (.ltfsdm .GENERAL_ERROR) ∧
    (o.lock reg false).reg.fuidMap = reg.fuidMap ∧ (o.lock reg false).obj = o := by
  cases hf : o.getfuid with
  | error e =>
    have hreg : (o.lock reg false).reg = reg := by simp [FsObj.lock, hf]
    rw [hreg] at hcall
    simp at hcall
  | ok fo =>
    cases hm : reg.fuidMap fo with
    | none => simp [FsObj.lock, hf, hm, Registry.issue]
    | some c =>
      have h := (lock_present o reg false fo c hf hm).1
      rw [h] at hcall
      simp at hcall

/-- An unlock() whose kernel release fails throws and leaves the table and the
object as they were. -/
theorem unlock_release_failed (o : FsObj) (reg : Registry)
    (hcall : (o.unlock reg false).reg.calls = reg.calls ++ [KCall.release_right o.handle]) :
    (o.unlock reg false).thrown = some (.ltfsdm .GENERAL_ERROR) ∧
    (o.unlock reg false).reg.fuidMap = reg.fuidMap ∧ (o.unlock reg false).obj = o := by
  cases hf : o.getfuid with
  | error e =>
    have hreg : (o.unlock reg false).reg = reg := by simp [FsObj.unlock, hf]
    rw [hreg] at hcall
    simp at hcall
  | ok fo =>
    cases hl : o.isLocked with
    | false =>
      have hreg : (o.unlock reg false).reg = reg := by simp [FsObj.unlock, hf, hl]
      rw [hreg] at hcall
      simp at hcall
    | true =>
      cases hm : reg.fuidMap fo with
      | none =>
        have hreg : (o.unlock reg false).reg = reg := by simp [FsObj.unlock, hf, hl, hm]
        rw [hreg] at hcall
        simp at hcall
      | some c =>
        by_cases h1 : c = 1
        · subst h1
          simp [FsObj.unlock, hf, hl, hm, Registry.issue]
        · have hreg : (o.unlock reg false).reg = reg.assign fo (c - 1) := by
            simp [FsObj.unlock, hf, hl, hm, h1]
          rw [hreg] at hcall
          simp [Registry.assign] at hcall


/-- The sample run step by step: the refused request leaves no entry and no
right; after the two granted locks the count is 2 and the right is held once;
the refused release leaves the count 1 and the right held; the granted release
removes both. -/
theorem sampleRun_trace :
    ((KSys.start [sampleObj, sampleObj2]).run (sampleRun.take 1)).sys.reg.fuidMap sampleFuid = none ∧
    ((KSys.start [sampleObj, sampleObj2]).run (sampleRun.take 1)).rights sampleFuid = 0 ∧
    ((KSys.start [sampleObj, sampleObj2]).run (sampleRun.take 3)).sys.reg.fuidMap sampleFuid = some 2 ∧
    ((KSys.start [sampleObj, sampleObj2]).run (sampleRun.take 3)).rights sampleFuid = 1 ∧
    ((KSys.start [sampleObj, sampleObj2]).run (sampleRun.take 5)).sys.reg.fuidMap sampleFuid = some 1 ∧
    ((KSys.start [sampleObj, sampleObj2]).run (sampleRun.take 5)).rights sampleFuid = 1 ∧
    ((KSys.start [sampleObj, sampleObj2]).run sampleRun).sys.reg.fuidMap sampleFuid = none ∧
    ((KSys.start [sampleObj, sampleObj2]).run sampleRun).rights sampleFuid = 0 := by
  decide

/-- C21. In every state reached from the empty lock table by lock() and
unlock() calls of any file objects, the kernel granting or refusing each
request and release: every table entry has a count of at least 1 (and of at
most the number of calls made), and the kernel holds the exclusive right of an
identity exactly when the identity has a table entry (its number of rights is 1
then and 0 otherwise). A lock() whose kernel request failed and an unlock()
whose kernel release failed throw GENERAL_ERROR and leave the table and the
object, its locked flag included, unchanged. -/
theorem lock_table_invariant (objs : List FsObj) (acts : List Action) :
    (∀ f c, ((KSys.start objs).run acts).sys.reg.fuidMap f = some c →
      1 ≤ c ∧ c ≤ (acts.length : Int)) ∧
    (∀ f, ((KSys.start objs).run acts).rights f = 1 ↔
      ((KSys.start objs).run acts).sys.reg.fuidMap f ≠ none) ∧
    (∀ f, ((KSys.start objs).run acts).rights f = 0 ↔
      ((KSys.start objs).run acts).sys.reg.fuidMap f = none) ∧
    (∀ (o : FsObj) (reg : Registry),
      (o.lock reg false).reg.calls = reg.calls ++ [KCall.request_right o.handle] →
      (o.lock reg false).thrown = some (.ltfsdm .GENERAL_ERROR) ∧
      (o.lock reg false).reg.fuidMap = reg.fuidMap ∧ (o.lock reg false).obj = o) ∧
    (∀ (o : FsObj) (reg : Registry),
      (o.unlock reg false).reg.calls = reg.calls ++ [KCall.release_right o.handle] →
      (o.unlock reg false).thrown = some (.ltfsdm .GENERAL_ERROR) ∧
      (o.unlock reg false).reg.fuidMap = reg.fuidMap ∧ (o.unlock reg false).obj = o) := by
  have hstart : tableMatchesRights (KSys.start objs).sys.reg (KSys.start objs).rights := by
    intro f
    left
    exact ⟨rfl, rfl⟩
  have hinv := run_keeps_agreement acts (KSys.start objs) hstart
  have hbound := run_count_le acts (KSys.start objs).sys 0
    (by intro f c hc; simp [KSys.start, Registry.empty] at hc)
  rw [← krun_sys] at hbound
  refine ⟨?_, ?_, ?_, lock_request_failed, unlock_release_failed⟩
  · intro f c hc
    have hb := hbound f c hc
    rcases hinv f with h | ⟨c2, h1, h2, _⟩
    · rw [h.1] at hc; cases hc
    · rw [h2] at hc
      injection hc with hc
      subst hc
      refine ⟨h1, ?_⟩
      push_cast at hb
      omega
  · intro f
    rcases hinv f with h | ⟨c2, _, h2, h3⟩
    · simp [h.1, h.2]
    · simp [h2, h3]
  · intro f
    rcases hinv f with h | ⟨c2, _, h2, h3⟩
    · simp [h.1, h.2]
    · simp [h2, h3]

/-- C21 on a run of two objects of one file: a refused request, two granted
locks, an unlock, a refused release and a granted one. The refused request and
the refused release are calls that reach the kernel. -/
theorem lock_table_invariant_witness :
    (∀ f c, ((KSys.start [sampleObj, sampleObj2]).run sampleRun).sys.reg.fuidMap f = some c →
      1 ≤ c ∧ c ≤ (sampleRun.length : Int)) ∧
    ((sampleObj.lock Registry.empty false).reg.calls
        = Registry.empty.calls ++ [KCall.request_right sampleObj.handle] ∧
      (sampleObj.lock Registry.empty false).thrown = some (.ltfsdm .GENERAL_ERROR) ∧
      (sampleObj.lock Registry.empty false).reg.fuidMap = Registry.empty.fuidMap ∧
      (sampleObj.lock Registry.empty false).obj = sampleObj) ∧
    (((sampleObj.lock Registry.empty true).obj.unlock
          (sampleObj.lock Registry.empty true).reg false).reg.calls
        = (sampleObj.lock Registry.empty true).reg.calls
          ++ [KCall.release_right (sampleObj.lock Registry.empty true).obj.handle] ∧
      ((sampleObj.lock Registry.empty true).obj.unlock
          (sampleObj.lock Registry.empty true).reg false).reg.fuidMap
        = (sampleObj.lock Registry.empty true).reg.fuidMap ∧
      ((sampleObj.lock Registry.empty true).obj.unlock
          (sampleObj.lock Registry.empty true).reg false).obj
        = (sampleObj.lock Registry.empty true).obj) :=
  ⟨(lock_table_invariant [sampleObj, sampleObj2] sampleRun).1,
   ⟨rfl, (lock_table_invariant [sampleObj, sampleObj2] sampleRun).2.2.2.1 sampleObj
      Registry.empty rfl⟩,
   ⟨rfl,
    ((lock_table_invariant [sampleObj, sampleObj2] sampleRun).2.2.2.2
      (sampleObj.lock Registry.empty true).obj (sampleObj.lock Registry.empty true).reg rfl).2⟩⟩

end LTFSDM
